import Mathlib

/-! Snake game server: frame codec and shared game state.

A shallow embedding of `NSP-Final/proto.c`, `NSP-Final/common.h` and `server.c`.

Conventions of the embedding.

* A byte is a `Nat` below 256; a byte buffer of `len` bytes is a `List Nat`.
* A socket is the list of bytes it will still deliver before end of file
  (for `recv`) and the list of bytes written to it (for `send`); `send` and
  `malloc` are taken to succeed.
* C `int` values are `Int` (signed overflow, which is undefined in C, is not
  modelled); `uint16_t`, `uint32_t`, `uint64_t` wrap with an explicit `%`.
* C arrays are total functions from their `int` index.
* `rand()` is the list of the values it is going to return; a retry loop that
  has used up the list without leaving is reported as `none`.
-/

namespace NSP

/-! ## common.h -/

def MAP_WIDTH : Int := 40
def MAP_HEIGHT : Int := 40
def MAX_PLAYERS : Nat := 100
def MAX_SNAKE_LENGTH : Int := 100

def CELL_EMPTY : Int := 0
def CELL_WALL : Int := 1
def CELL_FOOD : Int := 2
def CELL_PLAYER_BASE : Int := 10

def XOR_KEY : Nat := 0x5A

def OP_LOGIN_REQ : Nat := 0x0001
def OP_LOGIN_RESP : Nat := 0x0002
def OP_MOVE : Nat := 0x0003
def OP_UPDATE : Nat := 0x0004
def OP_ERROR : Nat := 0x0005
def OP_LOGOUT : Nat := 0x0006
def OP_DIE : Nat := 0x0007

def DIR_UP : Nat := 87
def DIR_DOWN : Nat := 83
def DIR_LEFT : Nat := 65
def DIR_RIGHT : Nat := 68

def MAX_PAYLOAD_SIZE : Nat := 1024 * 256

/-! ## proto.c -/

/-- The `uint32_t sum`, wrapping at every addition, masked to 16 bits at the end. -/
def calculate_checksum (data : List Nat) : Nat :=
  (data.foldl (fun sum b => (sum + b) % 2 ^ 32) 0) &&& 0xFFFF

/-- Every `unsigned char` of the buffer is XORed with the key. -/
def xor_cipher (data : List Nat) : List Nat :=
  data.map (fun b => (b ^^^ XOR_KEY) % 256)

/-- The two bytes of `htons v` in memory order. -/
def htons (v : Nat) : List Nat := [v / 256 % 256, v % 256]

/-- The four bytes of `htonl v` in memory order. -/
def htonl (v : Nat) : List Nat :=
  [v / 2 ^ 24 % 256, v / 2 ^ 16 % 256, v / 2 ^ 8 % 256, v % 256]

/-- The value `ntohs` reads from two bytes in memory order. -/
def ntohs (b0 b1 : Nat) : Nat := b0 * 256 + b1

/-- The value `ntohl` reads from four bytes in memory order. -/
def ntohl (b0 b1 b2 b3 : Nat) : Nat := b0 * 2 ^ 24 + b1 * 2 ^ 16 + b2 * 2 ^ 8 + b3

/-- The bytes `send_packet` writes to the socket: the packed header
(`length`, `opcode`, `checksum`) and then the obfuscated buffer.  `payload` is
the pointer (`none` for `NULL`), of which the first `payload_len` bytes are read. -/
def send_packet (opcode : Nat) (payload : Option (List Nat)) (payload_len : Nat) : List Nat :=
  match payload with
  | some p =>
    if payload_len > 0 then
      htonl payload_len ++ htons opcode
        ++ htons (calculate_checksum (p.take payload_len))
        ++ xor_cipher (p.take payload_len)
    else
      htonl payload_len ++ htons opcode ++ htons 0
  | none => htonl payload_len ++ htons opcode ++ htons 0

/-- The place where `recv_packet` returned `-1`. -/
inductive RecvError where
  | ShortRead
  | MalformedFrame
  | ChecksumMismatch
deriving DecidableEq, Repr

/-- The out-parameters of a successful `recv_packet`. -/
structure Frame where
  opcode : Nat
  payload : Option (List Nat)
  payload_len : Nat
deriving DecidableEq, Repr

/-- The bytes behind the payload pointer (`NULL` holds none). -/
def Frame.bytes (f : Frame) : List Nat := f.payload.getD []

/-- One `recv_packet` on the stream: the result and the bytes left unread.
The header is read whole or not at all (`MSG_WAITALL`); the body loop ends
with `len` bytes or at end of file. -/
def recv_packet (stream : List Nat) : Except RecvError Frame × List Nat :=
  match stream with
  | b0 :: b1 :: b2 :: b3 :: b4 :: b5 :: b6 :: b7 :: rest =>
    let len := ntohl b0 b1 b2 b3
    let opcode := ntohs b4 b5
    let received_checksum := ntohs b6 b7
    if len > MAX_PAYLOAD_SIZE then (.error .MalformedFrame, rest)
    else if len > 0 then
      if rest.length < len then (.error .ShortRead, [])
      else
        let payload := xor_cipher (rest.take len)
        if calculate_checksum payload ≠ received_checksum then
          (.error .ChecksumMismatch, rest.drop len)
        else (.ok ⟨opcode, some payload, len⟩, rest.drop len)
    else (.ok ⟨opcode, none, len⟩, rest)
  | _ => (.error .ShortRead, [])

/-! ## Shared game state (common.h) -/

structure Point where
  x : Int
  y : Int
deriving DecidableEq, Repr

structure Snake where
  body : Int → Point
  length : Int
  direction : Nat
  alive : Int

/-- The shared `GameState` without its mutex; `map y x` is `map[y][x]`. -/
structure GameState where
  map : Int → Int → Int
  scores : Int → Int
  active_players : Int → Int
  snakes : Int → Snake
  version : Nat

/-- The array `a` after `a[i] = v`. -/
def setAt {α : Type} (a : Int → α) (i : Int) (v : α) : Int → α :=
  fun j => if j = i then v else a j

/-- The grid `m` after `m[y][x] = v`. -/
def setCell (m : Int → Int → Int) (y x v : Int) : Int → Int → Int :=
  fun y1 x1 => if y1 = y ∧ x1 = x then v else m y1 x1

/-- Indices of the `MAP_HEIGHT` by `MAP_WIDTH` array. -/
def inGrid (x y : Int) : Prop := 0 ≤ x ∧ x < MAP_WIDTH ∧ 0 ≤ y ∧ y < MAP_HEIGHT

instance (x y : Int) : Decidable (inGrid x y) := by unfold inGrid; infer_instance

/-- Cells off the border: `1 .. MAP_WIDTH - 2` by `1 .. MAP_HEIGHT - 2`. -/
def interior (x y : Int) : Prop := 1 ≤ x ∧ x ≤ MAP_WIDTH - 2 ∧ 1 ≤ y ∧ y ≤ MAP_HEIGHT - 2

instance (x y : Int) : Decidable (interior x y) := by unfold interior; infer_instance

/-- The coordinate `rand() % (MAP_WIDTH - 2) + 1` for the value `r` of `rand()`
(both dimensions are 40, so the same expression serves for `ry`). -/
def rand_coord (r : Nat) : Int := ((r % 38 + 1 : Nat) : Int)

/-! ## server.c: the simulator -/

/-- The retry loop of `spawn_food`; every round takes two values of `rand()`. -/
def spawn_food : List Nat → GameState → Option (GameState × List Nat)
  | r1 :: r2 :: rest, g =>
    let rx := rand_coord r1
    let ry := rand_coord r2
    if g.map ry rx = CELL_EMPTY then
      some ({ g with map := setCell g.map ry rx CELL_FOOD }, rest)
    else spawn_food rest g
  | _, _ => none

/-- The point `new_head` computed from `s->body[0]` and `s->direction`. -/
def new_head (s : Snake) : Point :=
  let head := s.body 0
  if s.direction = DIR_UP then { head with y := head.y - 1 }
  else if s.direction = DIR_DOWN then { head with y := head.y + 1 }
  else if s.direction = DIR_LEFT then { head with x := head.x - 1 }
  else if s.direction = DIR_RIGHT then { head with x := head.x + 1 }
  else head

/-- The loop `for (j = 0; j < s->length; j++) map[body[j].y][body[j].x] = CELL_EMPTY`. -/
def clear_body (m : Int → Int → Int) (body : Int → Point) (length : Int) : Int → Int → Int :=
  (List.range length.toNat).foldl
    (fun (m1 : Int → Int → Int) (j : Nat) =>
      setCell m1 (body (j : Int)).y (body (j : Int)).x CELL_EMPTY) m

/-- The loop `for (j = ...; j > 0; j--) body[j] = body[j - 1]`, entered with `j`. -/
def shift_body (body : Int → Point) : Nat → Int → Point
  | 0 => body
  | j + 1 => shift_body (setAt body ((j : Int) + 1) (body (j : Int))) j

/-- The body of the `for (i ...)` loop of `game_tick_loop` for slot `i`. -/
def tick_player (i : Nat) (g : GameState) (rs : List Nat) : Option (GameState × List Nat) :=
  if g.active_players i ≠ 0 ∧ (g.snakes i).alive ≠ 0 then
    let s := g.snakes i
    let nh := new_head s
    if g.map nh.y nh.x = CELL_WALL ∨ g.map nh.y nh.x ≥ CELL_PLAYER_BASE then
      some ({ g with
                snakes := setAt g.snakes i { s with alive := 0 }
                active_players := setAt g.active_players i 0
                map := clear_body g.map s.body s.length }, rs)
    else if g.map nh.y nh.x = CELL_FOOD then
      match spawn_food rs { g with scores := setAt g.scores i (g.scores i + 1) } with
      | none => none
      | some (g1, rs1) =>
        let length1 := if s.length < MAX_SNAKE_LENGTH then s.length + 1 else s.length
        let body1 := setAt (shift_body s.body (length1 - 1).toNat) 0 nh
        some ({ g1 with
                  snakes := setAt g1.snakes i { s with length := length1, body := body1 }
                  map := setCell g1.map nh.y nh.x (CELL_PLAYER_BASE + i) }, rs1)
    else
      let tail := s.body (s.length - 1)
      let m1 := setCell g.map tail.y tail.x CELL_EMPTY
      let body1 := setAt (shift_body s.body (s.length - 1).toNat) 0 nh
      some ({ g with
                snakes := setAt g.snakes i { s with body := body1 }
                map := setCell m1 nh.y nh.x (CELL_PLAYER_BASE + i) }, rs)
  else some (g, rs)

/-- The `for (i ...)` loop of `game_tick_loop` over the slots still to visit. -/
def tick_players : List Nat → GameState → List Nat → Option (GameState × List Nat)
  | [], g, rs => some (g, rs)
  | i :: more, g, rs =>
    match tick_player i g rs with
    | none => none
    | some (g1, rs1) => tick_players more g1 rs1

/-- One round of the `while (running)` loop of `game_tick_loop`, from lock to
unlock: every slot in ascending order, then `version++` on the `uint64_t`. -/
def game_tick (g : GameState) (rs : List Nat) : Option (GameState × List Nat) :=
  match tick_players (List.range MAX_PLAYERS) g rs with
  | none => none
  | some (g1, rs1) => some ({ g1 with version := (g1.version + 1) % 2 ^ 64 }, rs1)

/-! ## server.c: the request handler -/

/-- Modelled from the spec: `OP_HEARTBEAT`, used by `server.c` but declared in a
header that is not part of the sources at hand; section 4.5 gives HEARTBEAT (8). -/
def OP_HEARTBEAT : Nat := 0x0008

/-- Modelled from the spec: `OP_HEARTBEAT_ACK`, used by `server.c` but declared in
a header that is not part of the sources at hand; section 4.5 gives HEARTBEAT_ACK (9). -/
def OP_HEARTBEAT_ACK : Nat := 0x0009

/-- The loop over the whole grid that empties every cell holding the token of
slot `p` (it is written out three times in `server.c`). -/
def clear_player_cells (m : Int → Int → Int) (p : Int) : Int → Int → Int :=
  (List.range MAP_HEIGHT.toNat).foldl
    (fun (my : Int → Int → Int) (y : Nat) =>
      (List.range MAP_WIDTH.toNat).foldl
        (fun (mx : Int → Int → Int) (x : Nat) =>
          if mx (y : Int) (x : Int) = CELL_PLAYER_BASE + p then
            setCell mx (y : Int) (x : Int) CELL_EMPTY
          else mx) my) m

/-- The locked block shared by disconnect, `OP_LOGOUT` and idle timeout:
`active_players[p] = 0` and the token of `p` wiped off the grid. -/
def release_player (g : GameState) (p : Int) : GameState :=
  { g with
      active_players := setAt g.active_players p 0
      map := clear_player_cells g.map p }

/-- The `while (!placed)` loop of the login branch for the slot `i`. -/
def spawn_player : List Nat → GameState → Int → Option (GameState × List Nat)
  | r1 :: r2 :: rest, g, i =>
    let rx := rand_coord r1
    let ry := rand_coord r2
    if g.map ry rx = CELL_EMPTY then
      some ({ g with
                map := setCell g.map ry rx (CELL_PLAYER_BASE + i)
                snakes := setAt g.snakes i
                  { g.snakes i with body := setAt (g.snakes i).body 0 ⟨rx, ry⟩ } }, rest)
    else spawn_player rest g i
  | _, _, _ => none

/-- The slot scan of the login branch over the slots still to visit; the
result carries `new_id` (`-1` when the scan ends without a free slot). -/
def login_scan : List Nat → GameState → List Nat → Option (GameState × Int × List Nat)
  | [], g, rs => some (g, -1, rs)
  | i :: more, g, rs =>
    if g.active_players i = 0 then
      let g1 : GameState :=
        { g with
            active_players := setAt g.active_players i 1
            scores := setAt g.scores i 0
            snakes := setAt g.snakes i
              { g.snakes i with length := 1, alive := 1, direction := DIR_RIGHT } }
      match spawn_player rs g1 i with
      | none => none
      | some (g2, rs1) => some (g2, (i : Int), rs1)
    else login_scan more g rs

/-- The four bytes of an `int` in the memory of the (little-endian) host. -/
def int_bytes (v : Int) : List Nat :=
  let u := (v % 2 ^ 32).toNat
  [u % 256, u / 2 ^ 8 % 256, u / 2 ^ 16 % 256, u / 2 ^ 24 % 256]

/-- The eleven bytes of the literal "Server Full". -/
def server_full : List Nat := [83, 101, 114, 118, 101, 114, 32, 70, 117, 108, 108]

/-- What one `handle_client_message` leaves behind. -/
structure Handled where
  state : GameState
  player_id : Int
  sent : List Nat
  closed : Bool
  stream : List Nat
  rand : List Nat

/-- How a call ended: it returned, a retry loop used up `rand()`, or it read
through a `NULL` pointer. -/
inductive Outcome (α : Type) where
  | done (a : α)
  | spin
  | fault

/-- The MOVE branch under the lock, for the slot `p` and the byte `dir`. -/
def apply_move (g : GameState) (p : Int) (dir : Nat) : GameState :=
  if g.active_players p ≠ 0 ∧ (g.snakes p).alive ≠ 0 then
    let current := (g.snakes p).direction
    if ¬ ((current = DIR_UP ∧ dir = DIR_DOWN) ∨
          (current = DIR_DOWN ∧ dir = DIR_UP) ∨
          (current = DIR_LEFT ∧ dir = DIR_RIGHT) ∨
          (current = DIR_RIGHT ∧ dir = DIR_LEFT)) then
      { g with snakes := setAt g.snakes p { g.snakes p with direction := dir } }
    else g
  else g

/-- One call `handle_client_message(client_fd, &player_id)`: `stream` is what the
client socket delivers, `player_id` the slot of the connection (`-1` for none). -/
def handle_client_message (stream : List Nat) (rs : List Nat) (g : GameState)
    (player_id : Int) : Outcome Handled :=
  match recv_packet stream with
  | (.error _, rest) =>
    .done { state := if player_id ≥ 0 then release_player g player_id else g
            player_id := -1, sent := [], closed := true, stream := rest, rand := rs }
  | (.ok f, rest) =>
    if f.opcode = OP_LOGIN_REQ then
      match login_scan (List.range MAX_PLAYERS) g rs with
      | none => .spin
      | some (g1, new_id, rs1) =>
        if new_id ≠ -1 then
          .done { state := g1, player_id := new_id
                  sent := send_packet OP_LOGIN_RESP (some (int_bytes new_id)) 4
                  closed := false, stream := rest, rand := rs1 }
        else
          .done { state := g1, player_id := -1
                  sent := send_packet OP_ERROR (some server_full) 11
                  closed := true, stream := rest, rand := rs1 }
    else if f.opcode = OP_MOVE ∧ player_id ≥ 0 then
      match f.payload with
      | some (dir :: _) =>
        .done { state := apply_move g player_id dir, player_id := player_id
                sent := [], closed := false, stream := rest, rand := rs }
      | _ => .fault
    else if f.opcode = OP_HEARTBEAT then
      .done { state := g, player_id := player_id
              sent := send_packet OP_HEARTBEAT_ACK none 0
              closed := false, stream := rest, rand := rs }
    else if f.opcode = OP_LOGOUT ∧ player_id ≥ 0 then
      .done { state := release_player g player_id, player_id := -1
              sent := [], closed := true, stream := rest, rand := rs }
    else
      .done { state := g, player_id := player_id
              sent := [], closed := false, stream := rest, rand := rs }

/-! ## Vocabulary for the statements -/

/-- The guard of the simulator loop: slot `i` is active and its snake alive. -/
def playing (g : GameState) (i : Int) : Prop :=
  g.active_players i ≠ 0 ∧ (g.snakes i).alive ≠ 0

instance (g : GameState) (i : Int) : Decidable (playing g i) := by
  unfold playing; infer_instance

/-- The content of the cell the snake of slot `i` is about to enter. -/
def dest_cell (g : GameState) (i : Int) : Int :=
  g.map (new_head (g.snakes i)).y (new_head (g.snakes i)).x

/-! ## Sample states -/

/-- The grid after the wall loop of `init_game_map`: border cells are walls,
the others empty. -/
def walled_map : Int → Int → Int :=
  fun y x =>
    if x = 0 ∨ x = MAP_WIDTH - 1 ∨ y = 0 ∨ y = MAP_HEIGHT - 1 then CELL_WALL else CELL_EMPTY

/-- A `Snake` of zero bytes, as `memset` leaves it. -/
def zero_snake : Snake := { body := fun _ => ⟨0, 0⟩, length := 0, direction := 0, alive := 0 }

/-- The state after the wall loop of `init_game_map`, before any food or player. -/
def empty_server : GameState :=
  { map := walled_map, scores := fun _ => 0, active_players := fun _ => 0,
    snakes := fun _ => zero_snake, version := 0 }

/-- The walled grid with a single snake of length 1 in slot 0, its head on
`(x, y)`, facing `dir`. -/
def lone_snake (x y : Int) (dir : Nat) : GameState :=
  { map := setCell walled_map y x (CELL_PLAYER_BASE + 0)
    scores := fun _ => 0
    active_players := setAt (fun _ => 0) 0 1
    snakes := setAt (fun _ => zero_snake) 0
      { body := setAt (fun _ => ⟨0, 0⟩) 0 ⟨x, y⟩, length := 1, direction := dir, alive := 1 }
    version := 0 }

/-- The state `lone_snake 1 1 DIR_RIGHT` with food on `(2, 1)`, right before the head. -/
def snake_before_food : GameState :=
  { lone_snake 1 1 DIR_RIGHT with
      map := setCell (lone_snake 1 1 DIR_RIGHT).map 1 2 CELL_FOOD }

/-- Two snakes of length 1 in a row, both facing right: slot 0 on `(5, 5)` and,
right behind it, slot 1 on `(4, 5)`. -/
def two_in_a_row : GameState :=
  { map := setCell (setCell walled_map 5 5 (CELL_PLAYER_BASE + 0)) 5 4 (CELL_PLAYER_BASE + 1)
    scores := fun _ => 0
    active_players := setAt (setAt (fun _ => 0) 0 1) 1 1
    snakes := setAt (setAt (fun _ => zero_snake) 0
        { body := setAt (fun _ => ⟨0, 0⟩) 0 ⟨5, 5⟩, length := 1, direction := DIR_RIGHT,
          alive := 1 }) 1
        { body := setAt (fun _ => ⟨0, 0⟩) 0 ⟨4, 5⟩, length := 1, direction := DIR_RIGHT,
          alive := 1 }
    version := 0 }

/-! ## The invariants of the shared state -/

/-- First or last row, first or last column. -/
def border (x y : Int) : Prop := x = 0 ∨ x = MAP_WIDTH - 1 ∨ y = 0 ∨ y = MAP_HEIGHT - 1

instance (x y : Int) : Decidable (border x y) := by unfold border; infer_instance

/-- Every border cell of the grid is a wall. -/
def border_walls (g : GameState) : Prop :=
  ∀ x y, inGrid x y → border x y → g.map y x = CELL_WALL

/-- The snake of slot `i` has a length from 1 to `MAX_SNAKE_LENGTH` and its
first `length` body points are interior points. -/
def snake_shape (g : GameState) (i : Int) : Prop :=
  1 ≤ (g.snakes i).length ∧ (g.snakes i).length ≤ MAX_SNAKE_LENGTH
    ∧ ∀ j : Nat, (j : Int) < (g.snakes i).length →
        interior ((g.snakes i).body j).x ((g.snakes i).body j).y

/-- The first `length` body points of slot `i` are pairwise distinct and each
of their grid cells holds `CELL_PLAYER_BASE + i`. -/
def snake_stamped (g : GameState) (i : Int) : Prop :=
  (∀ j : Nat, (j : Int) < (g.snakes i).length →
      g.map ((g.snakes i).body j).y ((g.snakes i).body j).x = CELL_PLAYER_BASE + i)
    ∧ ∀ j k : Nat, (j : Int) < (g.snakes i).length → (k : Int) < (g.snakes i).length →
        (g.snakes i).body j = (g.snakes i).body k → j = k

/-- Border cells are walls and every playing snake has a length in range and
interior body points. -/
def tick_shape (g : GameState) : Prop :=
  border_walls g ∧ ∀ i : Nat, i < MAX_PLAYERS → playing g i → snake_shape g i

/-- The body invariant: border cells are walls and, for every playing slot
`i`, the first `length` body points are pairwise distinct interior points,
`1 ≤ length ≤ MAX_SNAKE_LENGTH`, and each of their cells holds
`CELL_PLAYER_BASE + i`. -/
def body_invariant (g : GameState) : Prop :=
  tick_shape g ∧ ∀ i : Nat, i < MAX_PLAYERS → playing g i → snake_stamped g i

/-- The number of cells of the grid that hold the value `v`. -/
def count_cells (m : Int → Int → Int) (v : Int) : Nat :=
  ((List.range MAP_HEIGHT.toNat).map
    (fun (y : Nat) =>
      ((List.range MAP_WIDTH.toNat).filter
        (fun (x : Nat) => decide (m (y : Int) (x : Int) = v))).length)).sum

/-! ## server.c: the simulator with array bounds -/

/-- An index of `body[MAX_SNAKE_LENGTH]`. -/
def body_index (j : Int) : Prop := 0 ≤ j ∧ j < MAX_SNAKE_LENGTH

instance (j : Int) : Decidable (body_index j) := by unfold body_index; infer_instance

/-- The loop of `clear_body`, leaving through `none` at the first access
outside `body` or outside the grid. -/
def clear_body_checked (m : Int → Int → Int) (body : Int → Point) (length : Int) :
    Option (Int → Int → Int) :=
  (List.range length.toNat).foldl
    (fun (acc : Option (Int → Int → Int)) (j : Nat) =>
      match acc with
      | none => none
      | some m1 =>
        if body_index (j : Int) ∧ inGrid (body (j : Int)).x (body (j : Int)).y then
          some (setCell m1 (body (j : Int)).y (body (j : Int)).x CELL_EMPTY)
        else none) (some m)

/-- The loop of `shift_body`, leaving through `none` at the first access
outside `body`. -/
def shift_body_checked (body : Int → Point) : Nat → Option (Int → Point)
  | 0 => some body
  | j + 1 =>
    if body_index ((j : Int) + 1) ∧ body_index (j : Int) then
      shift_body_checked (setAt body ((j : Int) + 1) (body (j : Int))) j
    else none

/-- The loop body `tick_player` with every access to `map` and to `body`
checked against the array bounds; an access out of range ends in `fault`.
(`body[0]` and the cell drawn by `spawn_food` are in range by construction.) -/
def tick_player_checked (i : Nat) (g : GameState) (rs : List Nat) :
    Outcome (GameState × List Nat) :=
  if g.active_players i ≠ 0 ∧ (g.snakes i).alive ≠ 0 then
    let s := g.snakes i
    let nh := new_head s
    if ¬ inGrid nh.x nh.y then .fault
    else if g.map nh.y nh.x = CELL_WALL ∨ g.map nh.y nh.x ≥ CELL_PLAYER_BASE then
      match clear_body_checked g.map s.body s.length with
      | none => .fault
      | some m1 =>
        .done ({ g with
                  snakes := setAt g.snakes i { s with alive := 0 }
                  active_players := setAt g.active_players i 0
                  map := m1 }, rs)
    else if g.map nh.y nh.x = CELL_FOOD then
      match spawn_food rs { g with scores := setAt g.scores i (g.scores i + 1) } with
      | none => .spin
      | some (g1, rs1) =>
        let length1 := if s.length < MAX_SNAKE_LENGTH then s.length + 1 else s.length
        match shift_body_checked s.body (length1 - 1).toNat with
        | none => .fault
        | some shifted =>
          .done ({ g1 with
                    snakes := setAt g1.snakes i
                      { s with length := length1, body := setAt shifted 0 nh }
                    map := setCell g1.map nh.y nh.x (CELL_PLAYER_BASE + i) }, rs1)
    else if ¬ body_index (s.length - 1) then .fault
    else
      let tail := s.body (s.length - 1)
      if ¬ inGrid tail.x tail.y then .fault
      else
        match shift_body_checked s.body (s.length - 1).toNat with
        | none => .fault
        | some shifted =>
          .done ({ g with
                    snakes := setAt g.snakes i { s with body := setAt shifted 0 nh }
                    map := setCell (setCell g.map tail.y tail.x CELL_EMPTY) nh.y nh.x
                      (CELL_PLAYER_BASE + i) }, rs)
  else .done (g, rs)

/-- The slot loop with checked accesses. -/
def tick_players_checked : List Nat → GameState → List Nat → Outcome (GameState × List Nat)
  | [], g, rs => .done (g, rs)
  | i :: more, g, rs =>
    match tick_player_checked i g rs with
    | .done (g1, rs1) => tick_players_checked more g1 rs1
    | .spin => .spin
    | .fault => .fault

/-- One tick with checked accesses. -/
def game_tick_checked (g : GameState) (rs : List Nat) : Outcome (GameState × List Nat) :=
  match tick_players_checked (List.range MAX_PLAYERS) g rs with
  | .done (g1, rs1) => .done ({ g1 with version := (g1.version + 1) % 2 ^ 64 }, rs1)
  | .spin => .spin
  | .fault => .fault

/-- The result of the unchecked simulator as an `Outcome`. -/
def as_outcome {α : Type} : Option α → Outcome α
  | none => .spin
  | some a => .done a

/-! ## server.c: initialisation -/

/-- The two wall loops of `init_game_map`, run on the grid of zero bytes that
`memset` leaves. -/
def init_walls : Int → Int → Int :=
  (List.range MAP_HEIGHT.toNat).foldl
    (fun (my : Int → Int → Int) (y : Nat) =>
      (List.range MAP_WIDTH.toNat).foldl
        (fun (mx : Int → Int → Int) (x : Nat) =>
          if (x : Int) = 0 ∨ (x : Int) = MAP_WIDTH - 1 ∨ (y : Int) = 0
              ∨ (y : Int) = MAP_HEIGHT - 1 then
            setCell mx (y : Int) (x : Int) CELL_WALL
          else setCell mx (y : Int) (x : Int) CELL_EMPTY) my) (fun _ _ => 0)

/-- The food loop of `init_game_map` with `n` rounds to go: every round takes
two values of `rand()` and writes food without looking at the cell; `none`
when the supply of values ends before the loop does. -/
def seed_food : Nat → List Nat → (Int → Int → Int) → Option ((Int → Int → Int) × List Nat)
  | 0, rs, m => some (m, rs)
  | n + 1, r1 :: r2 :: rest, m =>
    seed_food n rest (setCell m (rand_coord r2) (rand_coord r1) CELL_FOOD)
  | _ + 1, _, _ => none

/-- The state `init_game_map` leaves: everything zero, the walls, 20 rounds of food. -/
def init_game_map (rs : List Nat) : Option (GameState × List Nat) :=
  match seed_food 20 rs init_walls with
  | none => none
  | some (m, rs1) =>
    some ({ map := m, scores := fun _ => 0, active_players := fun _ => 0,
            snakes := fun _ =>
              { body := fun _ => ⟨0, 0⟩, length := 0, direction := 0, alive := 0 },
            version := 0 }, rs1)

/-! ## server.c: the worker -/

/-- What `worker_process` keeps for one client fd: membership of `masterfds`,
`client_ids[fd]`, `client_versions[fd]` and `client_last_activity[fd]`. -/
structure Client where
  registered : Bool
  client_id : Int
  client_version : Nat
  last_activity : Int

/-- The bytes of `map_copy`: the cells row by row, each as a host `int`. -/
def grid_bytes (m : Int → Int → Int) : List Nat :=
  ((List.range MAP_HEIGHT.toNat).map
    (fun (y : Nat) =>
      ((List.range MAP_WIDTH.toNat).map
        (fun (x : Nat) => int_bytes (m (y : Int) (x : Int)))).flatten)).flatten

/-- What one pass of a worker loop leaves behind for one fd. -/
structure Swept where
  state : GameState
  client : Client
  sent : List Nat
  closed : Bool

/-- The body of the first `for` loop of `worker_process` for one client fd:
idle timeout, death notice, snapshot.  `timeout` stands for
`CLIENT_TIMEOUT_SEC`, whose header is not among the sources, `now` for the
value of `time(NULL)` and `current_version` for the version read under the lock. -/
def worker_sweep (timeout now : Int) (current_version : Nat) (g : GameState) (c : Client) :
    Swept :=
  if c.registered then
    if c.last_activity > 0 ∧ now - c.last_activity > timeout then
      { state := if c.client_id ≥ 0 then release_player g c.client_id else g
        client := { c with registered := false, client_id := -1, last_activity := 0 }
        sent := [], closed := true }
    else if c.client_id ≠ -1 then
      if g.active_players c.client_id = 0 then
        { state := g
          client := { c with registered := false, client_id := -1, last_activity := 0 }
          sent := send_packet OP_DIE none 0, closed := true }
      else if c.client_version < current_version then
        { state := g
          client := { c with client_version := current_version }
          sent := send_packet OP_UPDATE (some (grid_bytes g.map)) 6400, closed := false }
      else { state := g, client := c, sent := [], closed := false }
    else { state := g, client := c, sent := [], closed := false }
  else { state := g, client := c, sent := [], closed := false }

/-- The branch of the second `for` loop of `worker_process` for a readable
client fd: the message is handled, `client_ids[fd]` takes the new id, the
activity time is set to `time(NULL)`, and an id of `-1` takes the fd out of
`masterfds`. -/
def worker_readable (now : Int) (stream rs : List Nat) (g : GameState) (c : Client) :
    Outcome (Handled × Client) :=
  match handle_client_message stream rs g c.client_id with
  | .done h =>
    let pid := h.player_id
    let c1 : Client := { c with client_id := pid, last_activity := now }
    if pid = -1 ∧ c1.client_id = -1 then
      .done (h, { c1 with registered := false, last_activity := 0 })
    else .done (h, c1)
  | .spin => .spin
  | .fault => .fault

/-- The value a finished call returned, if it finished. -/
def Outcome.result {α : Type} : Outcome α → Option α
  | .done a => some a
  | .spin => none
  | .fault => none

/-! ## More sample states -/

/-- The body of a snake of 100 points coiled through columns 2, 3 and 4:
down column 2 from `(2, 2)`, up column 3, down column 4 to `(4, 29)`. -/
def coiled_body (j : Int) : Point :=
  { x := 2 + ((j.toNat / 36 : Nat) : Int)
    y := if (j.toNat / 36) % 2 = 0 then 2 + ((j.toNat % 36 : Nat) : Int)
         else 37 - ((j.toNat % 36 : Nat) : Int) }

/-- The walled grid with the coiled snake of slot 0 stamped on it and food on
`(1, 2)`, left of its head. -/
def coiled_map : Int → Int → Int :=
  fun y x =>
    if x = 0 ∨ x = MAP_WIDTH - 1 ∨ y = 0 ∨ y = MAP_HEIGHT - 1 then CELL_WALL
    else if x = 1 ∧ y = 2 then CELL_FOOD
    else if (x = 2 ∧ 2 ≤ y ∧ y ≤ 37) ∨ (x = 3 ∧ 2 ≤ y ∧ y ≤ 37)
        ∨ (x = 4 ∧ 2 ≤ y ∧ y ≤ 29) then CELL_PLAYER_BASE + 0
    else CELL_EMPTY

/-- A single snake of full length `MAX_SNAKE_LENGTH` in slot 0 with score 99,
its head on `(2, 2)` facing left, towards the food on `(1, 2)`. -/
def coiled_snake : GameState :=
  { map := coiled_map
    scores := setAt (fun _ => 0) 0 99
    active_players := setAt (fun _ => 0) 0 1
    snakes := setAt (fun _ => zero_snake) 0
      { body := coiled_body, length := 100, direction := DIR_LEFT, alive := 1 }
    version := 0 }

/-- A snake of length 4 in slot 0 curled into the square `(5,5) (6,5) (6,6)
(5,6)`, its head on `(5, 5)` facing down, towards its own tail on `(5, 6)`. -/
def tail_chaser : GameState :=
  { map := setCell (setCell (setCell (setCell walled_map 5 5 (CELL_PLAYER_BASE + 0))
        5 6 (CELL_PLAYER_BASE + 0)) 6 6 (CELL_PLAYER_BASE + 0)) 6 5 (CELL_PLAYER_BASE + 0)
    scores := fun _ => 0
    active_players := setAt (fun _ => 0) 0 1
    snakes := setAt (fun _ => zero_snake) 0
      { body := setAt (setAt (setAt (setAt (fun _ => ⟨0, 0⟩) 0 ⟨5, 5⟩) 1 ⟨6, 5⟩) 2 ⟨6, 6⟩)
          3 ⟨5, 6⟩
        length := 4, direction := DIR_DOWN, alive := 1 }
    version := 0 }

/-- Three snakes of length 1 around the empty cell `(5, 5)`, all facing it:
slot 0 on `(4, 5)` facing right, slot 1 on `(6, 5)` facing left, slot 2 on
`(5, 4)` facing down. -/
def three_around_a_cell : GameState :=
  { map := setCell (setCell (setCell walled_map 5 4 (CELL_PLAYER_BASE + 0))
        5 6 (CELL_PLAYER_BASE + 1)) 4 5 (CELL_PLAYER_BASE + 2)
    scores := fun _ => 0
    active_players := setAt (setAt (setAt (fun _ => 0) 0 1) 1 1) 2 1
    snakes := setAt (setAt (setAt (fun _ => zero_snake) 0
        { body := setAt (fun _ => ⟨0, 0⟩) 0 ⟨4, 5⟩, length := 1, direction := DIR_RIGHT,
          alive := 1 }) 1
        { body := setAt (fun _ => ⟨0, 0⟩) 0 ⟨6, 5⟩, length := 1, direction := DIR_LEFT,
          alive := 1 }) 2
        { body := setAt (fun _ => ⟨0, 0⟩) 0 ⟨5, 4⟩, length := 1, direction := DIR_DOWN,
          alive := 1 }
    version := 0 }

/-- Two snakes of length 1 facing each other across the empty cell
`(5, 5)`: slot 0 on `(4, 5)` facing right, slot 1 on `(6, 5)` facing left. -/
def two_in_a_row_facing : GameState :=
  { map := setCell (setCell walled_map 5 4 (CELL_PLAYER_BASE + 0)) 5 6 (CELL_PLAYER_BASE + 1)
    scores := fun _ => 0
    active_players := setAt (setAt (fun _ => 0) 0 1) 1 1
    snakes := setAt (setAt (fun _ => zero_snake) 0
        { body := setAt (fun _ => ⟨0, 0⟩) 0 ⟨4, 5⟩, length := 1, direction := DIR_RIGHT,
          alive := 1 }) 1
        { body := setAt (fun _ => ⟨0, 0⟩) 0 ⟨6, 5⟩, length := 1, direction := DIR_LEFT,
          alive := 1 }
    version := 0 }

/-- The state `two_in_a_row_facing` with a third snake of length 1 in slot 2
on `(7, 5)`, facing left, right behind the snake of slot 1. -/
def facing_with_follower : GameState :=
  { map := setCell (setCell (setCell walled_map 5 4 (CELL_PLAYER_BASE + 0))
        5 6 (CELL_PLAYER_BASE + 1)) 5 7 (CELL_PLAYER_BASE + 2)
    scores := fun _ => 0
    active_players := setAt (setAt (setAt (fun _ => 0) 0 1) 1 1) 2 1
    snakes := setAt (setAt (setAt (fun _ => zero_snake) 0
        { body := setAt (fun _ => ⟨0, 0⟩) 0 ⟨4, 5⟩, length := 1, direction := DIR_RIGHT,
          alive := 1 }) 1
        { body := setAt (fun _ => ⟨0, 0⟩) 0 ⟨6, 5⟩, length := 1, direction := DIR_LEFT,
          alive := 1 }) 2
        { body := setAt (fun _ => ⟨0, 0⟩) 0 ⟨7, 5⟩, length := 1, direction := DIR_LEFT,
          alive := 1 }
    version := 0 }

/-- A connection that a worker has accepted at time 100 and that has not
logged in: registered, no slot. -/
def fresh_client : Client :=
  { registered := true, client_id := -1, client_version := 0, last_activity := 100 }

/-! ## Runs of operations -/

/-- One operation on the shared state, with the inputs it consumes: a tick
(the values of `rand()`), a call of `handle_client_message` (what the socket
delivers, the values of `rand()`, the slot of the connection), or the sweep of
a worker over one connection. -/
inductive Operation where
  | tick (rs : List Nat)
  | message (stream rs : List Nat) (player_id : Int)
  | sweep (timeout now : Int) (current_version : Nat) (c : Client)

/-- The shared state after one operation that finished. -/
def apply_op (g : GameState) : Operation → Option GameState
  | .tick rs => (game_tick g rs).map (fun r => r.1)
  | .message stream rs player_id =>
    (handle_client_message stream rs g player_id).result.map (fun h => h.state)
  | .sweep timeout now current_version c =>
    some (worker_sweep timeout now current_version g c).state

/-- The shared state after a sequence of operations, each of which finished. -/
def run_ops : List Operation → GameState → Option GameState
  | [], g => some g
  | o :: more, g =>
    match apply_op g o with
    | none => none
    | some g1 => run_ops more g1

/-- A run from `snake_before_food`: a second connection logs in (its snake is
put on `(5, 5)`), a tick in which slot 0 eats (new food on `(20, 20)`), a MOVE
of slot 1 to DOWN, and one more tick. -/
def meal_run : List Operation :=
  [.message (send_packet OP_LOGIN_REQ none 0) [4, 4] (-1),
   .tick [19, 19],
   .message (send_packet OP_MOVE (some [DIR_DOWN]) 1) [] 1,
   .tick []]

/-! ## Codec lemmas -/

theorem checksum_fold_mod (data : List Nat) (a : Nat) :
    data.foldl (fun sum b => (sum + b) % 2 ^ 32) a % 65536 = (a + data.sum) % 65536 := by
  induction data generalizing a with
  | nil => simp
  | cons b t ih =>
    simp only [List.foldl_cons, List.sum_cons]
    rw [ih]
    omega

theorem calculate_checksum_eq (data : List Nat) :
    calculate_checksum data = data.sum % 65536 := by
  unfold calculate_checksum
  have h : (0xFFFF : Nat) = 2 ^ 16 - 1 := by norm_num
  rw [h, Nat.and_pow_two_sub_one_eq_mod]
  have := checksum_fold_mod data 0
  simpa using this

theorem xor_key_byte (b : Nat) (hb : b < 256) : (b ^^^ XOR_KEY) % 256 = b ^^^ XOR_KEY := by
  apply Nat.mod_eq_of_lt
  have : b ^^^ XOR_KEY < 2 ^ 8 := Nat.xor_lt_two_pow (by simpa using hb) (by decide)
  simpa using this

theorem xor_key_twice (b : Nat) : (b ^^^ XOR_KEY) ^^^ XOR_KEY = b := by
  rw [Nat.xor_assoc, Nat.xor_self, Nat.xor_zero]

theorem xor_cipher_length (data : List Nat) : (xor_cipher data).length = data.length := by
  simp [xor_cipher]

theorem xor_cipher_involutive (data : List Nat) (hb : ∀ b ∈ data, b < 256) :
    xor_cipher (xor_cipher data) = data := by
  induction data with
  | nil => rfl
  | cons b t ih =>
    have hb0 : b < 256 := hb b (by simp)
    have ht : ∀ c ∈ t, c < 256 := fun c hc => hb c (by simp [hc])
    have ih2 := ih ht
    simp only [xor_cipher, List.map_cons, List.map_map] at ih2 ⊢
    rw [xor_key_byte b hb0, xor_key_twice, Nat.mod_eq_of_lt hb0]
    simp only [List.cons.injEq, true_and]
    simpa [List.map_map] using ih2


theorem calculate_checksum_lt (data : List Nat) : calculate_checksum data < 65536 := by
  rw [calculate_checksum_eq]; omega

theorem xor_cipher_bytes (data : List Nat) : ∀ b ∈ xor_cipher data, b < 256 := by
  intro b hb
  simp only [xor_cipher, List.mem_map] at hb
  obtain ⟨a, _, rfl⟩ := hb
  omega

theorem xor_cipher_eq_map (data : List Nat) (hb : ∀ b ∈ data, b < 256) :
    xor_cipher data = data.map (fun b => b ^^^ 0x5A) := by
  unfold xor_cipher
  apply List.map_congr_left
  intro b hmem
  exact xor_key_byte b (hb b hmem)

theorem ntohl_htonl_bytes (n : Nat) (hn : n < 2 ^ 32) :
    ntohl (n / 2 ^ 24 % 256) (n / 2 ^ 16 % 256) (n / 2 ^ 8 % 256) (n % 256) = n := by
  unfold ntohl; omega

theorem ntohs_htons_bytes (v : Nat) (hv : v < 65536) : ntohs (v / 256 % 256) (v % 256) = v := by
  unfold ntohs; omega

/-- The frame written for a payload pointer that is not `NULL`. -/
theorem send_packet_some (opcode : Nat) (p : List Nat) :
    send_packet opcode (some p) p.length
      = htonl p.length ++ htons opcode ++ htons (calculate_checksum p) ++ xor_cipher p := by
  unfold send_packet
  by_cases h : p.length > 0
  · simp [h]
  · have hp : p = [] := List.length_eq_zero.mp (by omega)
    subst hp
    simp [calculate_checksum, xor_cipher]

/-- Reading a frame whose header announces `n` bytes within the cap. -/
theorem recv_packet_frame (n opcode ck : Nat) (body rest : List Nat)
    (hn : n < 2 ^ 32) (hop : opcode < 65536) (hck : ck < 65536)
    (hcap : n ≤ MAX_PAYLOAD_SIZE) (hpos : 0 < n) (hlen : body.length = n) :
    recv_packet (htonl n ++ htons opcode ++ htons ck ++ body ++ rest)
      = if calculate_checksum (xor_cipher body) ≠ ck then (.error .ChecksumMismatch, rest)
        else (.ok ⟨opcode, some (xor_cipher body), n⟩, rest) := by
  simp only [htonl, htons, List.cons_append, List.nil_append, recv_packet, List.append_assoc]
  rw [ntohl_htonl_bytes n hn, ntohs_htons_bytes opcode hop, ntohs_htons_bytes ck hck]
  have h1 : ¬ n > MAX_PAYLOAD_SIZE := by omega
  have h2 : ¬ (body ++ rest).length < n := by simp [hlen]
  simp only [h1, hpos, h2, if_false, if_true, gt_iff_lt]
  rw [List.take_left' hlen, List.drop_left' hlen]

theorem sum_set_add (l : List Nat) (k v : Nat) (hk : k < l.length) :
    (l.set k v).sum + l[k] = l.sum + v := by
  induction l generalizing k with
  | nil => simp at hk
  | cons a t ih =>
    cases k with
    | zero => simp; omega
    | succ j =>
      have hj : j < t.length := by simpa using hk
      have := ih j hj
      simp only [List.set_cons_succ, List.sum_cons, List.getElem_cons_succ]
      omega

theorem getElem_lt_of_bytes (l : List Nat) (k : Nat) (hk : k < l.length)
    (hb : ∀ b ∈ l, b < 256) : l[k] < 256 :=
  hb _ (List.getElem_mem hk)

theorem header_length (n opcode ck : Nat) :
    (htonl n ++ htons opcode ++ htons ck).length = 8 := rfl

theorem set_behind_header (n opcode ck : Nat) (body : List Nat) (k v : Nat) :
    (htonl n ++ htons opcode ++ htons ck ++ body).set (8 + k) v
      = htonl n ++ htons opcode ++ htons ck ++ body.set k v := by
  rw [List.set_append_right _ _ (by rw [header_length]; omega), header_length]
  congr 2
  omega

theorem getElem?_behind_header (n opcode ck : Nat) (body : List Nat) (k : Nat) :
    (htonl n ++ htons opcode ++ htons ck ++ body)[8 + k]? = body[k]? := by
  rw [List.getElem?_append_right (by rw [header_length]; omega), header_length]
  congr 1
  omega

/-! ## Codec theorems -/

/-- C1. Round trip: for every 16-bit opcode and every raw payload of at most
262144 bytes, `recv_packet` on the bytes written by `send_packet` (whatever
follows them on the stream) succeeds, leaves exactly the following bytes
unread, and returns the same opcode, the same payload length and the same raw
payload bytes (through a `NULL` pointer when the payload is empty). -/
theorem recv_send_round_trip (opcode : Nat) (p rest : List Nat)
    (hop : opcode < 65536) (hb : ∀ b ∈ p, b < 256) (hlen : p.length ≤ MAX_PAYLOAD_SIZE) :
    recv_packet (send_packet opcode (some p) p.length ++ rest)
        = (.ok ⟨opcode, if p = [] then none else some p, p.length⟩, rest)
      ∧ Frame.bytes ⟨opcode, if p = [] then none else some p, p.length⟩ = p := by
  have hcap : MAX_PAYLOAD_SIZE = 262144 := by decide
  constructor
  · rw [send_packet_some]
    by_cases hp : p = []
    · subst hp
      simp [htonl, htons, xor_cipher, recv_packet, calculate_checksum, ntohl, ntohs]
      omega
    · have hpos : 0 < p.length := List.length_pos.mpr hp
      rw [recv_packet_frame p.length opcode (calculate_checksum p) (xor_cipher p) rest
        (by omega) hop (calculate_checksum_lt p) hlen hpos (xor_cipher_length p)]
      rw [xor_cipher_involutive p hb]
      simp [hp]
  · by_cases hp : p = []
    · subst hp; rfl
    · simp [hp, Frame.bytes]

theorem recv_send_round_trip_witness :
    recv_packet (send_packet 3 (some [87]) [87].length ++ [1, 2])
        = (.ok ⟨3, if [87] = [] then none else some [87], [87].length⟩, [1, 2])
      ∧ Frame.bytes ⟨3, if [87] = [] then none else some [87], [87].length⟩ = [87] :=
  recv_send_round_trip 3 [87] [1, 2] (by decide) (by decide) (by decide)


/-- Reading a header whose length field is above the cap. -/
theorem recv_packet_oversize (b0 b1 b2 b3 b4 b5 b6 b7 : Nat) (rest : List Nat)
    (h : ntohl b0 b1 b2 b3 > MAX_PAYLOAD_SIZE) :
    recv_packet (b0 :: b1 :: b2 :: b3 :: b4 :: b5 :: b6 :: b7 :: rest)
      = (.error .MalformedFrame, rest) := by
  simp [recv_packet, h]

/-- C2 (as amended). For every encoded frame with a non-empty payload of at
most 262144 bytes and every position `k` of its payload, replacing the wire
byte `8 + k` by any different byte makes `recv_packet` fail at its checksum
comparison: the sum of the de-obfuscated bytes mod 2^16 differs from the header
checksum, and no payload is returned. -/
theorem flipped_payload_byte_rejected (opcode : Nat) (p rest : List Nat) (k v : Nat)
    (hop : opcode < 65536) (hb : ∀ b ∈ p, b < 256) (hlen : p.length ≤ MAX_PAYLOAD_SIZE)
    (hk : k < p.length) (hv : v < 256)
    (hdiff : (send_packet opcode (some p) p.length)[8 + k]? ≠ some v) :
    recv_packet ((send_packet opcode (some p) p.length).set (8 + k) v ++ rest)
        = (.error .ChecksumMismatch, rest)
      ∧ (xor_cipher ((xor_cipher p).set k v)).sum % 65536 ≠ calculate_checksum p := by
  have hcap : MAX_PAYLOAD_SIZE = 262144 := by decide
  have hkx : k < (xor_cipher p).length := by rw [xor_cipher_length]; exact hk
  -- the flipped byte sits in the body
  have hset : (send_packet opcode (some p) p.length).set (8 + k) v
      = htonl p.length ++ htons opcode ++ htons (calculate_checksum p)
          ++ (xor_cipher p).set k v := by
    rw [send_packet_some, set_behind_header]
  have hget : (send_packet opcode (some p) p.length)[8 + k]? = some ((xor_cipher p)[k]) := by
    rw [send_packet_some, getElem?_behind_header]
    exact List.getElem?_eq_getElem hkx
  have hne : (xor_cipher p)[k] ≠ v := by
    intro h; apply hdiff; rw [hget, h]
  -- what the receiver de-obfuscates
  have hdec : xor_cipher ((xor_cipher p).set k v) = p.set k (v ^^^ XOR_KEY) := by
    unfold xor_cipher
    rw [List.map_set]
    have := xor_cipher_involutive p hb
    unfold xor_cipher at this
    rw [this, xor_key_byte v hv]
  have hv2 : v ^^^ XOR_KEY < 256 := by
    have := xor_key_byte v hv
    omega
  have hpk : p[k] < 256 := getElem_lt_of_bytes p k hk hb
  have hne2 : v ^^^ XOR_KEY ≠ p[k] := by
    intro h
    apply hne
    have h1 : (xor_cipher p)[k] = (p[k] ^^^ XOR_KEY) % 256 := by simp [xor_cipher]
    rw [h1, xor_key_byte _ hpk, ← h, xor_key_twice]
  have hsum := sum_set_add p k (v ^^^ XOR_KEY) hk
  have hmis : (xor_cipher ((xor_cipher p).set k v)).sum % 65536 ≠ calculate_checksum p := by
    rw [hdec, calculate_checksum_eq]
    omega
  refine ⟨?_, hmis⟩
  rw [hset]
  rw [recv_packet_frame p.length opcode (calculate_checksum p) ((xor_cipher p).set k v) rest
    (by omega) hop (calculate_checksum_lt p) hlen (by omega)
    (by rw [List.length_set, xor_cipher_length])]
  rw [calculate_checksum_eq (xor_cipher _)]
  simp [hmis]

theorem flipped_payload_byte_rejected_witness :
    recv_packet ((send_packet 3 (some [87, 65]) [87, 65].length).set (8 + 1) 0 ++ [])
        = (.error .ChecksumMismatch, [])
      ∧ (xor_cipher ((xor_cipher [87, 65]).set 1 0)).sum % 65536 ≠ calculate_checksum [87, 65] :=
  flipped_payload_byte_rejected 3 [87, 65] [] 1 0 (by decide) (by decide) (by decide)
    (by decide) (by decide) (by decide)

/-- A frame encoded for a payload above the cap is refused by the length
check, with or without a replaced payload byte. -/
theorem recv_packet_over_cap (opcode : Nat) (p rest : List Nat) (k v : Nat)
    (hlen : MAX_PAYLOAD_SIZE < p.length) (hlt : p.length < 2 ^ 32) :
    recv_packet ((send_packet opcode (some p) p.length).set (8 + k) v ++ rest)
      = (.error .MalformedFrame, (xor_cipher p).set k v ++ rest) := by
  rw [send_packet_some, set_behind_header]
  simp only [htonl, htons, List.cons_append, List.nil_append]
  rw [recv_packet_oversize]
  rw [ntohl_htonl_bytes _ hlt]
  exact hlen

/-- C2 as stated fails above the cap: the frame encoded for 262145 zero bytes,
with its first payload byte (0x5A on the wire) replaced by 0, is refused by the
length check, not by the checksum comparison. -/
theorem flipped_byte_over_cap_is_malformed :
    (send_packet 3 (some (List.replicate 262145 0)) (List.replicate 262145 0).length)[8 + 0]?
        = some 0x5A
      ∧ (recv_packet ((send_packet 3 (some (List.replicate 262145 0))
            (List.replicate 262145 0).length).set (8 + 0) 0 ++ [])).1 = .error .MalformedFrame
      ∧ (recv_packet ((send_packet 3 (some (List.replicate 262145 0))
            (List.replicate 262145 0).length).set (8 + 0) 0 ++ [])).1
          ≠ .error .ChecksumMismatch := by
  have hl : (List.replicate 262145 (0 : Nat)).length = 262145 := List.length_replicate _ _
  have hm := recv_packet_over_cap 3 (List.replicate 262145 0) [] 0 0
    (by rw [hl]; decide) (by rw [hl]; decide)
  refine ⟨?_, ?_, ?_⟩
  · rw [send_packet_some, getElem?_behind_header]
    simp only [xor_cipher, List.getElem?_map, List.getElem?_replicate]
    decide
  · rw [hm]
  · rw [hm]; simp


/-- C3. A header whose big-endian length field is above 262144
(`MAX_PAYLOAD_SIZE`) makes `recv_packet` fail at the length check with every
byte behind the header left unread, whatever the opcode bytes, the checksum
bytes and the following bytes are; a length field of exactly 262144 never
fails at the length check. -/
theorem oversize_length_is_malformed (b0 b1 b2 b3 b4 b5 b6 b7 : Nat) (rest : List Nat) :
    MAX_PAYLOAD_SIZE = 262144
      ∧ (ntohl b0 b1 b2 b3 > 262144 →
          recv_packet (b0 :: b1 :: b2 :: b3 :: b4 :: b5 :: b6 :: b7 :: rest)
            = (.error .MalformedFrame, rest))
      ∧ (ntohl b0 b1 b2 b3 = 262144 →
          (recv_packet (b0 :: b1 :: b2 :: b3 :: b4 :: b5 :: b6 :: b7 :: rest)).1
            ≠ .error .MalformedFrame) := by
  have hcap : MAX_PAYLOAD_SIZE = 262144 := by decide
  refine ⟨hcap, ?_, ?_⟩
  · intro h
    exact recv_packet_oversize b0 b1 b2 b3 b4 b5 b6 b7 rest (by rw [hcap]; exact h)
  · intro h
    simp only [recv_packet, h, hcap]
    simp only [gt_iff_lt, lt_self_iff_false, if_false]
    split_ifs <;> simp

theorem oversize_length_is_malformed_witness :
    ntohl 0 4 0 1 > 262144
      ∧ recv_packet (0 :: 4 :: 0 :: 1 :: 0 :: 3 :: 9 :: 9 :: [7, 7]) = (.error .MalformedFrame, [7, 7])
      ∧ ntohl 0 4 0 0 = 262144
      ∧ (recv_packet (0 :: 4 :: 0 :: 0 :: 0 :: 3 :: 9 :: 9 :: [7, 7])).1 ≠ .error .MalformedFrame :=
  ⟨by decide,
   (oversize_length_is_malformed 0 4 0 1 0 3 9 9 [7, 7]).2.1 (by decide),
   by decide,
   (oversize_length_is_malformed 0 4 0 0 0 3 9 9 [7, 7]).2.2 (by decide)⟩

/-- C4. For every 16-bit opcode and raw payload `p` of `n` bytes (`n` a
`uint32_t`), `send_packet` writes exactly `8 + n` bytes: bytes 0-3 are `n`
big-endian, bytes 4-5 the opcode big-endian, bytes 6-7 the true sum of the raw
bytes mod 65536 big-endian (0 for the empty payload, also when the 32-bit
accumulator wraps), and byte `8 + k` is raw byte `k` XOR 0x5A.  Opcode 2 with
raw payload 00 00 00 00 gives 00 00 00 04 00 02 00 00 5A 5A 5A 5A. -/
theorem send_packet_layout (opcode : Nat) (p : List Nat)
    (hop : opcode < 65536) (hn : p.length < 2 ^ 32) (hb : ∀ b ∈ p, b < 256) :
    send_packet opcode (some p) p.length
        = [p.length / 2 ^ 24, p.length / 2 ^ 16 % 256, p.length / 2 ^ 8 % 256, p.length % 256,
           opcode / 256, opcode % 256,
           p.sum % 65536 / 256, p.sum % 65536 % 256] ++ p.map (fun b => b ^^^ 0x5A)
      ∧ (send_packet opcode (some p) p.length).length = 8 + p.length
      ∧ (p.length / 2 ^ 24) * 2 ^ 24 + (p.length / 2 ^ 16 % 256) * 2 ^ 16
          + (p.length / 2 ^ 8 % 256) * 2 ^ 8 + p.length % 256 = p.length
      ∧ (opcode / 256) * 256 + opcode % 256 = opcode
      ∧ (p.sum % 65536 / 256) * 256 + p.sum % 65536 % 256 = p.sum % 65536
      ∧ (p = [] → p.sum % 65536 = 0)
      ∧ (∀ k (hk : k < p.length),
          (send_packet opcode (some p) p.length)[8 + k]? = some (p[k] ^^^ 0x5A))
      ∧ send_packet 2 (some [0, 0, 0, 0]) 4
          = [0x00, 0x00, 0x00, 0x04, 0x00, 0x02, 0x00, 0x00, 0x5A, 0x5A, 0x5A, 0x5A] := by
  have hw : send_packet opcode (some p) p.length
        = [p.length / 2 ^ 24, p.length / 2 ^ 16 % 256, p.length / 2 ^ 8 % 256, p.length % 256,
           opcode / 256, opcode % 256,
           p.sum % 65536 / 256, p.sum % 65536 % 256] ++ p.map (fun b => b ^^^ 0x5A) := by
    rw [send_packet_some, calculate_checksum_eq, xor_cipher_eq_map p hb]
    have h1 : p.length / 2 ^ 24 % 256 = p.length / 2 ^ 24 := by omega
    have h2 : opcode / 256 % 256 = opcode / 256 := by omega
    have h3 : p.sum % 65536 / 256 % 256 = p.sum % 65536 / 256 := by omega
    simp only [htonl, htons, h1, h2, h3, List.cons_append, List.nil_append]
  refine ⟨hw, ?_, by omega, by omega, by omega, ?_, ?_, by decide⟩
  · rw [hw]; simp; omega
  · intro h; subst h; rfl
  · intro k hk
    rw [send_packet_some, getElem?_behind_header, xor_cipher_eq_map p hb]
    simp [hk]

theorem send_packet_layout_witness :
    (send_packet 3 (some [87]) [87].length).length = 8 + [87].length :=
  (send_packet_layout 3 [87] (by decide) (by decide) (by decide)).2.1

/-- C5 (as amended). For every received frame whose length field is not 0,
`recv_packet` succeeds only if the header checksum equals the sum of the
de-obfuscated payload bytes mod 2^16, and the payload it returns is those
bytes; a frame whose length field is 0 is accepted without any comparison,
whatever its checksum field holds. -/
theorem recv_packet_checksum_gate (b0 b1 b2 b3 b4 b5 b6 b7 : Nat) (rest : List Nat) :
    (∀ f left, 0 < ntohl b0 b1 b2 b3 →
        recv_packet (b0 :: b1 :: b2 :: b3 :: b4 :: b5 :: b6 :: b7 :: rest) = (.ok f, left) →
        ntohs b6 b7 = (xor_cipher (rest.take (ntohl b0 b1 b2 b3))).sum % 65536
          ∧ f.payload = some (xor_cipher (rest.take (ntohl b0 b1 b2 b3))))
      ∧ (ntohl b0 b1 b2 b3 = 0 →
          recv_packet (b0 :: b1 :: b2 :: b3 :: b4 :: b5 :: b6 :: b7 :: rest)
            = (.ok ⟨ntohs b4 b5, none, 0⟩, rest)) := by
  constructor
  · intro f left hpos h
    simp only [recv_packet, hpos, if_true, gt_iff_lt] at h
    rw [calculate_checksum_eq] at h
    split_ifs at h with h1 h2 h3
    · simp at h
    · simp at h
    · simp at h
    · simp only [Prod.mk.injEq, Except.ok.injEq] at h
      obtain ⟨hf, _⟩ := h
      subst hf
      simp only [ne_eq, Decidable.not_not] at h3
      exact ⟨h3.symm, rfl⟩
  · intro h0
    simp [recv_packet, h0, MAX_PAYLOAD_SIZE]

theorem recv_packet_checksum_gate_witness :
    0 < ntohl 0 0 0 1
      ∧ recv_packet (0 :: 0 :: 0 :: 1 :: 0 :: 3 :: 0 :: 87 :: [13])
          = (.ok ⟨3, some [87], 1⟩, [])
      ∧ ntohs 0 87 = (xor_cipher ([13].take (ntohl 0 0 0 1))).sum % 65536
      ∧ recv_packet (0 :: 0 :: 0 :: 0 :: 0 :: 1 :: 0 :: 0 :: [])
          = (.ok ⟨ntohs 0 1, none, 0⟩, []) :=
  ⟨by decide, rfl,
   ((recv_packet_checksum_gate 0 0 0 1 0 3 0 87 [13]).1 ⟨3, some [87], 1⟩ []
      (by decide) rfl).1,
   (recv_packet_checksum_gate 0 0 0 0 0 1 0 0 []).2 (by decide)⟩

/-- C5 as stated fails on an empty frame: the header `len=0 op=1 cksum=1` is
accepted although the sum of its (no) payload bytes is 0, not 1. -/
theorem empty_frame_bad_checksum_accepted :
    recv_packet [0, 0, 0, 0, 0, 1, 0, 1] = (.ok ⟨1, none, 0⟩, [])
      ∧ ntohs 0 1 ≠ (Frame.bytes ⟨1, none, 0⟩).sum % 65536 := by
  constructor
  · rfl
  · decide


/-! ## Simulator lemmas -/

theorem rand_coord_interior (r1 r2 : Nat) : interior (rand_coord r1) (rand_coord r2) := by
  unfold interior rand_coord MAP_WIDTH MAP_HEIGHT; omega

/-- A finished `spawn_food` has turned one empty cell, drawn from `rand()`, into food. -/
theorem spawn_food_some : ∀ (rs : List Nat) (g g1 : GameState) (rs1 : List Nat),
    spawn_food rs g = some (g1, rs1) →
    ∃ r1 r2, g.map (rand_coord r2) (rand_coord r1) = CELL_EMPTY ∧
      g1 = { g with map := setCell g.map (rand_coord r2) (rand_coord r1) CELL_FOOD }
  | [], g, g1, rs1, h => by simp [spawn_food] at h
  | [_], g, g1, rs1, h => by simp [spawn_food] at h
  | r1 :: r2 :: rest, g, g1, rs1, h => by
    simp only [spawn_food] at h
    split_ifs at h with he
    · simp only [Option.some.injEq, Prod.mk.injEq] at h
      exact ⟨r1, r2, he, h.1.symm⟩
    · exact spawn_food_some rest g g1 rs1 h

/-- `spawn_food` finishes as soon as some round of `rand()` draws an empty cell. -/
theorem spawn_food_hits : ∀ (n : Nat) (rs : List Nat) (g : GameState),
    2 * n + 1 < rs.length →
    g.map (rand_coord (rs.getD (2 * n + 1) 0)) (rand_coord (rs.getD (2 * n) 0)) = CELL_EMPTY →
    ∃ g1 rs1, spawn_food rs g = some (g1, rs1)
  | _, [], _, hl, _ => by simp at hl
  | _, [_], _, hl, _ => by simp at hl
  | 0, r1 :: r2 :: rest, g, _, he => by
    simp only [Nat.mul_zero, Nat.zero_add, List.getD_cons_succ, List.getD_cons_zero] at he
    exact ⟨{ g with map := setCell g.map (rand_coord r2) (rand_coord r1) CELL_FOOD }, rest,
      by simp [spawn_food, he]⟩
  | n + 1, r1 :: r2 :: rest, g, hl, he => by
    by_cases h0 : g.map (rand_coord r2) (rand_coord r1) = CELL_EMPTY
    · exact ⟨{ g with map := setCell g.map (rand_coord r2) (rand_coord r1) CELL_FOOD }, rest,
        by simp [spawn_food, h0]⟩
    · have e1 : 2 * (n + 1) + 1 = (2 * n + 1) + 1 + 1 := by omega
      have e2 : 2 * (n + 1) = (2 * n) + 1 + 1 := by omega
      rw [e1, e2] at he
      simp only [List.getD_cons_succ] at he
      have hl2 : 2 * n + 1 < rest.length := by simp at hl; omega
      obtain ⟨g1, rs1, h1⟩ := spawn_food_hits n rest g hl2 he
      exact ⟨g1, rs1, by simp [spawn_food, h0, h1]⟩

theorem clear_body_fold (body : Int → Point) (n : Nat) (m : Int → Int → Int) (y x : Int) :
    ((∃ j : Nat, j < n ∧ body (j : Int) = ⟨x, y⟩) →
      (List.range n).foldl
        (fun (m1 : Int → Int → Int) (j : Nat) =>
          setCell m1 (body (j : Int)).y (body (j : Int)).x CELL_EMPTY) m y x = CELL_EMPTY)
    ∧ ((¬ ∃ j : Nat, j < n ∧ body (j : Int) = ⟨x, y⟩) →
      (List.range n).foldl
        (fun (m1 : Int → Int → Int) (j : Nat) =>
          setCell m1 (body (j : Int)).y (body (j : Int)).x CELL_EMPTY) m y x = m y x) := by
  induction n with
  | zero => simp
  | succ n ih =>
    rw [List.range_succ, List.foldl_append]
    simp only [List.foldl_cons, List.foldl_nil, setCell]
    by_cases hn : y = (body (n : Int)).y ∧ x = (body (n : Int)).x
    · have hb : body (n : Int) = ⟨x, y⟩ := by
        cases hbn : body (n : Int)
        rw [hbn] at hn
        simp at hn
        simp [hn.1, hn.2]
      have hex : ∃ j : Nat, j < n + 1 ∧ body (j : Int) = ⟨x, y⟩ := ⟨n, by omega, hb⟩
      rw [if_pos hn]
      exact ⟨fun _ => rfl, fun h => absurd hex h⟩
    · rw [if_neg hn]
      have hiff : (∃ j : Nat, j < n + 1 ∧ body (j : Int) = ⟨x, y⟩)
          ↔ (∃ j : Nat, j < n ∧ body (j : Int) = ⟨x, y⟩) := by
        constructor
        · rintro ⟨j, hj, hbj⟩
          by_cases hjn : j = n
          · subst hjn
            exfalso; apply hn
            rw [hbj]; exact ⟨rfl, rfl⟩
          · exact ⟨j, by omega, hbj⟩
        · rintro ⟨j, hj, hbj⟩
          exact ⟨j, by omega, hbj⟩
      rw [hiff]
      exact ih

/-- The grid after the loop that clears a dead snake: the cells of its first
`length` body points are empty, the others untouched. -/
theorem clear_body_apply (m : Int → Int → Int) (body : Int → Point) (length y x : Int) :
    ((∃ j : Nat, (j : Int) < length ∧ body (j : Int) = ⟨x, y⟩) →
      clear_body m body length y x = CELL_EMPTY)
    ∧ ((¬ ∃ j : Nat, (j : Int) < length ∧ body (j : Int) = ⟨x, y⟩) →
      clear_body m body length y x = m y x) := by
  unfold clear_body
  have hiff : (∃ j : Nat, j < length.toNat ∧ body (j : Int) = ⟨x, y⟩)
      ↔ (∃ j : Nat, (j : Int) < length ∧ body (j : Int) = ⟨x, y⟩) := by
    constructor
    · rintro ⟨j, hj, hb⟩; exact ⟨j, by omega, hb⟩
    · rintro ⟨j, hj, hb⟩; exact ⟨j, by omega, hb⟩
  rw [← hiff]
  exact clear_body_fold body length.toNat m y x

theorem clear_body_cases (m : Int → Int → Int) (body : Int → Point) (length y x : Int) :
    clear_body m body length y x = CELL_EMPTY ∨ clear_body m body length y x = m y x := by
  by_cases h : ∃ j : Nat, (j : Int) < length ∧ body (j : Int) = ⟨x, y⟩
  · exact Or.inl ((clear_body_apply m body length y x).1 h)
  · exact Or.inr ((clear_body_apply m body length y x).2 h)


/-- A slot that is not playing is passed over. -/
theorem tick_player_skip (i : Nat) (g : GameState) (rs : List Nat)
    (h : ¬ playing g i) : tick_player i g rs = some (g, rs) := by
  unfold playing at h
  unfold tick_player
  rw [if_neg h]

/-- The collision branch. -/
theorem tick_player_die (i : Nat) (g : GameState) (rs : List Nat)
    (hp : playing g i)
    (hc : dest_cell g i = CELL_WALL ∨ dest_cell g i ≥ CELL_PLAYER_BASE) :
    tick_player i g rs
      = some ({ g with
                  snakes := setAt g.snakes i { g.snakes i with alive := 0 }
                  active_players := setAt g.active_players i 0
                  map := clear_body g.map (g.snakes i).body (g.snakes i).length }, rs) := by
  unfold playing at hp
  unfold dest_cell at hc
  unfold tick_player
  dsimp only
  rw [if_pos hp, if_pos hc]

/-- The plain move: neither a collision nor food. -/
theorem tick_player_move (i : Nat) (g : GameState) (rs : List Nat)
    (hp : playing g i)
    (hc : ¬ (dest_cell g i = CELL_WALL ∨ dest_cell g i ≥ CELL_PLAYER_BASE))
    (hf : dest_cell g i ≠ CELL_FOOD) :
    tick_player i g rs
      = some ({ g with
                  snakes := setAt g.snakes i
                    { g.snakes i with
                        body := setAt (shift_body (g.snakes i).body
                          ((g.snakes i).length - 1).toNat) 0 (new_head (g.snakes i)) }
                  map := setCell
                    (setCell g.map ((g.snakes i).body ((g.snakes i).length - 1)).y
                      ((g.snakes i).body ((g.snakes i).length - 1)).x CELL_EMPTY)
                    (new_head (g.snakes i)).y (new_head (g.snakes i)).x
                    (CELL_PLAYER_BASE + i) }, rs) := by
  unfold playing at hp
  unfold dest_cell at hc hf
  unfold tick_player
  dsimp only
  rw [if_pos hp, if_neg hc, if_neg hf]

/-- The eating move: food on the destination cell. -/
theorem tick_player_eat (i : Nat) (g : GameState) (rs : List Nat)
    (hp : playing g i) (hf : dest_cell g i = CELL_FOOD) :
    tick_player i g rs
      = match spawn_food rs { g with scores := setAt g.scores i (g.scores i + 1) } with
        | none => none
        | some (g1, rs1) =>
          some ({ g1 with
                    snakes := setAt g1.snakes i
                      { g.snakes i with
                          length := if (g.snakes i).length < MAX_SNAKE_LENGTH
                            then (g.snakes i).length + 1 else (g.snakes i).length
                          body := setAt (shift_body (g.snakes i).body
                            ((if (g.snakes i).length < MAX_SNAKE_LENGTH
                              then (g.snakes i).length + 1 else (g.snakes i).length) - 1).toNat)
                            0 (new_head (g.snakes i)) }
                    map := setCell g1.map (new_head (g.snakes i)).y (new_head (g.snakes i)).x
                      (CELL_PLAYER_BASE + i) }, rs1) := by
  unfold playing at hp
  unfold dest_cell at hf
  have hc : ¬ (g.map (new_head (g.snakes i)).y (new_head (g.snakes i)).x = CELL_WALL
      ∨ g.map (new_head (g.snakes i)).y (new_head (g.snakes i)).x ≥ CELL_PLAYER_BASE) := by
    rw [hf]; decide
  unfold tick_player
  dsimp only
  rw [if_pos hp, if_neg hc, if_pos hf]

/-- The four ways through the loop body, with the state each leaves. -/
theorem tick_player_cases (i : Nat) (g : GameState) :
    (¬ playing g i) ∨
    (playing g i ∧ (dest_cell g i = CELL_WALL ∨ dest_cell g i ≥ CELL_PLAYER_BASE)) ∨
    (playing g i ∧ ¬ (dest_cell g i = CELL_WALL ∨ dest_cell g i ≥ CELL_PLAYER_BASE)
      ∧ dest_cell g i ≠ CELL_FOOD) ∨
    (playing g i ∧ dest_cell g i = CELL_FOOD) := by
  by_cases hp : playing g i
  · by_cases hc : dest_cell g i = CELL_WALL ∨ dest_cell g i ≥ CELL_PLAYER_BASE
    · exact Or.inr (Or.inl ⟨hp, hc⟩)
    · by_cases hf : dest_cell g i = CELL_FOOD
      · exact Or.inr (Or.inr (Or.inr ⟨hp, hf⟩))
      · exact Or.inr (Or.inr (Or.inl ⟨hp, hc, hf⟩))
  · exact Or.inl hp

/-- What the loop body for slot `i` may touch: of the slot tables only the
entries of `i`, never the version, and grid cells only by writing an empty
cell, food, or the token of `i`. -/
theorem tick_player_frame (i : Nat) (g g1 : GameState) (rs rs1 : List Nat)
    (h : tick_player i g rs = some (g1, rs1)) :
    g1.version = g.version
      ∧ (∀ k : Int, k ≠ i → g1.snakes k = g.snakes k
          ∧ g1.active_players k = g.active_players k ∧ g1.scores k = g.scores k)
      ∧ (∀ y x, g1.map y x = g.map y x ∨ g1.map y x = CELL_EMPTY
          ∨ g1.map y x = CELL_FOOD ∨ g1.map y x = CELL_PLAYER_BASE + i) := by
  rcases tick_player_cases i g with hp | ⟨hp, hc⟩ | ⟨hp, hc, hf⟩ | ⟨hp, hf⟩
  · rw [tick_player_skip i g rs hp] at h
    simp only [Option.some.injEq, Prod.mk.injEq] at h
    obtain ⟨rfl, _⟩ := h
    exact ⟨rfl, fun k _ => ⟨rfl, rfl, rfl⟩, fun y x => Or.inl rfl⟩
  · rw [tick_player_die i g rs hp hc] at h
    simp only [Option.some.injEq, Prod.mk.injEq] at h
    obtain ⟨rfl, _⟩ := h
    refine ⟨rfl, fun k hk => ⟨by simp [setAt, hk], by simp [setAt, hk], rfl⟩, fun y x => ?_⟩
    rcases clear_body_cases g.map (g.snakes i).body (g.snakes i).length y x with h1 | h1
    · exact Or.inr (Or.inl h1)
    · exact Or.inl h1
  · rw [tick_player_move i g rs hp hc hf] at h
    simp only [Option.some.injEq, Prod.mk.injEq] at h
    obtain ⟨rfl, _⟩ := h
    refine ⟨rfl, fun k hk => ⟨by simp [setAt, hk], rfl, rfl⟩, fun y x => ?_⟩
    simp only [setCell]
    split_ifs <;> simp
  · rw [tick_player_eat i g rs hp hf] at h
    split at h
    · simp at h
    · rename_i g2 rs2 hs
      simp only [Option.some.injEq, Prod.mk.injEq] at h
      obtain ⟨rfl, _⟩ := h
      obtain ⟨r1, r2, _, rfl⟩ := spawn_food_some _ _ _ _ hs
      refine ⟨rfl, fun k hk => ⟨by simp [setAt, hk], rfl, by simp [setAt, hk]⟩, fun y x => ?_⟩
      simp only [setCell]
      split_ifs <;> simp

/-- Without food on the destination the loop body needs no `rand()` and
creates no food. -/
theorem tick_player_no_food (i : Nat) (g : GameState) (rs : List Nat)
    (hf : playing g i → dest_cell g i ≠ CELL_FOOD) :
    ∃ g1, tick_player i g rs = some (g1, rs)
      ∧ ∀ y x, g1.map y x = CELL_FOOD → g.map y x = CELL_FOOD := by
  have hbase : CELL_PLAYER_BASE + (i : Int) ≠ CELL_FOOD := by
    unfold CELL_PLAYER_BASE CELL_FOOD; omega
  rcases tick_player_cases i g with hp | ⟨hp, hc⟩ | ⟨hp, hc, _⟩ | ⟨hp, hf2⟩
  · exact ⟨g, tick_player_skip i g rs hp, fun _ _ h => h⟩
  · refine ⟨_, tick_player_die i g rs hp hc, fun y x h => ?_⟩
    simp only at h
    rcases clear_body_cases g.map (g.snakes i).body (g.snakes i).length y x with h1 | h1
    · rw [h1] at h; exact absurd h (by decide)
    · rw [h1] at h; exact h
  · refine ⟨_, tick_player_move i g rs hp hc (hf hp), fun y x h => ?_⟩
    simp only [setCell] at h
    split_ifs at h
    · exact absurd h hbase
    · exact absurd h (by decide)
    · exact h
  · exact absurd hf2 (hf hp)


theorem tick_players_cons (i : Nat) (more : List Nat) (g g1 : GameState) (rs rs1 : List Nat)
    (h : tick_player i g rs = some (g1, rs1)) :
    tick_players (i :: more) g rs = tick_players more g1 rs1 := by
  simp only [tick_players, h]

theorem tick_players_cons_some (i : Nat) (more : List Nat) (g g2 : GameState)
    (rs rs2 : List Nat) (h : tick_players (i :: more) g rs = some (g2, rs2)) :
    ∃ g1 rs1, tick_player i g rs = some (g1, rs1)
      ∧ tick_players more g1 rs1 = some (g2, rs2) := by
  simp only [tick_players] at h
  split at h
  · simp at h
  · rename_i g1 rs1 h1
    exact ⟨g1, rs1, h1, h⟩

theorem tick_players_append (l1 l2 : List Nat) (g g1 : GameState) (rs rs1 : List Nat)
    (h : tick_players l1 g rs = some (g1, rs1)) :
    tick_players (l1 ++ l2) g rs = tick_players l2 g1 rs1 := by
  induction l1 generalizing g rs with
  | nil =>
    simp only [tick_players, Option.some.injEq, Prod.mk.injEq] at h
    obtain ⟨rfl, rfl⟩ := h
    rfl
  | cons i more ih =>
    obtain ⟨g0, rs0, h0, hm⟩ := tick_players_cons_some i more g g1 rs rs1 h
    rw [List.cons_append, tick_players_cons i _ g g0 rs rs0 h0]
    exact ih g0 rs0 hm

/-- Slots that are not playing leave the state and `rand()` as they are. -/
theorem tick_players_skip (l : List Nat) (g : GameState) (rs : List Nat)
    (h : ∀ j ∈ l, ¬ playing g (j : Nat)) : tick_players l g rs = some (g, rs) := by
  induction l with
  | nil => rfl
  | cons i more ih =>
    rw [tick_players_cons i more g g rs rs (tick_player_skip i g rs (h i (by simp)))]
    exact ih (fun j hj => h j (by simp [hj]))

/-- What a run of the slot loop over `l` may touch. -/
theorem tick_players_frame (l : List Nat) (g g1 : GameState) (rs rs1 : List Nat)
    (h : tick_players l g rs = some (g1, rs1)) :
    g1.version = g.version
      ∧ (∀ k : Int, (∀ j ∈ l, k ≠ ((j : Nat) : Int)) → g1.snakes k = g.snakes k
          ∧ g1.active_players k = g.active_players k ∧ g1.scores k = g.scores k)
      ∧ (∀ y x, g1.map y x = g.map y x ∨ g1.map y x = CELL_EMPTY
          ∨ g1.map y x = CELL_FOOD
          ∨ ∃ j ∈ l, g1.map y x = CELL_PLAYER_BASE + ((j : Nat) : Int)) := by
  induction l generalizing g rs with
  | nil =>
    simp only [tick_players, Option.some.injEq, Prod.mk.injEq] at h
    obtain ⟨rfl, rfl⟩ := h
    exact ⟨rfl, fun k _ => ⟨rfl, rfl, rfl⟩, fun y x => Or.inl rfl⟩
  | cons i more ih =>
    obtain ⟨g0, rs0, h0, hm⟩ := tick_players_cons_some i more g g1 rs rs1 h
    obtain ⟨hv0, hk0, hc0⟩ := tick_player_frame i g g0 rs rs0 h0
    obtain ⟨hv1, hk1, hc1⟩ := ih g0 rs0 hm
    refine ⟨by rw [hv1, hv0], fun k hk => ?_, fun y x => ?_⟩
    · have hki : k ≠ (i : Int) := hk i (by simp)
      have hkm : ∀ j ∈ more, k ≠ ((j : Nat) : Int) := fun j hj => hk j (by simp [hj])
      obtain ⟨a1, a2, a3⟩ := hk1 k hkm
      obtain ⟨b1, b2, b3⟩ := hk0 k hki
      exact ⟨by rw [a1, b1], by rw [a2, b2], by rw [a3, b3]⟩
    · rcases hc1 y x with e | e | e | ⟨j, hj, e⟩
      · rcases hc0 y x with f | f | f | f
        · exact Or.inl (by rw [e, f])
        · exact Or.inr (Or.inl (by rw [e, f]))
        · exact Or.inr (Or.inr (Or.inl (by rw [e, f])))
        · exact Or.inr (Or.inr (Or.inr ⟨i, by simp, by rw [e, f]⟩))
      · exact Or.inr (Or.inl e)
      · exact Or.inr (Or.inr (Or.inl e))
      · exact Or.inr (Or.inr (Or.inr ⟨j, by simp [hj], e⟩))

/-- When no playing snake of `l` faces food, the slot loop over `l` finishes
without a single `rand()`. -/
theorem tick_players_no_food (l : List Nat) (hnd : l.Nodup) (g : GameState) (rs : List Nat)
    (hf : ∀ j ∈ l, playing g (j : Nat) → dest_cell g (j : Nat) ≠ CELL_FOOD) :
    ∃ g1, tick_players l g rs = some (g1, rs) := by
  induction l generalizing g with
  | nil => exact ⟨g, rfl⟩
  | cons i more ih =>
    obtain ⟨g0, h0, hfood⟩ := tick_player_no_food i g rs (hf i (by simp))
    obtain ⟨_, hk0, _⟩ := tick_player_frame i g g0 rs rs h0
    rw [List.nodup_cons] at hnd
    have hf0 : ∀ j ∈ more, playing g0 (j : Nat) → dest_cell g0 (j : Nat) ≠ CELL_FOOD := by
      intro j hj hp hd
      have hji : ((j : Nat) : Int) ≠ (i : Int) := by
        intro e
        have : j = i := by exact_mod_cast e
        exact hnd.1 (this ▸ hj)
      obtain ⟨a1, a2, _⟩ := hk0 j hji
      unfold playing at hp
      unfold dest_cell at hd
      rw [a1] at hd
      rw [a1, a2] at hp
      exact hf j (by simp [hj]) hp (hfood _ _ hd)
    obtain ⟨g1, h1⟩ := ih hnd.2 g0 hf0
    exact ⟨g1, by rw [tick_players_cons i more g g0 rs rs h0]; exact h1⟩

theorem game_tick_some (g g1 : GameState) (rs rs1 : List Nat)
    (h : game_tick g rs = some (g1, rs1)) :
    ∃ g0, tick_players (List.range MAX_PLAYERS) g rs = some (g0, rs1)
      ∧ g1 = { g0 with version := (g0.version + 1) % 2 ^ 64 } := by
  unfold game_tick at h
  split at h
  · simp at h
  · rename_i g0 rs0 h0
    simp only [Option.some.injEq, Prod.mk.injEq] at h
    obtain ⟨rfl, rfl⟩ := h
    exact ⟨g0, h0, rfl⟩

/-- A tick in which no playing snake faces food finishes without `rand()`. -/
theorem game_tick_no_food (g : GameState) (rs : List Nat)
    (hf : ∀ j : Nat, j < MAX_PLAYERS → playing g j → dest_cell g j ≠ CELL_FOOD) :
    ∃ g1, game_tick g rs = some (g1, rs) := by
  obtain ⟨g0, h0⟩ := tick_players_no_food (List.range MAX_PLAYERS) (List.nodup_range _) g rs
    (fun j hj => hf j (List.mem_range.mp hj))
  exact ⟨{ g0 with version := (g0.version + 1) % 2 ^ 64 }, by simp [game_tick, h0]⟩

theorem range_split (i n : Nat) (h : i < n) :
    List.range n = List.range i ++ i :: List.range' (i + 1) (n - (i + 1)) := by
  rw [List.range_eq_range', List.range_eq_range', ← List.range'_succ i (n - (i + 1)) 1]
  have h1 := List.range'_append_1 0 i (n - (i + 1) + 1)
  rw [Nat.zero_add] at h1
  rw [h1]
  congr 1
  omega

/-- The state in which the tick leaves a slot that collides when its turn
comes: inactive, dead, and its token gone from the grid. -/
theorem tick_from_collision (i : Nat) (more : List Nat) (g0 g1 : GameState)
    (rs0 rs1 : List Nat) (hmore : ∀ j ∈ more, j ≠ i)
    (hp : playing g0 i)
    (honly : ∀ x y, inGrid x y → g0.map y x = CELL_PLAYER_BASE + i →
      ∃ j : Nat, (j : Int) < (g0.snakes i).length ∧ (g0.snakes i).body j = ⟨x, y⟩)
    (hc : dest_cell g0 i = CELL_WALL ∨ dest_cell g0 i ≥ CELL_PLAYER_BASE)
    (h : tick_players (i :: more) g0 rs0 = some (g1, rs1)) :
    g1.active_players i = 0 ∧ (g1.snakes i).alive = 0
      ∧ ∀ x y, inGrid x y → g1.map y x ≠ CELL_PLAYER_BASE + i := by
  rw [tick_players_cons i more g0 _ rs0 rs0 (tick_player_die i g0 rs0 hp hc)] at h
  obtain ⟨_, hk, hcells⟩ := tick_players_frame more _ g1 rs0 rs1 h
  have hne : ∀ j ∈ more, (i : Int) ≠ ((j : Nat) : Int) := by
    intro j hj e
    have : i = j := by exact_mod_cast e
    exact hmore j hj this.symm
  obtain ⟨a1, a2, _⟩ := hk i hne
  refine ⟨by rw [a2]; simp [setAt], by rw [a1]; simp [setAt], fun x y hin hcell => ?_⟩
  have hbase : CELL_EMPTY ≠ CELL_PLAYER_BASE + (i : Int) ∧ CELL_FOOD ≠ CELL_PLAYER_BASE + (i : Int) := by
    unfold CELL_EMPTY CELL_FOOD CELL_PLAYER_BASE; omega
  rcases hcells y x with e | e | e | ⟨j, hj, e⟩
  · rw [e] at hcell
    simp only at hcell
    by_cases hb : ∃ j : Nat, (j : Int) < (g0.snakes i).length ∧ (g0.snakes i).body j = ⟨x, y⟩
    · rw [(clear_body_apply g0.map (g0.snakes i).body (g0.snakes i).length y x).1 hb] at hcell
      exact hbase.1 hcell
    · rw [(clear_body_apply g0.map (g0.snakes i).body (g0.snakes i).length y x).2 hb] at hcell
      exact hb (honly x y hin hcell)
  · rw [e] at hcell; exact hbase.1 hcell
  · rw [e] at hcell; exact hbase.2 hcell
  · rw [e] at hcell
    have : (j : Int) = (i : Int) := by unfold CELL_PLAYER_BASE at hcell; omega
    exact hne j hj this.symm

/-- With a single playing slot the whole slot loop is the loop body of that slot. -/
theorem tick_players_single (g : GameState) (rs : List Nat) (i : Nat) (hi : i < MAX_PLAYERS)
    (hsingle : ∀ j : Nat, j < MAX_PLAYERS → j ≠ i → ¬ playing g j) :
    tick_players (List.range MAX_PLAYERS) g rs = tick_player i g rs := by
  rw [range_split i MAX_PLAYERS hi,
    tick_players_append _ _ g g rs rs
      (tick_players_skip _ g rs (fun j hj => by
        have := List.mem_range.mp hj
        exact hsingle j (by omega) (by omega)))]
  cases h : tick_player i g rs with
  | none => simp only [tick_players, h]
  | some r =>
    obtain ⟨g1, rs1⟩ := r
    rw [tick_players_cons i _ g g1 rs rs1 h]
    obtain ⟨_, hk, _⟩ := tick_player_frame i g g1 rs rs1 h
    apply tick_players_skip
    intro j hj
    rw [List.mem_range'_1] at hj
    have hji : ((j : Nat) : Int) ≠ (i : Int) := by omega
    obtain ⟨a1, a2, _⟩ := hk j hji
    unfold playing
    rw [a1, a2]
    exact hsingle j (by omega) (by omega)

/-- Once the slots below `i` are done, the tick finishes without a further
`rand()` when no playing snake from slot `i` upwards faces food. -/
theorem tick_finishes_from (g g0 : GameState) (rs rs0 : List Nat) (i : Nat)
    (hi : i < MAX_PLAYERS)
    (hlow : tick_players (List.range i) g rs = some (g0, rs0))
    (hf : ∀ j : Nat, i ≤ j → j < MAX_PLAYERS → playing g0 j → dest_cell g0 j ≠ CELL_FOOD) :
    ∃ g1, game_tick g rs = some (g1, rs0) := by
  have hnd : (i :: List.range' (i + 1) (MAX_PLAYERS - (i + 1))).Nodup := by
    rw [List.nodup_cons]
    refine ⟨fun hmem => ?_, List.nodup_range' _ _⟩
    rw [List.mem_range'_1] at hmem
    omega
  obtain ⟨g2, h2⟩ := tick_players_no_food _ hnd g0 rs0 (fun j hj => by
    have hj2 : i ≤ j ∧ j < MAX_PLAYERS := by
      rcases List.mem_cons.mp hj with e | e
      · omega
      · rw [List.mem_range'_1] at e; omega
    exact hf j hj2.1 hj2.2)
  refine ⟨{ g2 with version := (g2.version + 1) % 2 ^ 64 }, ?_⟩
  unfold game_tick
  rw [range_split i MAX_PLAYERS hi, tick_players_append _ _ g g0 rs rs0 hlow, h2]

/-- The slot loop up to and with a slot that collides when its turn comes. -/
theorem tick_up_to_collision (g g0 : GameState) (rs rs0 : List Nat) (i : Nat)
    (hlow : tick_players (List.range i) g rs = some (g0, rs0))
    (hp : playing g0 i)
    (hc : dest_cell g0 i = CELL_WALL ∨ dest_cell g0 i ≥ CELL_PLAYER_BASE) :
    ∃ gi, tick_players (List.range (i + 1)) g rs = some (gi, rs0)
      ∧ tick_players [i] g0 rs0 = some (gi, rs0) := by
  have h1 : tick_players [i] g0 rs0
      = some ({ g0 with
                  snakes := setAt g0.snakes i { g0.snakes i with alive := 0 }
                  active_players := setAt g0.active_players i 0
                  map := clear_body g0.map (g0.snakes i).body (g0.snakes i).length }, rs0) := by
    rw [tick_players_cons i [] g0 _ rs0 rs0 (tick_player_die i g0 rs0 hp hc)]
    rfl
  refine ⟨_, ?_, h1⟩
  rw [List.range_succ, tick_players_append _ _ g g0 rs rs0 hlow]
  exact h1

/-! ## Simulator theorems -/

/-- C6. For every game state with version below 2^64-1 and every supply of
`rand()` values, a finished tick leaves the version equal to the old version
plus exactly 1, hence strictly greater, whatever the snakes did; and the tick
does finish, without drawing from `rand()`, whenever no playing snake faces
food (with food eaten it finishes when the respawn loop finds an empty cell). -/
theorem tick_bumps_version (g : GameState) (rs : List Nat) (hv : g.version < 2 ^ 64 - 1) :
    (∀ g1 rs1, game_tick g rs = some (g1, rs1) →
        g1.version = g.version + 1 ∧ g.version < g1.version)
      ∧ ((∀ j : Nat, j < MAX_PLAYERS → playing g j → dest_cell g j ≠ CELL_FOOD) →
          ∃ g1, game_tick g rs = some (g1, rs) ∧ g1.version = g.version + 1) := by
  have key : ∀ g1 rs1, game_tick g rs = some (g1, rs1) → g1.version = g.version + 1 := by
    intro g1 rs1 h
    obtain ⟨g0, h0, rfl⟩ := game_tick_some g g1 rs rs1 h
    obtain ⟨hv0, _, _⟩ := tick_players_frame _ g g0 rs rs1 h0
    simp only [hv0]
    omega
  refine ⟨fun g1 rs1 h => ⟨key g1 rs1 h, by rw [key g1 rs1 h]; omega⟩, fun hf => ?_⟩
  obtain ⟨g1, h1⟩ := game_tick_no_food g rs hf
  exact ⟨g1, h1, key g1 rs h1⟩


theorem tick_bumps_version_witness :
    snake_before_food.version < 2 ^ 64 - 1
      ∧ ∃ g1 rs1, game_tick snake_before_food [4, 4] = some (g1, rs1)
          ∧ g1.version = snake_before_food.version + 1
          ∧ snake_before_food.version < g1.version := by
  refine ⟨by decide, ?_⟩
  have hs : (game_tick snake_before_food [4, 4]).isSome = true := by decide
  obtain ⟨⟨g1, rs1⟩, h⟩ := Option.isSome_iff_exists.mp hs
  exact ⟨g1, rs1, h, (tick_bumps_version snake_before_food [4, 4] (by decide)).1 g1 rs1 h⟩

/-- C7 (as amended). Collision death: when the turn of slot `i` comes in a tick
(the slots below `i` have been processed, giving `g0`) and then slot `i` is
active and alive, its body points are the only grid cells holding
`PLAYER_BASE + i`, and the cell one step from its head in its direction is a
wall or holds a player token (its own included), the finished tick leaves slot
`i` inactive, its snake not alive, and no grid cell equal to `PLAYER_BASE + i`.
When no slot below `i` is playing, the state at the start of the tick is that
`g0`.  The slot loop up to and with slot `i` always finishes, on the same
supply of `rand()`, with the slot in that condition; and the whole tick
finishes, without a further `rand()`, whenever no playing snake in a slot above
`i` faces food when the turn of `i` comes. -/
theorem collision_kills (g g0 : GameState) (rs rs0 : List Nat) (i : Nat)
    (hi : i < MAX_PLAYERS)
    (hlow : tick_players (List.range i) g rs = some (g0, rs0))
    (hp : playing g0 i)
    (honly : ∀ x y, inGrid x y → g0.map y x = CELL_PLAYER_BASE + i →
      ∃ j : Nat, (j : Int) < (g0.snakes i).length ∧ (g0.snakes i).body j = ⟨x, y⟩)
    (hc : dest_cell g0 i = CELL_WALL ∨ ∃ k : Nat, dest_cell g0 i = CELL_PLAYER_BASE + k) :
    (∀ g1 rs1, game_tick g rs = some (g1, rs1) →
        g1.active_players i = 0 ∧ (g1.snakes i).alive = 0
          ∧ ∀ x y, inGrid x y → g1.map y x ≠ CELL_PLAYER_BASE + i)
      ∧ ((∀ j : Nat, j < i → ¬ playing g j) → g0 = g ∧ rs0 = rs)
      ∧ (∃ gi, tick_players (List.range (i + 1)) g rs = some (gi, rs0)
          ∧ gi.active_players i = 0 ∧ (gi.snakes i).alive = 0
          ∧ ∀ x y, inGrid x y → gi.map y x ≠ CELL_PLAYER_BASE + i)
      ∧ ((∀ j : Nat, i < j → j < MAX_PLAYERS → playing g0 j → dest_cell g0 j ≠ CELL_FOOD) →
          ∃ g1, game_tick g rs = some (g1, rs0)
            ∧ g1.active_players i = 0 ∧ (g1.snakes i).alive = 0
            ∧ ∀ x y, inGrid x y → g1.map y x ≠ CELL_PLAYER_BASE + i) := by
  have hc2 : dest_cell g0 i = CELL_WALL ∨ dest_cell g0 i ≥ CELL_PLAYER_BASE := by
    rcases hc with hw | ⟨k, hk⟩
    · exact Or.inl hw
    · right; rw [hk]; unfold CELL_PLAYER_BASE; omega
  have key : ∀ g1 rs1, game_tick g rs = some (g1, rs1) →
      g1.active_players i = 0 ∧ (g1.snakes i).alive = 0
        ∧ ∀ x y, inGrid x y → g1.map y x ≠ CELL_PLAYER_BASE + i := by
    intro g1 rs1 h
    obtain ⟨g2, h2, rfl⟩ := game_tick_some g g1 rs rs1 h
    rw [range_split i MAX_PLAYERS hi, tick_players_append _ _ g g0 rs rs0 hlow] at h2
    have hmore : ∀ j ∈ List.range' (i + 1) (MAX_PLAYERS - (i + 1)), j ≠ i := by
      intro j hj
      rw [List.mem_range'_1] at hj
      omega
    exact tick_from_collision i _ g0 g2 rs0 rs1 hmore hp honly hc2 h2
  refine ⟨key, fun hnone => ?_, ?_, fun hf => ?_⟩
  · have hskip := tick_players_skip (List.range i) g rs
      (fun j hj => hnone j (List.mem_range.mp hj))
    rw [hskip] at hlow
    simp only [Option.some.injEq, Prod.mk.injEq] at hlow
    exact ⟨hlow.1.symm, hlow.2.symm⟩
  · obtain ⟨gi, h1, h2⟩ := tick_up_to_collision g g0 rs rs0 i hlow hp hc2
    exact ⟨gi, h1, tick_from_collision i [] g0 gi rs0 rs0 (fun j hj => by simp at hj)
      hp honly hc2 h2⟩
  · obtain ⟨g1, h1⟩ := tick_finishes_from g g0 rs rs0 i hi hlow (fun j hij hj hpj => by
      rcases Nat.eq_or_lt_of_le hij with e | e
      · subst e
        rcases hc2 with e1 | e1
        · rw [e1]; decide
        · intro e2; rw [e2] at e1; exact absurd e1 (by decide)
      · exact hf j e hj hpj)
    exact ⟨g1, h1, key g1 rs0 h1⟩

theorem collision_kills_witness :
    ∃ g1 rs1, game_tick (lone_snake 1 1 DIR_LEFT) [] = some (g1, rs1)
      ∧ g1.active_players 0 = 0 ∧ (g1.snakes 0).alive = 0
      ∧ ∀ x y, inGrid x y → g1.map y x ≠ CELL_PLAYER_BASE + 0 := by
  have hs : (game_tick (lone_snake 1 1 DIR_LEFT) []).isSome = true := by decide
  obtain ⟨⟨g1, rs1⟩, h⟩ := Option.isSome_iff_exists.mp hs
  have honly : ∀ x y, inGrid x y →
      (lone_snake 1 1 DIR_LEFT).map y x = CELL_PLAYER_BASE + ((0 : Nat) : Int) →
      ∃ j : Nat, (j : Int) < ((lone_snake 1 1 DIR_LEFT).snakes ((0 : Nat) : Int)).length
        ∧ ((lone_snake 1 1 DIR_LEFT).snakes ((0 : Nat) : Int)).body j = ⟨x, y⟩ := by
    intro x y _ hcell
    refine ⟨0, by decide, ?_⟩
    simp only [lone_snake, setCell, walled_map, CELL_PLAYER_BASE, CELL_WALL, CELL_EMPTY,
      MAP_WIDTH, MAP_HEIGHT] at hcell
    split_ifs at hcell with h1 h2
    · obtain ⟨rfl, rfl⟩ := h1; rfl
    · omega
    · omega
  exact ⟨g1, rs1, h,
    (collision_kills (lone_snake 1 1 DIR_LEFT) (lone_snake 1 1 DIR_LEFT) [] [] 0
      (by decide) rfl (by decide) honly (Or.inl (by decide))).1 g1 rs1 h⟩

/-- C7 as stated fails when a lower slot vacates the destination first: slot 1
on `(4, 5)` faces the cell `(5, 5)` holding the token of slot 0, all premises
of the claim hold for slot 1, yet after the tick slot 1 is still active and
alive with its token on `(5, 5)`. -/
theorem follower_survives_vacated_cell :
    playing two_in_a_row 1
      ∧ dest_cell two_in_a_row 1 = CELL_PLAYER_BASE + 0
      ∧ (∀ x y, inGrid x y → two_in_a_row.map y x = CELL_PLAYER_BASE + 1 →
          (two_in_a_row.snakes 1).body 0 = ⟨x, y⟩)
      ∧ (game_tick two_in_a_row []).map
          (fun r => (r.1.active_players 1, (r.1.snakes 1).alive, r.1.map 5 5))
        = some (1, 1, CELL_PLAYER_BASE + 1) := by
  refine ⟨by decide, by decide, ?_, by decide⟩
  intro x y _ hcell
  simp only [two_in_a_row, setCell, walled_map, CELL_PLAYER_BASE, CELL_WALL, CELL_EMPTY,
    MAP_WIDTH, MAP_HEIGHT] at hcell
  split_ifs at hcell with h1 h2 h3
  · obtain ⟨rfl, rfl⟩ := h1; rfl
  · omega
  · omega
  · omega


/-- C8. Food growth: in a state whose only playing snake, in slot `i`, has
length 1 and score 0 and faces a food cell, a finished tick leaves the snake
with length 2 and score 1, its head on the former food cell (now stamped with
its token) and its old head as second body point, the old head cell still
stamped if it was; exactly one cell that was empty before, an interior one, is
now food, every other food cell is unchanged and no other food has appeared.
The tick finishes as soon as some round of `rand()` draws an empty cell. -/
theorem food_growth (g : GameState) (rs : List Nat) (i : Nat) (hi : i < MAX_PLAYERS)
    (hp : playing g i) (hsingle : ∀ j : Nat, j < MAX_PLAYERS → j ≠ i → ¬ playing g j)
    (hlen : (g.snakes i).length = 1) (hscore : g.scores i = 0)
    (hfood : dest_cell g i = CELL_FOOD) :
    (∀ g1 rs1, game_tick g rs = some (g1, rs1) →
        (g1.snakes i).length = 2 ∧ g1.scores i = 1
          ∧ (g1.snakes i).body 0 = new_head (g.snakes i)
          ∧ (g1.snakes i).body 1 = (g.snakes i).body 0
          ∧ g1.map (new_head (g.snakes i)).y (new_head (g.snakes i)).x = CELL_PLAYER_BASE + i
          ∧ (g.map ((g.snakes i).body 0).y ((g.snakes i).body 0).x = CELL_PLAYER_BASE + i →
              g1.map ((g.snakes i).body 0).y ((g.snakes i).body 0).x = CELL_PLAYER_BASE + i)
          ∧ (∃ x y, interior x y ∧ g.map y x = CELL_EMPTY ∧ g1.map y x = CELL_FOOD
              ∧ ∀ x2 y2, g.map y2 x2 = CELL_EMPTY → g1.map y2 x2 = CELL_FOOD →
                  x2 = x ∧ y2 = y)
          ∧ (∀ x y, g.map y x = CELL_FOOD →
              ¬ (x = (new_head (g.snakes i)).x ∧ y = (new_head (g.snakes i)).y) →
              g1.map y x = CELL_FOOD)
          ∧ (∀ x y, g1.map y x = CELL_FOOD → g.map y x = CELL_FOOD ∨ g.map y x = CELL_EMPTY))
      ∧ ((∃ n, 2 * n + 1 < rs.length
            ∧ g.map (rand_coord (rs.getD (2 * n + 1) 0)) (rand_coord (rs.getD (2 * n) 0))
                = CELL_EMPTY) →
          ∃ g1 rs1, game_tick g rs = some (g1, rs1)) := by
  have hbase : CELL_PLAYER_BASE + (i : Int) ≠ CELL_FOOD
      ∧ CELL_PLAYER_BASE + (i : Int) ≠ CELL_EMPTY ∧ CELL_FOOD ≠ CELL_EMPTY := by
    unfold CELL_PLAYER_BASE CELL_FOOD CELL_EMPTY; omega
  have hl : (if (g.snakes i).length < MAX_SNAKE_LENGTH then (g.snakes i).length + 1
      else (g.snakes i).length) = 2 := by
    rw [hlen]; decide
  constructor
  · intro g1 rs1 h
    obtain ⟨g2, h2, rfl⟩ := game_tick_some g g1 rs rs1 h
    rw [tick_players_single g rs i hi hsingle, tick_player_eat i g rs hp hfood] at h2
    split at h2
    · simp at h2
    · rename_i g3 rs3 hs
      simp only [Option.some.injEq, Prod.mk.injEq] at h2
      obtain ⟨rfl, _⟩ := h2
      obtain ⟨r1, r2, hempty, rfl⟩ := spawn_food_some _ _ _ _ hs
      simp only at hempty
      unfold dest_cell at hfood
      refine ⟨?_, ?_, ?_, ?_, ?_, ?_, ?_, ?_, ?_⟩
      · simp only [setAt, if_true]; exact hl
      · simp only [setAt, if_true, hscore]; rfl
      · simp only [setAt, if_true]
      · simp only [setAt, if_true, hl]
        have e : ((2 : Int) - 1).toNat = 1 := by decide
        rw [e]
        simp [shift_body, setAt]
      · simp only [setCell, and_self, if_true]
      · intro hstamp
        simp only [setCell]
        split_ifs with c1 c2
        · rfl
        · exfalso
          rw [c2.1, c2.2, hempty] at hstamp
          exact hbase.2.1 hstamp.symm
        · exact hstamp
      · refine ⟨rand_coord r1, rand_coord r2, rand_coord_interior r1 r2, hempty, ?_, ?_⟩
        · simp only [setCell]
          have hne : ¬ (rand_coord r2 = (new_head (g.snakes i)).y
              ∧ rand_coord r1 = (new_head (g.snakes i)).x) := by
            rintro ⟨e1, e2⟩
            rw [e1, e2, hfood] at hempty
            exact hbase.2.2 hempty
          simp [hne]
        · intro x2 y2 he hf
          simp only [setCell] at hf
          split_ifs at hf with c1 c2
          · exact absurd hf hbase.1
          · exact ⟨c2.2, c2.1⟩
          · rw [he] at hf; exact absurd hf.symm hbase.2.2
      · intro x y hf hne
        simp only [setCell]
        have c1 : ¬ (y = (new_head (g.snakes i)).y ∧ x = (new_head (g.snakes i)).x) :=
          fun c => hne ⟨c.2, c.1⟩
        rw [if_neg c1]
        split_ifs
        · rfl
        · exact hf
      · intro x y hf
        simp only [setCell] at hf
        split_ifs at hf with c1 c2
        · exact absurd hf hbase.1
        · right; rw [c2.1, c2.2]; exact hempty
        · exact Or.inl hf
  · rintro ⟨n, hn, hhit⟩
    obtain ⟨g3, rs3, hs⟩ := spawn_food_hits n rs
      { g with scores := setAt g.scores i (g.scores i + 1) } hn hhit
    unfold game_tick
    rw [tick_players_single g rs i hi hsingle, tick_player_eat i g rs hp hfood, hs]
    exact ⟨_, _, rfl⟩


theorem food_growth_witness :
    ∃ g1 rs1, game_tick snake_before_food [4, 4] = some (g1, rs1)
      ∧ (g1.snakes 0).length = 2 ∧ g1.scores 0 = 1 := by
  have hs : (game_tick snake_before_food [4, 4]).isSome = true := by decide
  obtain ⟨⟨g1, rs1⟩, h⟩ := Option.isSome_iff_exists.mp hs
  have hsingle : ∀ j : Nat, j < MAX_PLAYERS → j ≠ 0 → ¬ playing snake_before_food j := by
    intro j _ hj hp
    have hj2 : ((j : Nat) : Int) ≠ 0 := by omega
    simp [playing, snake_before_food, lone_snake, setAt, hj2] at hp
  have key := (food_growth snake_before_food [4, 4] 0 (by decide) (by decide) hsingle
    (by decide) (by decide) (by decide)).1 g1 rs1 h
  exact ⟨g1, rs1, h, key.1, key.2.1⟩

/-! ## Handler lemmas -/

/-- A finished placement loop has put the token of slot `i` on one empty
cell drawn from `rand()` and recorded that cell as `body[0]`. -/
theorem spawn_player_some : ∀ (rs : List Nat) (g g1 : GameState) (i : Int) (rs1 : List Nat),
    spawn_player rs g i = some (g1, rs1) →
    ∃ r1 r2, g.map (rand_coord r2) (rand_coord r1) = CELL_EMPTY ∧
      g1 = { g with
              map := setCell g.map (rand_coord r2) (rand_coord r1) (CELL_PLAYER_BASE + i)
              snakes := setAt g.snakes i
                { g.snakes i with
                    body := setAt (g.snakes i).body 0 ⟨rand_coord r1, rand_coord r2⟩ } }
  | [], g, g1, i, rs1, h => by simp [spawn_player] at h
  | [_], g, g1, i, rs1, h => by simp [spawn_player] at h
  | r1 :: r2 :: rest, g, g1, i, rs1, h => by
    simp only [spawn_player] at h
    split_ifs at h with he
    · simp only [Option.some.injEq, Prod.mk.injEq] at h
      exact ⟨r1, r2, he, h.1.symm⟩
    · exact spawn_player_some rest g g1 i rs1 h

/-- The placement loop finishes as soon as some round of `rand()` draws an empty cell. -/
theorem spawn_player_hits : ∀ (n : Nat) (rs : List Nat) (g : GameState) (i : Int),
    2 * n + 1 < rs.length →
    g.map (rand_coord (rs.getD (2 * n + 1) 0)) (rand_coord (rs.getD (2 * n) 0)) = CELL_EMPTY →
    ∃ g1 rs1, spawn_player rs g i = some (g1, rs1)
  | _, [], _, _, hl, _ => by simp at hl
  | _, [_], _, _, hl, _ => by simp at hl
  | 0, r1 :: r2 :: rest, g, i, _, he => by
    simp only [Nat.mul_zero, Nat.zero_add, List.getD_cons_succ, List.getD_cons_zero] at he
    simp [spawn_player, he]
  | n + 1, r1 :: r2 :: rest, g, i, hl, he => by
    by_cases h0 : g.map (rand_coord r2) (rand_coord r1) = CELL_EMPTY
    · simp [spawn_player, h0]
    · have e1 : 2 * (n + 1) + 1 = (2 * n + 1) + 1 + 1 := by omega
      have e2 : 2 * (n + 1) = (2 * n) + 1 + 1 := by omega
      rw [e1, e2] at he
      simp only [List.getD_cons_succ] at he
      have hl2 : 2 * n + 1 < rest.length := by simp at hl; omega
      obtain ⟨g1, rs1, h1⟩ := spawn_player_hits n rest g i hl2 he
      exact ⟨g1, rs1, by simp [spawn_player, h0, h1]⟩

/-- The slot scan passes over active slots. -/
theorem login_scan_skip (l1 l2 : List Nat) (g : GameState) (rs : List Nat)
    (h : ∀ j ∈ l1, g.active_players (j : Nat) ≠ 0) :
    login_scan (l1 ++ l2) g rs = login_scan l2 g rs := by
  induction l1 with
  | nil => rfl
  | cons i more ih =>
    rw [List.cons_append, login_scan, if_neg (h i (by simp))]
    exact ih (fun j hj => h j (by simp [hj]))

/-- The slot scan stops at the first inactive slot. -/
theorem login_scan_free (i : Nat) (more : List Nat) (g : GameState) (rs : List Nat)
    (h : g.active_players i = 0) :
    login_scan (i :: more) g rs
      = match spawn_player rs
          { g with
              active_players := setAt g.active_players i 1
              scores := setAt g.scores i 0
              snakes := setAt g.snakes i
                { g.snakes i with length := 1, alive := 1, direction := DIR_RIGHT } } i with
        | none => none
        | some (g2, rs1) => some (g2, (i : Int), rs1) := by
  rw [login_scan, if_pos h]

theorem int_bytes_slot (i : Nat) (hi : i < MAX_PLAYERS) : int_bytes i = [i, 0, 0, 0] := by
  unfold MAX_PLAYERS at hi
  unfold int_bytes
  have e : ((i : Int) % 2 ^ 32).toNat = i := by omega
  simp only [e]
  simp only [List.cons.injEq, and_true]
  omega

/-- The login branch when slot `i` is the first inactive one. -/
theorem handle_login_free (stream rs : List Nat) (g : GameState) (pid : Int) (f : Frame)
    (rest : List Nat) (hrecv : recv_packet stream = (.ok f, rest))
    (hop : f.opcode = OP_LOGIN_REQ) (i : Nat) (hi : i < MAX_PLAYERS)
    (hfree : g.active_players i = 0) (hlow : ∀ j : Nat, j < i → g.active_players j ≠ 0) :
    handle_client_message stream rs g pid
      = match spawn_player rs
          { g with
              active_players := setAt g.active_players i 1
              scores := setAt g.scores i 0
              snakes := setAt g.snakes i
                { g.snakes i with length := 1, alive := 1, direction := DIR_RIGHT } } i with
        | none => .spin
        | some (g2, rs1) =>
          .done { state := g2, player_id := i
                  sent := send_packet OP_LOGIN_RESP (some (int_bytes i)) 4
                  closed := false, stream := rest, rand := rs1 } := by
  unfold handle_client_message
  rw [hrecv]
  simp only [hop, if_true]
  rw [range_split i MAX_PLAYERS hi,
    login_scan_skip _ _ g rs (fun j hj => hlow j (List.mem_range.mp hj)),
    login_scan_free i _ g rs hfree]
  cases spawn_player rs _ i with
  | none => rfl
  | some r =>
    obtain ⟨g2, rs1⟩ := r
    have hne : ((i : Nat) : Int) ≠ -1 := by omega
    simp only [hne, ne_eq, not_false_eq_true, if_true]

/-- The login branch when every slot is active. -/
theorem handle_login_full (stream rs : List Nat) (g : GameState) (pid : Int) (f : Frame)
    (rest : List Nat) (hrecv : recv_packet stream = (.ok f, rest))
    (hop : f.opcode = OP_LOGIN_REQ)
    (hfull : ∀ j : Nat, j < MAX_PLAYERS → g.active_players j ≠ 0) :
    handle_client_message stream rs g pid
      = .done ⟨g, -1, send_packet OP_ERROR (some server_full) 11, true, rest, rs⟩ := by
  unfold handle_client_message
  rw [hrecv]
  simp only [hop, if_true]
  have h := login_scan_skip (List.range MAX_PLAYERS) [] g rs
    (fun j hj => hfull j (List.mem_range.mp hj))
  rw [List.append_nil] at h
  rw [h]
  simp [login_scan]

/-- The logout branch of a connection that holds a slot. -/
theorem handle_logout (stream rs : List Nat) (g : GameState) (pid : Int) (f : Frame)
    (rest : List Nat) (hrecv : recv_packet stream = (.ok f, rest))
    (hop : f.opcode = OP_LOGOUT) (hpid : 0 ≤ pid) :
    handle_client_message stream rs g pid
      = .done ⟨release_player g pid, -1, [], true, rest, rs⟩ := by
  have h1 : ¬ (OP_LOGOUT = OP_LOGIN_REQ) := by decide
  have h2 : ¬ (OP_LOGOUT = OP_MOVE) := by decide
  have h3 : ¬ (OP_LOGOUT = OP_HEARTBEAT) := by decide
  unfold handle_client_message
  rw [hrecv]
  simp only [hop, h1, h2, h3, hpid, if_false, if_true, false_and, ge_iff_le, and_self]

/-! ## Handler theorems -/

/-- C9. Move validation: on a MOVE frame whose first payload byte is `d`, a
connection holding slot `p` whose slot is active and alive leaves the whole
shared state unchanged when `d` is the opposite of the current direction
(UP/DOWN, LEFT/RIGHT) and otherwise changes only the direction field of that
snake, to `d`; with the slot inactive or the snake dead, or with no slot, the
state is unchanged.  In every case the connection stays open, keeps its slot
and nothing is sent. -/
theorem move_validation (stream rs : List Nat) (g : GameState) (p : Int)
    (d : Nat) (t : List Nat) (len : Nat) (rest : List Nat)
    (hrecv : recv_packet stream = (.ok ⟨OP_MOVE, some (d :: t), len⟩, rest)) :
    (0 ≤ p → playing g p →
        (((g.snakes p).direction = DIR_UP ∧ d = DIR_DOWN)
          ∨ ((g.snakes p).direction = DIR_DOWN ∧ d = DIR_UP)
          ∨ ((g.snakes p).direction = DIR_LEFT ∧ d = DIR_RIGHT)
          ∨ ((g.snakes p).direction = DIR_RIGHT ∧ d = DIR_LEFT)) →
        handle_client_message stream rs g p = .done ⟨g, p, [], false, rest, rs⟩)
      ∧ (0 ≤ p → playing g p →
        ¬ (((g.snakes p).direction = DIR_UP ∧ d = DIR_DOWN)
          ∨ ((g.snakes p).direction = DIR_DOWN ∧ d = DIR_UP)
          ∨ ((g.snakes p).direction = DIR_LEFT ∧ d = DIR_RIGHT)
          ∨ ((g.snakes p).direction = DIR_RIGHT ∧ d = DIR_LEFT)) →
        handle_client_message stream rs g p
          = .done ⟨{ g with snakes := setAt g.snakes p { g.snakes p with direction := d } },
              p, [], false, rest, rs⟩)
      ∧ (0 ≤ p → ¬ playing g p →
        handle_client_message stream rs g p = .done ⟨g, p, [], false, rest, rs⟩)
      ∧ (p < 0 →
        handle_client_message stream rs g p = .done ⟨g, p, [], false, rest, rs⟩) := by
  have h1 : ¬ (OP_MOVE = OP_LOGIN_REQ) := by decide
  have h2 : ¬ (OP_MOVE = OP_HEARTBEAT) := by decide
  have h3 : ¬ (OP_MOVE = OP_LOGOUT) := by decide
  refine ⟨?_, ?_, ?_, ?_⟩
  · intro hp0 hplay hopp
    unfold playing at hplay
    unfold handle_client_message
    rw [hrecv]
    simp only [h1, if_false, hp0, ge_iff_le, and_self, if_true]
    unfold apply_move
    rw [if_pos hplay]
    simp only [hopp, not_true_eq_false, if_false]
  · intro hp0 hplay hopp
    unfold playing at hplay
    unfold handle_client_message
    rw [hrecv]
    simp only [h1, if_false, hp0, ge_iff_le, and_self, if_true]
    unfold apply_move
    rw [if_pos hplay]
    simp only [hopp, not_false_eq_true, if_true]
  · intro hp0 hplay
    unfold playing at hplay
    unfold handle_client_message
    rw [hrecv]
    simp only [h1, if_false, hp0, ge_iff_le, and_self, if_true]
    unfold apply_move
    rw [if_neg hplay]
  · intro hneg
    have hp0 : ¬ (p ≥ 0) := by omega
    unfold handle_client_message
    rw [hrecv]
    simp only [h1, h2, h3, hp0, if_false, and_false, false_and]

theorem move_validation_witness :
    ((lone_snake 5 5 DIR_RIGHT).snakes 0).direction = DIR_RIGHT
      ∧ handle_client_message (send_packet OP_MOVE (some [65]) 1) [] (lone_snake 5 5 DIR_RIGHT) 0
          = .done ⟨lone_snake 5 5 DIR_RIGHT, 0, [], false, [], []⟩
      ∧ handle_client_message (send_packet OP_MOVE (some [87]) 1) [] (lone_snake 5 5 DIR_RIGHT) 0
          = .done ⟨{ lone_snake 5 5 DIR_RIGHT with
                      snakes := setAt (lone_snake 5 5 DIR_RIGHT).snakes 0
                        { (lone_snake 5 5 DIR_RIGHT).snakes 0 with direction := DIR_UP } },
              0, [], false, [], []⟩ :=
  ⟨rfl,
   (move_validation (send_packet OP_MOVE (some [65]) 1) [] (lone_snake 5 5 DIR_RIGHT) 0
      65 [] 1 [] rfl).1 (by decide) (by decide) (by decide),
   (move_validation (send_packet OP_MOVE (some [87]) 1) [] (lone_snake 5 5 DIR_RIGHT) 0
      87 [] 1 [] rfl).2.1 (by decide) (by decide) (by decide)⟩


/-- C10. Admission: handling LOGIN_REQ gives the connection the smallest slot
index whose active flag is 0, if there is one: the slot becomes active with
score 0, a live snake of length 1 facing RIGHT whose single body point is an
interior cell that was empty and now holds `PLAYER_BASE + slot`, and the reply
is LOGIN_RESP carrying the slot id; the handler never faults and finishes as
soon as some round of `rand()` draws an empty cell.  With all `MAX_PLAYERS`
slots active no slot is given, the shared state is unchanged, and ERROR
"Server Full" is sent before the close.  Hence login, logout, login, starting
with slot 0 free (as on an empty server), gives slot 0 both times. -/
theorem login_admission (stream rs : List Nat) (g : GameState) (pid : Int) (f : Frame)
    (rest : List Nat) (hrecv : recv_packet stream = (.ok f, rest))
    (hop : f.opcode = OP_LOGIN_REQ) :
    (∀ i : Nat, i < MAX_PLAYERS → g.active_players i = 0 →
        (∀ j : Nat, j < i → g.active_players j ≠ 0) →
        (∀ h, handle_client_message stream rs g pid = .done h →
            h.player_id = i ∧ h.closed = false
              ∧ h.sent = send_packet OP_LOGIN_RESP (some [i, 0, 0, 0]) 4
              ∧ h.state.active_players i = 1 ∧ h.state.scores i = 0
              ∧ (h.state.snakes i).alive = 1 ∧ (h.state.snakes i).length = 1
              ∧ (h.state.snakes i).direction = DIR_RIGHT
              ∧ interior ((h.state.snakes i).body 0).x ((h.state.snakes i).body 0).y
              ∧ g.map ((h.state.snakes i).body 0).y ((h.state.snakes i).body 0).x = CELL_EMPTY
              ∧ h.state.map ((h.state.snakes i).body 0).y ((h.state.snakes i).body 0).x
                  = CELL_PLAYER_BASE + i)
          ∧ handle_client_message stream rs g pid ≠ .fault
          ∧ ((∃ n, 2 * n + 1 < rs.length
                ∧ g.map (rand_coord (rs.getD (2 * n + 1) 0)) (rand_coord (rs.getD (2 * n) 0))
                    = CELL_EMPTY) →
              ∃ h, handle_client_message stream rs g pid = .done h))
      ∧ ((∀ j : Nat, j < MAX_PLAYERS → g.active_players j ≠ 0) →
          handle_client_message stream rs g pid
            = .done ⟨g, -1, send_packet OP_ERROR (some server_full) 11, true, rest, rs⟩)
      ∧ (∀ (s2 s3 : List Nat) (f2 f3 : Frame) (rest2 rest3 : List Nat) (pid3 : Int)
          (h1 h2 h3 : Handled),
          g.active_players 0 = 0 →
          recv_packet s2 = (.ok f2, rest2) → f2.opcode = OP_LOGOUT →
          recv_packet s3 = (.ok f3, rest3) → f3.opcode = OP_LOGIN_REQ →
          handle_client_message stream rs g pid = .done h1 →
          handle_client_message s2 h1.rand h1.state h1.player_id = .done h2 →
          handle_client_message s3 h2.rand h2.state pid3 = .done h3 →
          h1.player_id = 0 ∧ h2.player_id = -1 ∧ h2.closed = true
            ∧ h2.state.active_players 0 = 0 ∧ h3.player_id = 0) := by
  -- the first inactive slot
  have part1 : ∀ (stream rs : List Nat) (g : GameState) (pid : Int) (f : Frame)
      (rest : List Nat), recv_packet stream = (.ok f, rest) → f.opcode = OP_LOGIN_REQ →
      ∀ i : Nat, i < MAX_PLAYERS → g.active_players i = 0 →
      (∀ j : Nat, j < i → g.active_players j ≠ 0) →
      ∀ h, handle_client_message stream rs g pid = .done h →
        h.player_id = i ∧ h.closed = false
          ∧ h.sent = send_packet OP_LOGIN_RESP (some [i, 0, 0, 0]) 4
          ∧ h.state.active_players i = 1 ∧ h.state.scores i = 0
          ∧ (h.state.snakes i).alive = 1 ∧ (h.state.snakes i).length = 1
          ∧ (h.state.snakes i).direction = DIR_RIGHT
          ∧ interior ((h.state.snakes i).body 0).x ((h.state.snakes i).body 0).y
          ∧ g.map ((h.state.snakes i).body 0).y ((h.state.snakes i).body 0).x = CELL_EMPTY
          ∧ h.state.map ((h.state.snakes i).body 0).y ((h.state.snakes i).body 0).x
              = CELL_PLAYER_BASE + i := by
    intro stream rs g pid f rest hrecv hop i hi hfree hlow h hh
    rw [handle_login_free stream rs g pid f rest hrecv hop i hi hfree hlow] at hh
    split at hh
    · simp at hh
    · rename_i g2 rs1 hs
      simp only [Outcome.done.injEq] at hh
      subst hh
      obtain ⟨r1, r2, hempty, rfl⟩ := spawn_player_some _ _ _ _ _ hs
      simp only at hempty
      simp only [setAt, setCell, if_true, and_self, int_bytes_slot i hi, true_and]
      exact ⟨rand_coord_interior r1 r2, hempty, trivial⟩
  refine ⟨fun i hi hfree hlow =>
    ⟨part1 stream rs g pid f rest hrecv hop i hi hfree hlow, ?_, ?_⟩, ?_, ?_⟩
  · rw [handle_login_free stream rs g pid f rest hrecv hop i hi hfree hlow]
    split <;> simp
  · rintro ⟨n, hn, hhit⟩
    obtain ⟨g2, rs1, hs⟩ := spawn_player_hits n rs
      { g with
          active_players := setAt g.active_players i 1
          scores := setAt g.scores i 0
          snakes := setAt g.snakes i
            { g.snakes i with length := 1, alive := 1, direction := DIR_RIGHT } } i hn hhit
    rw [handle_login_free stream rs g pid f rest hrecv hop i hi hfree hlow, hs]
    exact ⟨_, rfl⟩
  · exact handle_login_full stream rs g pid f rest hrecv hop
  · intro s2 s3 f2 f3 rest2 rest3 pid3 h1 h2 h3 hfree0 hr2 ho2 hr3 ho3 e1 e2 e3
    have hz : g.active_players ((0 : Nat) : Int) = 0 := by simpa using hfree0
    have a1 := (part1 stream rs g pid f rest hrecv hop 0 (by decide) hz
      (fun j hj => absurd hj (Nat.not_lt_zero j)) h1 e1).1
    have a1z : h1.player_id = 0 := by simpa using a1
    rw [a1z, handle_logout s2 h1.rand h1.state 0 f2 rest2 hr2 ho2 (le_refl 0)] at e2
    simp only [Outcome.done.injEq] at e2
    subst e2
    have hz2 : (release_player h1.state 0).active_players ((0 : Nat) : Int) = 0 := by
      simp [release_player, setAt]
    have a3 := (part1 s3 _ (release_player h1.state 0) pid3 f3 rest3 hr3 ho3 0 (by decide) hz2
      (fun j hj => absurd hj (Nat.not_lt_zero j)) h3 e3).1
    refine ⟨a1z, rfl, rfl, by simp [release_player, setAt], by simpa using a3⟩

theorem login_admission_witness :
    recv_packet (send_packet OP_LOGIN_REQ none 0) = (.ok ⟨OP_LOGIN_REQ, none, 0⟩, [])
      ∧ ∃ h, handle_client_message (send_packet OP_LOGIN_REQ none 0) [4, 4] empty_server (-1)
            = .done h
          ∧ h.player_id = ((0 : Nat) : Int)
          ∧ h.sent = [0, 0, 0, 4, 0, 2, 0, 0, 0x5A, 0x5A, 0x5A, 0x5A]
          ∧ h.state.active_players ((0 : Nat) : Int) = 1 := by
  refine ⟨rfl, ?_⟩
  have key := (login_admission (send_packet OP_LOGIN_REQ none 0) [4, 4] empty_server (-1)
    ⟨OP_LOGIN_REQ, none, 0⟩ [] rfl rfl).1 0 (by decide) rfl
    (fun j hj => absurd hj (Nat.not_lt_zero j))
  obtain ⟨h, hh⟩ := key.2.2 ⟨0, by decide, by decide⟩
  have hp := key.1 h hh
  refine ⟨h, hh, hp.1, ?_, hp.2.2.2.1⟩
  rw [hp.2.2.1]; rfl


/-! ## Invariant lemmas -/

theorem interior_inGrid (x y : Int) (h : interior x y) : inGrid x y := by
  unfold interior MAP_WIDTH MAP_HEIGHT at h
  unfold inGrid MAP_WIDTH MAP_HEIGHT
  omega

theorem interior_not_border (x y : Int) (h : interior x y) : ¬ border x y := by
  unfold interior MAP_WIDTH MAP_HEIGHT at h
  unfold border MAP_WIDTH MAP_HEIGHT
  omega

theorem interior_of_not_border (x y : Int) (hg : inGrid x y) (hb : ¬ border x y) :
    interior x y := by
  unfold inGrid MAP_WIDTH MAP_HEIGHT at hg
  unfold border MAP_WIDTH MAP_HEIGHT at hb
  unfold interior MAP_WIDTH MAP_HEIGHT
  omega

/-- One step from an interior point stays on the grid. -/
theorem new_head_inGrid (s : Snake) (h : interior (s.body 0).x (s.body 0).y) :
    inGrid (new_head s).x (new_head s).y := by
  unfold interior MAP_WIDTH MAP_HEIGHT at h
  unfold inGrid MAP_WIDTH MAP_HEIGHT new_head
  dsimp only
  split_ifs <;> first | omega | (simp only []; omega)

/-- On a grid whose border is wall, a step from an interior point onto a cell
that is not a wall ends on an interior point. -/
theorem new_head_interior (g : GameState) (s : Snake) (hw : border_walls g)
    (h : interior (s.body 0).x (s.body 0).y)
    (hc : g.map (new_head s).y (new_head s).x ≠ CELL_WALL) :
    interior (new_head s).x (new_head s).y := by
  have hg := new_head_inGrid s h
  exact interior_of_not_border _ _ hg (fun hb => hc (hw _ _ hg hb))

/-- The `body` array after the shift loop entered with `n`. -/
theorem shift_body_apply (n : Nat) (body : Int → Point) (j : Int) :
    shift_body body n j = if 1 ≤ j ∧ j ≤ (n : Int) then body (j - 1) else body j := by
  induction n generalizing body with
  | zero =>
    have : ¬ (1 ≤ j ∧ j ≤ ((0 : Nat) : Int)) := by omega
    rw [if_neg this]; rfl
  | succ n ih =>
    rw [shift_body, ih]
    by_cases h1 : 1 ≤ j ∧ j ≤ (n : Int)
    · have h2 : 1 ≤ j ∧ j ≤ ((n + 1 : Nat) : Int) := by omega
      rw [if_pos h1, if_pos h2]
      have : j - 1 ≠ (n : Int) + 1 := by omega
      simp [setAt, this]
    · rw [if_neg h1]
      by_cases h3 : j = (n : Int) + 1
      · have h2 : 1 ≤ j ∧ j ≤ ((n + 1 : Nat) : Int) := by omega
        rw [if_pos h2]
        subst h3
        simp [setAt]
      · have h2 : ¬ (1 ≤ j ∧ j ≤ ((n + 1 : Nat) : Int)) := by omega
        rw [if_neg h2]
        simp [setAt, h3]

/-- The body of a snake after a step: the new head, then the old points moved
up by one. -/
theorem stepped_body_apply (body : Int → Point) (len : Int) (nh : Point) (j : Nat)
    (hj : (j : Int) < len) :
    setAt (shift_body body (len - 1).toNat) 0 nh (j : Int)
      = if j = 0 then nh else body ((j : Int) - 1) := by
  unfold setAt
  by_cases h0 : j = 0
  · subst h0; simp
  · have hne : ((j : Nat) : Int) ≠ 0 := by omega
    rw [if_neg hne, if_neg h0, shift_body_apply]
    have : 1 ≤ (j : Int) ∧ (j : Int) ≤ (((len - 1).toNat : Nat) : Int) := by omega
    rw [if_pos this]

theorem snake_shape_congr (g g1 : GameState) (k : Int) (h : g1.snakes k = g.snakes k)
    (hs : snake_shape g k) : snake_shape g1 k := by
  unfold snake_shape at hs ⊢
  rw [h]; exact hs


/-- A write to an interior cell leaves the border cells alone. -/
theorem setCell_border (m : Int → Int → Int) (x0 y0 v x y : Int) (h0 : interior x0 y0)
    (hb : border x y) : setCell m y0 x0 v y x = m y x := by
  unfold setCell
  have : ¬ (y = y0 ∧ x = x0) := by
    rintro ⟨rfl, rfl⟩
    exact interior_not_border _ _ h0 hb
  rw [if_neg this]

/-- The snake of a playing slot other than `i` is the same before and after
the loop body of slot `i`. -/
theorem tick_player_other (i : Nat) (g g1 : GameState) (rs rs1 : List Nat)
    (h : tick_player i g rs = some (g1, rs1)) (k : Nat) (hki : k ≠ i)
    (hp : playing g1 k) : playing g k ∧ g1.snakes k = g.snakes k := by
  obtain ⟨_, hk, _⟩ := tick_player_frame i g g1 rs rs1 h
  have hne : ((k : Nat) : Int) ≠ (i : Int) := by omega
  obtain ⟨a1, a2, _⟩ := hk k hne
  unfold playing at hp ⊢
  rw [a1, a2] at hp
  exact ⟨hp, a1⟩

/-- The shape premise of the tick is kept by the loop body of every slot. -/
theorem tick_player_shape (i : Nat) (hi : i < MAX_PLAYERS) (g g1 : GameState)
    (rs rs1 : List Nat) (hs : tick_shape g) (h : tick_player i g rs = some (g1, rs1)) :
    tick_shape g1 := by
  obtain ⟨hw, hsh⟩ := hs
  have hother : ∀ k : Nat, k < MAX_PLAYERS → k ≠ i → playing g1 k → snake_shape g1 k := by
    intro k hk1 hki hp
    obtain ⟨hpg, a1⟩ := tick_player_other i g g1 rs rs1 h k hki hp
    exact snake_shape_congr g g1 k a1 (hsh k hk1 hpg)
  rcases tick_player_cases i g with hp | ⟨hp, hc⟩ | ⟨hp, hc, hf⟩ | ⟨hp, hf⟩
  · rw [tick_player_skip i g rs hp] at h
    simp only [Option.some.injEq, Prod.mk.injEq] at h
    obtain ⟨rfl, _⟩ := h
    exact ⟨hw, hsh⟩
  · obtain ⟨_, _, hint⟩ := hsh i hi hp
    have h' := h
    rw [tick_player_die i g rs hp hc] at h'
    simp only [Option.some.injEq, Prod.mk.injEq] at h'
    obtain ⟨hg1, _⟩ := h'
    refine ⟨fun x y hin hb => ?_, fun k hk1 hpk => ?_⟩
    · rw [← hg1]
      simp only
      by_cases hex : ∃ j : Nat, (j : Int) < (g.snakes i).length
          ∧ (g.snakes i).body (j : Int) = ⟨x, y⟩
      · obtain ⟨j, hj, hbj⟩ := hex
        have := hint j hj
        rw [hbj] at this
        exact absurd hb (interior_not_border _ _ this)
      · rw [(clear_body_apply g.map (g.snakes i).body (g.snakes i).length y x).2 hex]
        exact hw x y hin hb
    · by_cases hki : k = i
      · exfalso
        subst hki
        rw [← hg1] at hpk
        unfold playing at hpk
        simp [setAt] at hpk
      · exact hother k hk1 hki hpk
  · obtain ⟨hl1, hl2, hint⟩ := hsh i hi hp
    have hcw : g.map (new_head (g.snakes i)).y (new_head (g.snakes i)).x ≠ CELL_WALL :=
      fun e => hc (Or.inl e)
    have hnh := new_head_interior g (g.snakes i) hw (hint 0 (by omega)) hcw
    have htl : interior ((g.snakes i).body ((g.snakes i).length - 1)).x
        ((g.snakes i).body ((g.snakes i).length - 1)).y := by
      have := hint ((g.snakes i).length - 1).toNat (by omega)
      have e : ((((g.snakes i).length - 1).toNat : Nat) : Int) = (g.snakes i).length - 1 := by
        omega
      rw [e] at this
      exact this
    have h' := h
    rw [tick_player_move i g rs hp hc hf] at h'
    simp only [Option.some.injEq, Prod.mk.injEq] at h'
    obtain ⟨hg1, _⟩ := h'
    refine ⟨fun x y hin hb => ?_, fun k hk1 hpk => ?_⟩
    · rw [← hg1]
      simp only
      rw [setCell_border _ _ _ _ _ _ hnh hb, setCell_border _ _ _ _ _ _ htl hb]
      exact hw x y hin hb
    · by_cases hki : k = i
      · subst hki
        rw [← hg1]
        unfold snake_shape
        simp only [setAt, if_true]
        refine ⟨hl1, hl2, fun j hj => ?_⟩
        have e := stepped_body_apply (g.snakes k).body (g.snakes k).length
          (new_head (g.snakes k)) j hj
        unfold setAt at e
        rw [e]
        split_ifs with hj0
        · exact hnh
        · have := hint (j - 1) (by omega)
          have e2 : (((j - 1 : Nat)) : Int) = (j : Int) - 1 := by omega
          rw [e2] at this
          exact this
      · exact hother k hk1 hki hpk
  · obtain ⟨hl1, hl2, hint⟩ := hsh i hi hp
    unfold dest_cell at hf
    have hcw : g.map (new_head (g.snakes i)).y (new_head (g.snakes i)).x ≠ CELL_WALL := by
      rw [hf]; decide
    have hnh := new_head_interior g (g.snakes i) hw (hint 0 (by omega)) hcw
    have h' := h
    rw [tick_player_eat i g rs hp hf] at h'
    split at h'
    · simp at h'
    · rename_i g3 rs3 hsp
      simp only [Option.some.injEq, Prod.mk.injEq] at h'
      obtain ⟨hg1, _⟩ := h'
      obtain ⟨r1, r2, _, rfl⟩ := spawn_food_some _ _ _ _ hsp
      refine ⟨fun x y hin hb => ?_, fun k hk1 hpk => ?_⟩
      · rw [← hg1]
        simp only
        rw [setCell_border _ _ _ _ _ _ hnh hb,
          setCell_border _ _ _ _ _ _ (rand_coord_interior r1 r2) hb]
        exact hw x y hin hb
      · by_cases hki : k = i
        · subst hki
          rw [← hg1]
          unfold snake_shape
          simp only [setAt, if_true]
          have hlen : 1 ≤ (if (g.snakes k).length < MAX_SNAKE_LENGTH
                then (g.snakes k).length + 1 else (g.snakes k).length)
              ∧ (if (g.snakes k).length < MAX_SNAKE_LENGTH
                then (g.snakes k).length + 1 else (g.snakes k).length) ≤ MAX_SNAKE_LENGTH
              ∧ (if (g.snakes k).length < MAX_SNAKE_LENGTH
                then (g.snakes k).length + 1 else (g.snakes k).length)
                  ≤ (g.snakes k).length + 1 := by
            split_ifs with hlt
            · unfold MAX_SNAKE_LENGTH at hlt ⊢; omega
            · omega
          refine ⟨hlen.1, hlen.2.1, fun j hj => ?_⟩
          have e := stepped_body_apply (g.snakes k).body _ (new_head (g.snakes k)) j hj
          unfold setAt at e
          rw [e]
          split_ifs with hj0
          · exact hnh
          · have := hint (j - 1) (by omega)
            have e2 : (((j - 1 : Nat)) : Int) = (j : Int) - 1 := by omega
            rw [e2] at this
            exact this
        · exact hother k hk1 hki hpk


theorem toNat_pred_cast (len : Int) (h : 1 ≤ len) : (((len - 1).toNat : Nat) : Int) = len - 1 := by
  omega

/-- The cells the loop body of slot `i` may change, when the body cells of `i`
are stamped: cells holding the token of `i`, and cells holding neither a wall
nor any player token. -/
theorem tick_player_touches (i : Nat) (g g1 : GameState) (rs rs1 : List Nat)
    (hst : playing g i → 1 ≤ (g.snakes i).length ∧ snake_stamped g i)
    (h : tick_player i g rs = some (g1, rs1)) (y x : Int) :
    g1.map y x = g.map y x ∨ g.map y x = CELL_PLAYER_BASE + i
      ∨ (g.map y x < CELL_PLAYER_BASE ∧ g.map y x ≠ CELL_WALL) := by
  rcases tick_player_cases i g with hp | ⟨hp, hc⟩ | ⟨hp, hc, hf⟩ | ⟨hp, hf⟩
  · rw [tick_player_skip i g rs hp] at h
    simp only [Option.some.injEq, Prod.mk.injEq] at h
    obtain ⟨rfl, _⟩ := h
    exact Or.inl rfl
  · obtain ⟨_, hstamp, _⟩ := hst hp
    rw [tick_player_die i g rs hp hc] at h
    simp only [Option.some.injEq, Prod.mk.injEq] at h
    obtain ⟨rfl, _⟩ := h
    simp only
    by_cases hex : ∃ j : Nat, (j : Int) < (g.snakes i).length
        ∧ (g.snakes i).body (j : Int) = ⟨x, y⟩
    · obtain ⟨j, hj, hbj⟩ := hex
      have := hstamp j hj
      rw [hbj] at this
      exact Or.inr (Or.inl this)
    · exact Or.inl ((clear_body_apply g.map _ _ y x).2 hex)
  · obtain ⟨hl1, hstamp, _⟩ := hst hp
    rw [tick_player_move i g rs hp hc hf] at h
    simp only [Option.some.injEq, Prod.mk.injEq] at h
    obtain ⟨rfl, _⟩ := h
    simp only [setCell]
    unfold dest_cell at hc
    by_cases c1 : y = (new_head (g.snakes i)).y ∧ x = (new_head (g.snakes i)).x
    · right; right
      rw [c1.1, c1.2]
      constructor
      · by_contra hge
        exact hc (Or.inr (by omega))
      · exact fun e => hc (Or.inl e)
    · rw [if_neg c1]
      by_cases c2 : y = ((g.snakes i).body ((g.snakes i).length - 1)).y
          ∧ x = ((g.snakes i).body ((g.snakes i).length - 1)).x
      · right; left
        have := hstamp ((g.snakes i).length - 1).toNat (by omega)
        rw [toNat_pred_cast _ hl1] at this
        rw [c2.1, c2.2]; exact this
      · rw [if_neg c2]; exact Or.inl rfl
  · unfold dest_cell at hf
    rw [tick_player_eat i g rs hp hf] at h
    split at h
    · simp at h
    · rename_i g3 rs3 hsp
      simp only [Option.some.injEq, Prod.mk.injEq] at h
      obtain ⟨rfl, _⟩ := h
      obtain ⟨r1, r2, hempty, rfl⟩ := spawn_food_some _ _ _ _ hsp
      simp only at hempty
      simp only [setCell]
      by_cases c1 : y = (new_head (g.snakes i)).y ∧ x = (new_head (g.snakes i)).x
      · right; right
        rw [c1.1, c1.2, hf]; decide
      · rw [if_neg c1]
        by_cases c2 : y = rand_coord r2 ∧ x = rand_coord r1
        · right; right
          rw [c2.1, c2.2, hempty]; decide
        · rw [if_neg c2]; exact Or.inl rfl

/-- The body of a snake after a step is stamped and without repeats, when the
old body was and the new head comes from a cell without player token. -/
theorem stepped_body_stamped (m m1 : Int → Int → Int) (body : Int → Point) (len len1 : Int)
    (nh : Point) (tok : Int) (hlen : len1 ≤ len + 1)
    (hstamp : ∀ j : Nat, (j : Int) < len → m (body j).y (body j).x = tok)
    (hdist : ∀ j k : Nat, (j : Int) < len → (k : Int) < len → body j = body k → j = k)
    (hnh : m nh.y nh.x ≠ tok) (hnew : m1 nh.y nh.x = tok)
    (hkeep : ∀ j : Nat, (j : Int) + 1 < len1 → m1 (body j).y (body j).x = tok) :
    (∀ j : Nat, (j : Int) < len1 →
        m1 (setAt (shift_body body (len1 - 1).toNat) 0 nh j).y
          (setAt (shift_body body (len1 - 1).toNat) 0 nh j).x = tok)
      ∧ ∀ j k : Nat, (j : Int) < len1 → (k : Int) < len1 →
          setAt (shift_body body (len1 - 1).toNat) 0 nh j
            = setAt (shift_body body (len1 - 1).toNat) 0 nh k → j = k := by
  have hcast : ∀ j : Nat, j ≠ 0 → (((j - 1 : Nat)) : Int) = (j : Int) - 1 := by
    intro j hj; omega
  constructor
  · intro j hj
    rw [stepped_body_apply body len1 nh j hj]
    split_ifs with h0
    · exact hnew
    · have := hkeep (j - 1) (by omega)
      rw [hcast j h0] at this
      exact this
  · intro j k hj hk e
    rw [stepped_body_apply body len1 nh j hj, stepped_body_apply body len1 nh k hk] at e
    split_ifs at e with h0 h1 h1
    · omega
    · exfalso
      have := hstamp (k - 1) (by omega)
      rw [hcast k h1, ← e] at this
      exact hnh this
    · exfalso
      have := hstamp (j - 1) (by omega)
      rw [hcast j h0, e] at this
      exact hnh this
    · have := hdist (j - 1) (k - 1) (by omega) (by omega)
        (by rw [hcast j h0, hcast k h1]; exact e)
      omega


theorem point_eq (p q : Point) (hx : p.x = q.x) (hy : p.y = q.y) : p = q := by
  cases p; cases q
  simp only [Point.mk.injEq]
  exact ⟨hx, hy⟩

/-- The body invariant is kept by the loop body of every slot. -/
theorem tick_player_invariant (i : Nat) (hi : i < MAX_PLAYERS) (g g1 : GameState)
    (rs rs1 : List Nat) (hinv : body_invariant g) (h : tick_player i g rs = some (g1, rs1)) :
    body_invariant g1 := by
  obtain ⟨hs, hst⟩ := hinv
  refine ⟨tick_player_shape i hi g g1 rs rs1 hs h, fun k hk1 hpk => ?_⟩
  obtain ⟨hw, hsh⟩ := hs
  have htouch := tick_player_touches i g g1 rs rs1
    (fun hp => ⟨(hsh i hi hp).1, hst i hi hp⟩) h
  by_cases hki : k = i
  · subst hki
    rcases tick_player_cases k g with hp | ⟨hp, hc⟩ | ⟨hp, hc, hf⟩ | ⟨hp, hf⟩
    · rw [tick_player_skip k g rs hp] at h
      simp only [Option.some.injEq, Prod.mk.injEq] at h
      obtain ⟨rfl, _⟩ := h
      exact absurd hpk hp
    · exfalso
      rw [tick_player_die k g rs hp hc] at h
      simp only [Option.some.injEq, Prod.mk.injEq] at h
      obtain ⟨rfl, _⟩ := h
      unfold playing at hpk
      simp [setAt] at hpk
    · obtain ⟨hl1, _, _⟩ := hsh k hi hp
      obtain ⟨hstamp, hdist⟩ := hst k hi hp
      rw [tick_player_move k g rs hp hc hf] at h
      simp only [Option.some.injEq, Prod.mk.injEq] at h
      obtain ⟨rfl, _⟩ := h
      unfold dest_cell at hc
      have hnh : g.map (new_head (g.snakes k)).y (new_head (g.snakes k)).x
          ≠ CELL_PLAYER_BASE + (k : Int) := by
        intro e
        apply hc
        right; rw [e]; unfold CELL_PLAYER_BASE; omega
      unfold snake_stamped
      simp only [setAt, if_true]
      have key := stepped_body_stamped g.map
        (setCell (setCell g.map ((g.snakes k).body ((g.snakes k).length - 1)).y
            ((g.snakes k).body ((g.snakes k).length - 1)).x CELL_EMPTY)
          (new_head (g.snakes k)).y (new_head (g.snakes k)).x (CELL_PLAYER_BASE + k))
        (g.snakes k).body (g.snakes k).length (g.snakes k).length (new_head (g.snakes k))
        (CELL_PLAYER_BASE + k) (by omega) hstamp hdist hnh (by simp [setCell]) (by
          intro j hj
          simp only [setCell]
          split_ifs with c1 c2
          · rfl
          · exfalso
            have e := point_eq ((g.snakes k).body j)
              ((g.snakes k).body ((g.snakes k).length - 1)) c2.2 c2.1
            rw [← toNat_pred_cast _ hl1] at e
            have := hdist j ((g.snakes k).length - 1).toNat (by omega) (by omega) e
            omega
          · exact hstamp j (by omega))
      unfold setAt at key
      exact key
    · obtain ⟨hl1, _, _⟩ := hsh k hi hp
      obtain ⟨hstamp, hdist⟩ := hst k hi hp
      unfold dest_cell at hf
      rw [tick_player_eat k g rs hp hf] at h
      split at h
      · simp at h
      · rename_i g3 rs3 hsp
        simp only [Option.some.injEq, Prod.mk.injEq] at h
        obtain ⟨rfl, _⟩ := h
        obtain ⟨r1, r2, hempty, rfl⟩ := spawn_food_some _ _ _ _ hsp
        simp only at hempty
        have hnh : g.map (new_head (g.snakes k)).y (new_head (g.snakes k)).x
            ≠ CELL_PLAYER_BASE + (k : Int) := by
          rw [hf]; unfold CELL_PLAYER_BASE CELL_FOOD; omega
        have hlen : (if (g.snakes k).length < MAX_SNAKE_LENGTH
              then (g.snakes k).length + 1 else (g.snakes k).length)
            ≤ (g.snakes k).length + 1 := by
          split_ifs <;> omega
        unfold snake_stamped
        simp only [setAt, if_true]
        have key := stepped_body_stamped g.map
          (setCell (setCell g.map (rand_coord r2) (rand_coord r1) CELL_FOOD)
            (new_head (g.snakes k)).y (new_head (g.snakes k)).x (CELL_PLAYER_BASE + k))
          (g.snakes k).body (g.snakes k).length
          (if (g.snakes k).length < MAX_SNAKE_LENGTH
              then (g.snakes k).length + 1 else (g.snakes k).length)
          (new_head (g.snakes k))
          (CELL_PLAYER_BASE + k) hlen hstamp hdist hnh (by simp [setCell]) (by
            intro j hj
            have hjl : (j : Int) < (g.snakes k).length := by omega
            simp only [setCell]
            split_ifs with c1 c2
            · rfl
            · exfalso
              have := hstamp j hjl
              rw [c2.1, c2.2, hempty] at this
              unfold CELL_EMPTY CELL_PLAYER_BASE at this
              omega
            · exact hstamp j hjl)
        unfold setAt at key
        exact key
  · obtain ⟨hpg, a1⟩ := tick_player_other i g g1 rs rs1 h k hki hpk
    obtain ⟨hstamp, hdist⟩ := hst k hk1 hpg
    unfold snake_stamped
    rw [a1]
    refine ⟨fun j hj => ?_, hdist⟩
    have hc := hstamp j hj
    rcases htouch ((g.snakes k).body j).y ((g.snakes k).body j).x with e | e | e
    · rw [e]; exact hc
    · exfalso
      rw [hc] at e
      have : (k : Int) = (i : Int) := by unfold CELL_PLAYER_BASE at e; omega
      omega
    · exfalso
      rw [hc] at e
      unfold CELL_PLAYER_BASE at e
      omega

/-- The shape premise is kept by a run of the slot loop over real slots. -/
theorem tick_players_shape (l : List Nat) (hl : ∀ j ∈ l, j < MAX_PLAYERS) (g g1 : GameState)
    (rs rs1 : List Nat) (hs : tick_shape g) (h : tick_players l g rs = some (g1, rs1)) :
    tick_shape g1 := by
  induction l generalizing g rs with
  | nil =>
    simp only [tick_players, Option.some.injEq, Prod.mk.injEq] at h
    obtain ⟨rfl, _⟩ := h
    exact hs
  | cons i more ih =>
    obtain ⟨g0, rs0, h0, hm⟩ := tick_players_cons_some i more g g1 rs rs1 h
    exact ih (fun j hj => hl j (by simp [hj])) g0 rs0
      (tick_player_shape i (hl i (by simp)) g g0 rs rs0 hs h0) hm

/-- The body invariant is kept by a run of the slot loop over real slots. -/
theorem tick_players_invariant (l : List Nat) (hl : ∀ j ∈ l, j < MAX_PLAYERS)
    (g g1 : GameState) (rs rs1 : List Nat) (hinv : body_invariant g)
    (h : tick_players l g rs = some (g1, rs1)) : body_invariant g1 := by
  induction l generalizing g rs with
  | nil =>
    simp only [tick_players, Option.some.injEq, Prod.mk.injEq] at h
    obtain ⟨rfl, _⟩ := h
    exact hinv
  | cons i more ih =>
    obtain ⟨g0, rs0, h0, hm⟩ := tick_players_cons_some i more g g1 rs rs1 h
    exact ih (fun j hj => hl j (by simp [hj])) g0 rs0
      (tick_player_invariant i (hl i (by simp)) g g0 rs rs0 hinv h0) hm

/-- The body invariant does not look at the version. -/
theorem body_invariant_version (g : GameState) (v : Nat) (h : body_invariant g) :
    body_invariant { g with version := v } := h

/-- The body invariant is kept by a tick. -/
theorem game_tick_invariant (g g1 : GameState) (rs rs1 : List Nat) (hinv : body_invariant g)
    (h : game_tick g rs = some (g1, rs1)) : body_invariant g1 := by
  obtain ⟨g0, h0, rfl⟩ := game_tick_some g g1 rs rs1 h
  exact body_invariant_version g0 _
    (tick_players_invariant _ (fun j hj => List.mem_range.mp hj) g g0 rs rs1 hinv h0)


/-! ## Release lemmas -/

/-- One row of the scan that wipes the token `tok`. -/
theorem setCell_apply (m : Int → Int → Int) (y x v y1 x1 : Int) :
    setCell m y x v y1 x1 = if y1 = y ∧ x1 = x then v else m y1 x1 := rfl

theorem wipe_row_apply (tok : Int) (y : Nat) (n : Nat) (m : Int → Int → Int) (y1 x1 : Int) :
    (List.range n).foldl
        (fun (mx : Int → Int → Int) (x : Nat) =>
          if mx (y : Int) (x : Int) = tok then setCell mx (y : Int) (x : Int) CELL_EMPTY
          else mx) m y1 x1
      = if y1 = (y : Int) ∧ 0 ≤ x1 ∧ x1 < (n : Int) ∧ m y1 x1 = tok then CELL_EMPTY
        else m y1 x1 := by
  induction n generalizing y1 x1 with
  | zero =>
    have : ¬ (y1 = (y : Int) ∧ 0 ≤ x1 ∧ x1 < ((0 : Nat) : Int) ∧ m y1 x1 = tok) :=
      fun h => absurd h.2.2.1 (by omega)
    rw [if_neg this]; rfl
  | succ n ih =>
    have hcast : ((n + 1 : Nat) : Int) = (n : Int) + 1 := by omega
    have hiff : ¬ (y1 = (y : Int) ∧ x1 = (n : Int)) →
        ((y1 = (y : Int) ∧ 0 ≤ x1 ∧ x1 < (n : Int) ∧ m y1 x1 = tok)
          ↔ (y1 = (y : Int) ∧ 0 ≤ x1 ∧ x1 < ((n + 1 : Nat) : Int) ∧ m y1 x1 = tok)) := by
      intro hc
      rw [hcast]
      constructor
      · rintro ⟨a, b, c, d⟩; exact ⟨a, b, by omega, d⟩
      · rintro ⟨a, b, c, d⟩
        refine ⟨a, b, ?_, d⟩
        by_contra hx
        exact hc ⟨a, by omega⟩
    have hlast : 0 ≤ (n : Int) ∧ (n : Int) < ((n + 1 : Nat) : Int) := by omega
    have hno : ¬ ((y : Int) = (y : Int) ∧ 0 ≤ (n : Int) ∧ (n : Int) < (n : Int)
        ∧ m (y : Int) (n : Int) = tok) := fun h => absurd h.2.2.1 (by omega)
    rw [List.range_succ, List.foldl_append]
    simp only [List.foldl_cons, List.foldl_nil]
    have hcur := ih (y : Int) (n : Int)
    rw [if_neg hno] at hcur
    rw [hcur]
    by_cases ht : m (y : Int) (n : Int) = tok
    · rw [if_pos ht, setCell_apply]
      by_cases hc : y1 = (y : Int) ∧ x1 = (n : Int)
      · rw [if_pos hc]
        have : y1 = (y : Int) ∧ 0 ≤ x1 ∧ x1 < ((n + 1 : Nat) : Int) ∧ m y1 x1 = tok := by
          obtain ⟨rfl, rfl⟩ := hc
          exact ⟨rfl, hlast.1, hlast.2, ht⟩
        rw [if_pos this]
      · rw [if_neg hc, ih]
        simp only [hiff hc]
    · rw [if_neg ht, ih]
      by_cases hc : y1 = (y : Int) ∧ x1 = (n : Int)
      · obtain ⟨rfl, rfl⟩ := hc
        have h1 : ¬ ((y : Int) = (y : Int) ∧ 0 ≤ (n : Int) ∧ (n : Int) < ((n + 1 : Nat) : Int)
            ∧ m (y : Int) (n : Int) = tok) := fun h => ht h.2.2.2
        rw [if_neg hno, if_neg h1]
      · simp only [hiff hc]

/-- The rows `0 .. k - 1` of the scan that wipes the token `tok`. -/
theorem wipe_rows_apply (tok : Int) (w : Nat) (k : Nat) (m : Int → Int → Int) (y1 x1 : Int) :
    (List.range k).foldl
        (fun (my : Int → Int → Int) (y : Nat) =>
          (List.range w).foldl
            (fun (mx : Int → Int → Int) (x : Nat) =>
              if mx (y : Int) (x : Int) = tok then setCell mx (y : Int) (x : Int) CELL_EMPTY
              else mx) my) m y1 x1
      = if 0 ≤ y1 ∧ y1 < (k : Int) ∧ 0 ≤ x1 ∧ x1 < (w : Int) ∧ m y1 x1 = tok then CELL_EMPTY
        else m y1 x1 := by
  induction k generalizing y1 x1 with
  | zero =>
    have : ¬ (0 ≤ y1 ∧ y1 < ((0 : Nat) : Int) ∧ 0 ≤ x1 ∧ x1 < (w : Int) ∧ m y1 x1 = tok) :=
      fun h => absurd (And.intro h.1 h.2.1) (by omega)
    rw [if_neg this]; rfl
  | succ k ih =>
    have hcast : ((k + 1 : Nat) : Int) = (k : Int) + 1 := by omega
    have hk0 : 0 ≤ (k : Int) := Int.ofNat_nonneg k
    have hiff : y1 ≠ (k : Int) →
        ((0 ≤ y1 ∧ y1 < (k : Int) ∧ 0 ≤ x1 ∧ x1 < (w : Int) ∧ m y1 x1 = tok)
          ↔ (0 ≤ y1 ∧ y1 < ((k + 1 : Nat) : Int) ∧ 0 ≤ x1 ∧ x1 < (w : Int)
              ∧ m y1 x1 = tok)) := by
      intro hy
      rw [hcast]
      constructor
      · rintro ⟨a, b, c⟩; exact ⟨a, by omega, c⟩
      · rintro ⟨a, b, c⟩; exact ⟨a, by omega, c⟩
    rw [List.range_succ, List.foldl_append]
    simp only [List.foldl_cons, List.foldl_nil]
    rw [wipe_row_apply, ih]
    by_cases hy : y1 = (k : Int)
    · have hno : ¬ (0 ≤ y1 ∧ y1 < (k : Int) ∧ 0 ≤ x1 ∧ x1 < (w : Int) ∧ m y1 x1 = tok) := by
        rw [hy]; exact fun h => absurd h.2.1 (by omega)
      rw [if_neg hno]
      by_cases hc : 0 ≤ x1 ∧ x1 < (w : Int) ∧ m y1 x1 = tok
      · have h2 : 0 ≤ y1 ∧ y1 < ((k + 1 : Nat) : Int) ∧ 0 ≤ x1 ∧ x1 < (w : Int)
            ∧ m y1 x1 = tok := by
          exact ⟨by omega, by omega, hc⟩
        rw [if_pos ⟨hy, hc⟩, if_pos h2]
      · have h1 : ¬ (y1 = (k : Int) ∧ 0 ≤ x1 ∧ x1 < (w : Int) ∧ m y1 x1 = tok) :=
          fun h => hc h.2
        have h2 : ¬ (0 ≤ y1 ∧ y1 < ((k + 1 : Nat) : Int) ∧ 0 ≤ x1 ∧ x1 < (w : Int)
            ∧ m y1 x1 = tok) := fun h => hc h.2.2
        rw [if_neg h1, if_neg h2]
    · have h1 : ∀ v : Int, ¬ (y1 = (k : Int) ∧ 0 ≤ x1 ∧ x1 < (w : Int) ∧ v = tok) :=
        fun v h => hy h.1
      rw [if_neg (h1 _)]
      simp only [hiff hy]

/-- The grid after the scan of a release: the cells of the grid that held the
token of `p` are empty, every other cell is as before. -/
theorem clear_player_cells_apply (m : Int → Int → Int) (p y x : Int) :
    clear_player_cells m p y x
      = if inGrid x y ∧ m y x = CELL_PLAYER_BASE + p then CELL_EMPTY else m y x := by
  unfold clear_player_cells
  have hh : MAP_HEIGHT.toNat = 40 := by decide
  have hw : MAP_WIDTH.toNat = 40 := by decide
  rw [hh, hw, wipe_rows_apply]
  have hiff : (0 ≤ y ∧ y < ((40 : Nat) : Int) ∧ 0 ≤ x ∧ x < ((40 : Nat) : Int)
        ∧ m y x = CELL_PLAYER_BASE + p)
      ↔ (inGrid x y ∧ m y x = CELL_PLAYER_BASE + p) := by
    unfold inGrid MAP_WIDTH MAP_HEIGHT
    constructor
    · rintro ⟨a, b, c, d, e⟩; exact ⟨⟨c, by omega, a, by omega⟩, e⟩
    · rintro ⟨⟨a, b, c, d⟩, e⟩; exact ⟨c, by omega, a, by omega, e⟩
  simp only [hiff]


theorem release_player_map (g : GameState) (p : Int) :
    (release_player g p).map = clear_player_cells g.map p := by
  simp only [release_player]

theorem release_player_active (g : GameState) (p : Int) :
    (release_player g p).active_players = setAt g.active_players p 0 := by
  simp only [release_player]

theorem release_player_rest (g : GameState) (p : Int) :
    (release_player g p).snakes = g.snakes ∧ (release_player g p).scores = g.scores
      ∧ (release_player g p).version = g.version := by
  simp only [release_player, and_self]

/-- The body invariant is kept by the release of a slot. -/
theorem release_player_invariant (g : GameState) (p : Int) (hp : 0 ≤ p)
    (hinv : body_invariant g) : body_invariant (release_player g p) := by
  obtain ⟨⟨hw, hsh⟩, hst⟩ := hinv
  have hplay : ∀ k : Nat, playing (release_player g p) k → playing g k ∧ (k : Int) ≠ p := by
    intro k hk
    unfold playing at hk ⊢
    rw [release_player_active, (release_player_rest g p).1] at hk
    simp only [setAt] at hk
    by_cases e : (k : Int) = p
    · rw [if_pos e] at hk; exact absurd rfl hk.1
    · rw [if_neg e] at hk; exact ⟨hk, e⟩
  refine ⟨⟨fun x y hin hb => ?_, fun k hk1 hpk => ?_⟩, fun k hk1 hpk => ?_⟩
  · rw [release_player_map, clear_player_cells_apply]
    have hwall := hw x y hin hb
    have : ¬ (inGrid x y ∧ g.map y x = CELL_PLAYER_BASE + p) := by
      rintro ⟨_, e⟩
      rw [hwall] at e
      unfold CELL_WALL CELL_PLAYER_BASE at e
      omega
    rw [if_neg this]; exact hwall
  · exact snake_shape_congr g _ k (by rw [(release_player_rest g p).1]) (hsh k hk1 (hplay k hpk).1)
  · obtain ⟨hpg, hne⟩ := hplay k hpk
    obtain ⟨hstamp, hdist⟩ := hst k hk1 hpg
    unfold snake_stamped
    rw [(release_player_rest g p).1, release_player_map]
    refine ⟨fun j hj => ?_, hdist⟩
    rw [clear_player_cells_apply]
    have hc := hstamp j hj
    have : ¬ (inGrid ((g.snakes k).body j).x ((g.snakes k).body j).y
        ∧ g.map ((g.snakes k).body j).y ((g.snakes k).body j).x = CELL_PLAYER_BASE + p) := by
      rintro ⟨_, e⟩
      rw [hc] at e
      unfold CELL_PLAYER_BASE at e
      omega
    rw [if_neg this]; exact hc

/-- A MOVE either leaves the state alone or rewrites one direction field. -/
theorem apply_move_cases (g : GameState) (p : Int) (d : Nat) :
    apply_move g p d = g
      ∨ apply_move g p d
          = { g with snakes := setAt g.snakes p { g.snakes p with direction := d } } := by
  unfold apply_move
  dsimp only
  split_ifs
  · exact Or.inl rfl
  · exact Or.inr rfl
  · exact Or.inl rfl

/-- The body invariant does not look at directions. -/
theorem apply_move_invariant (g : GameState) (p : Int) (d : Nat) (hinv : body_invariant g) :
    body_invariant (apply_move g p d) := by
  rcases apply_move_cases g p d with e | e
  · rw [e]; exact hinv
  · rw [e]
    obtain ⟨⟨hw, hsh⟩, hst⟩ := hinv
    have hplay : ∀ k : Nat, playing { g with
        snakes := setAt g.snakes p { g.snakes p with direction := d } } k → playing g k := by
      intro k hk
      unfold playing at hk ⊢
      by_cases e : (k : Int) = p
      · subst e; simpa [setAt] using hk
      · simpa [setAt, e] using hk
    refine ⟨⟨hw, fun k hk1 hpk => ?_⟩, fun k hk1 hpk => ?_⟩
    · have := hsh k hk1 (hplay k hpk)
      unfold snake_shape at this ⊢
      by_cases e : (k : Int) = p
      · subst e; simpa [setAt] using this
      · simpa [setAt, e] using this
    · have := hst k hk1 (hplay k hpk)
      unfold snake_stamped at this ⊢
      by_cases e : (k : Int) = p
      · subst e; simpa [setAt] using this
      · simpa [setAt, e] using this

/-- The state after the placement loop of a login into slot `i`, field by field. -/
theorem login_slot_result (g g2 : GameState) (rs rs1 : List Nat) (i : Int)
    (hsp : spawn_player rs
      { g with
          active_players := setAt g.active_players i 1
          scores := setAt g.scores i 0
          snakes := setAt g.snakes i
            { g.snakes i with length := 1, alive := 1, direction := DIR_RIGHT } } i
        = some (g2, rs1)) :
    ∃ r1 r2, g.map (rand_coord r2) (rand_coord r1) = CELL_EMPTY
      ∧ g2.map = setCell g.map (rand_coord r2) (rand_coord r1) (CELL_PLAYER_BASE + i)
      ∧ g2.active_players = setAt g.active_players i 1
      ∧ g2.scores = setAt g.scores i 0
      ∧ g2.version = g.version
      ∧ (∀ k : Int, k ≠ i → g2.snakes k = g.snakes k)
      ∧ (g2.snakes i).length = 1 ∧ (g2.snakes i).alive = 1
      ∧ (g2.snakes i).direction = DIR_RIGHT
      ∧ (g2.snakes i).body 0 = ⟨rand_coord r1, rand_coord r2⟩ := by
  obtain ⟨r1, r2, hempty, rfl⟩ := spawn_player_some _ _ _ _ _ hsp
  refine ⟨r1, r2, hempty, rfl, rfl, rfl, rfl, fun k hk => ?_, ?_, ?_, ?_, ?_⟩
  · simp [setAt, hk]
  · simp [setAt]
  · simp [setAt]
  · simp [setAt]
  · simp [setAt]

/-- The body invariant is kept by the slot scan of a login. -/
theorem login_scan_invariant (l : List Nat) (hl : ∀ j ∈ l, j < MAX_PLAYERS) (g g1 : GameState)
    (rs rs1 : List Nat) (id : Int) (hinv : body_invariant g)
    (h : login_scan l g rs = some (g1, id, rs1)) : body_invariant g1 := by
  induction l with
  | nil =>
    simp only [login_scan, Option.some.injEq, Prod.mk.injEq] at h
    obtain ⟨rfl, _⟩ := h
    exact hinv
  | cons i more ih =>
    by_cases hfree : g.active_players i = 0
    · rw [login_scan_free i more g rs hfree] at h
      split at h
      · simp at h
      · rename_i g2 rs2 hsp
        simp only [Option.some.injEq, Prod.mk.injEq] at h
        obtain ⟨rfl, _⟩ := h
        obtain ⟨r1, r2, hempty, hmap, hact, _, _, hoth, hlen, halive, _, hbody⟩ :=
          login_slot_result g g2 rs rs2 i hsp
        obtain ⟨⟨hw, hsh⟩, hst⟩ := hinv
        have hplay : ∀ k : Nat, k ≠ i → playing g2 k →
            playing g k ∧ g2.snakes k = g.snakes k := by
          intro k hki hk
          have e : ((k : Nat) : Int) ≠ (i : Int) := by omega
          unfold playing at hk ⊢
          rw [hact, hoth k e] at hk
          simp only [setAt, if_neg e] at hk
          exact ⟨hk, hoth k e⟩
        refine ⟨⟨fun x y hin hb => ?_, fun k hk1 hpk => ?_⟩, fun k hk1 hpk => ?_⟩
        · rw [hmap, setCell_border _ _ _ _ _ _ (rand_coord_interior r1 r2) hb]
          exact hw x y hin hb
        · by_cases hki : k = i
          · subst hki
            unfold snake_shape
            rw [hlen]
            refine ⟨by decide, by decide, fun j hj => ?_⟩
            have : j = 0 := by omega
            subst this
            simp only [Nat.cast_zero]
            rw [hbody]
            exact rand_coord_interior r1 r2
          · obtain ⟨hpg, a1⟩ := hplay k hki hpk
            exact snake_shape_congr g g2 k a1 (hsh k hk1 hpg)
        · by_cases hki : k = i
          · subst hki
            unfold snake_stamped
            rw [hlen]
            refine ⟨fun j hj => ?_, fun j k hj hk _ => by omega⟩
            have : j = 0 := by omega
            subst this
            simp only [Nat.cast_zero]
            rw [hbody, hmap]
            simp [setCell]
          · obtain ⟨hpg, a1⟩ := hplay k hki hpk
            obtain ⟨hstamp, hdist⟩ := hst k hk1 hpg
            unfold snake_stamped
            rw [a1, hmap]
            refine ⟨fun j hj => ?_, hdist⟩
            have hc := hstamp j hj
            rw [setCell_apply]
            have : ¬ (((g.snakes k).body j).y = rand_coord r2
                ∧ ((g.snakes k).body j).x = rand_coord r1) := by
              rintro ⟨e1, e2⟩
              rw [e1, e2, hempty] at hc
              unfold CELL_EMPTY CELL_PLAYER_BASE at hc
              omega
            rw [if_neg this]; exact hc
    · rw [login_scan, if_neg hfree] at h
      exact ih (fun j hj => hl j (by simp [hj])) h


/-- The shared state a finished `handle_client_message` leaves: the old state,
the old state with the slot of the connection released, the result of the
login scan, or the old state after the MOVE branch. -/
theorem handle_client_message_state (stream rs : List Nat) (g : GameState) (pid : Int)
    (h : Handled) (hh : handle_client_message stream rs g pid = .done h) :
    h.state = g
      ∨ (0 ≤ pid ∧ h.state = release_player g pid)
      ∨ (∃ id rs1, login_scan (List.range MAX_PLAYERS) g rs = some (h.state, id, rs1))
      ∨ (∃ d, h.state = apply_move g pid d) := by
  unfold handle_client_message at hh
  split at hh
  · simp only [Outcome.done.injEq] at hh
    subst hh
    by_cases hp : pid ≥ 0
    · right; left
      exact ⟨hp, by simp only [hp, if_true]⟩
    · left
      simp only [hp, if_false]
  · rename_i f rest hrecv
    split_ifs at hh with h1 h2 h3 h4
    · split at hh
      · simp at hh
      · rename_i g1 new_id rs1 hscan
        right; right; left
        split_ifs at hh
        · simp only [Outcome.done.injEq] at hh
          subst hh
          exact ⟨new_id, rs1, hscan⟩
        · simp only [Outcome.done.injEq] at hh
          subst hh
          exact ⟨new_id, rs1, hscan⟩
    · split at hh
      · rename_i dir t hpay
        simp only [Outcome.done.injEq] at hh
        subst hh
        right; right; right
        exact ⟨dir, rfl⟩
      · simp at hh
    · simp only [Outcome.done.injEq] at hh
      subst hh
      exact Or.inl rfl
    · simp only [Outcome.done.injEq] at hh
      subst hh
      exact Or.inr (Or.inl ⟨h4.2, rfl⟩)
    · simp only [Outcome.done.injEq] at hh
      subst hh
      exact Or.inl rfl

/-- The body invariant is kept by every finished `handle_client_message`. -/
theorem handle_client_message_invariant (stream rs : List Nat) (g : GameState) (pid : Int)
    (h : Handled) (hinv : body_invariant g)
    (hh : handle_client_message stream rs g pid = .done h) : body_invariant h.state := by
  rcases handle_client_message_state stream rs g pid h hh with e | ⟨hp, e⟩ | ⟨id, rs1, e⟩ | ⟨d, e⟩
  · rw [e]; exact hinv
  · rw [e]; exact release_player_invariant g pid hp hinv
  · exact login_scan_invariant _ (fun j hj => List.mem_range.mp hj) g h.state rs rs1 id hinv e
  · rw [e]; exact apply_move_invariant g pid d hinv

/-- The shared state after the sweep of one fd: untouched, or with the slot of
the timed-out connection released. -/
theorem worker_sweep_state (timeout now : Int) (v : Nat) (g : GameState) (c : Client) :
    (worker_sweep timeout now v g c).state = g
      ∨ (0 ≤ c.client_id ∧ c.registered = true ∧ 0 < c.last_activity
          ∧ timeout < now - c.last_activity
          ∧ (worker_sweep timeout now v g c).state = release_player g c.client_id) := by
  unfold worker_sweep
  split_ifs with h1 h2 h3
  · exact Or.inr ⟨h3, h1, h2.1, h2.2, rfl⟩
  all_goals exact Or.inl rfl

/-- A single snake of length 1 on an interior cell of the walled grid
satisfies the body invariant. -/
theorem lone_snake_invariant (x y : Int) (dir : Nat) (hxy : interior x y) :
    body_invariant (lone_snake x y dir) := by
  have hplay : ∀ k : Nat, playing (lone_snake x y dir) k → k = 0 := by
    intro k hk
    by_contra hne
    have e : ((k : Nat) : Int) ≠ 0 := by omega
    simp [playing, lone_snake, setAt, e] at hk
  refine ⟨⟨fun x1 y1 hin hb => ?_, fun k _ hpk => ?_⟩, fun k _ hpk => ?_⟩
  · simp only [lone_snake]
    rw [setCell_border _ _ _ _ _ _ hxy hb]
    unfold border at hb
    simp only [walled_map, hb, if_true]
  · have := hplay k hpk
    subst this
    unfold snake_shape
    simp only [lone_snake, setAt, Nat.cast_zero, if_true]
    refine ⟨by decide, by decide, fun j hj => ?_⟩
    have : j = 0 := by omega
    subst this
    simpa using hxy
  · have := hplay k hpk
    subst this
    unfold snake_stamped
    simp only [lone_snake, setAt, Nat.cast_zero, if_true]
    refine ⟨fun j hj => ?_, fun j k hj hk _ => by omega⟩
    have : j = 0 := by omega
    subst this
    simp [setCell]

/-! ## Invariant theorems -/

/-- C11. The body invariant is preserved by every operation: if every border
cell is a wall and, for every active alive slot `i`, the first `length` points
of its body are pairwise distinct interior points with
`1 ≤ length ≤ MAX_SNAKE_LENGTH` and each of their cells holds
`PLAYER_BASE + i`, then the same holds after a finished tick, after every
finished `handle_client_message` (login, MOVE, LOGOUT, disconnect or bad
frame, any other frame), after the sweep of a worker over a connection (idle
timeout), and so after the MOVE branch and after the release of any slot. -/
theorem body_invariant_preserved (g : GameState) (hinv : body_invariant g) :
    (∀ rs g1 rs1, game_tick g rs = some (g1, rs1) → body_invariant g1)
      ∧ (∀ stream rs pid h, handle_client_message stream rs g pid = .done h →
          body_invariant h.state)
      ∧ (∀ timeout now v c, body_invariant (worker_sweep timeout now v g c).state)
      ∧ (∀ p d, body_invariant (apply_move g p d))
      ∧ (∀ p, 0 ≤ p → body_invariant (release_player g p)) := by
  refine ⟨fun rs g1 rs1 h => game_tick_invariant g g1 rs rs1 hinv h,
    fun stream rs pid h hh => handle_client_message_invariant stream rs g pid h hinv hh,
    fun timeout now v c => ?_,
    fun p d => apply_move_invariant g p d hinv,
    fun p hp => release_player_invariant g p hp hinv⟩
  rcases worker_sweep_state timeout now v g c with e | ⟨hp, _, _, _, e⟩
  · rw [e]; exact hinv
  · rw [e]; exact release_player_invariant g _ hp hinv

theorem body_invariant_preserved_witness :
    body_invariant (lone_snake 5 5 DIR_RIGHT)
      ∧ ∃ g1 rs1, game_tick (lone_snake 5 5 DIR_RIGHT) [] = some (g1, rs1)
          ∧ body_invariant g1 := by
  have hinv := lone_snake_invariant 5 5 DIR_RIGHT (by decide)
  refine ⟨hinv, ?_⟩
  have hs : (game_tick (lone_snake 5 5 DIR_RIGHT) []).isSome = true := by decide
  obtain ⟨⟨g1, rs1⟩, h⟩ := Option.isSome_iff_exists.mp hs
  exact ⟨g1, rs1, h, (body_invariant_preserved (lone_snake 5 5 DIR_RIGHT) hinv).1 [] g1 rs1 h⟩


/-! ## The snake of full length -/

theorem coiled_body_distinct (j k : Nat) (e : coiled_body j = coiled_body k) : j = k := by
  simp only [coiled_body, Point.mk.injEq, Int.toNat_ofNat] at e
  obtain ⟨e1, e2⟩ := e
  split_ifs at e2 <;> omega

theorem coiled_body_stamped (j : Nat) (hj : j < 100) :
    interior (coiled_body j).x (coiled_body j).y
      ∧ coiled_map (coiled_body j).y (coiled_body j).x = CELL_PLAYER_BASE + 0 := by
  have h1 : j / 36 = 0 ∨ j / 36 = 1 ∨ j / 36 = 2 := by omega
  constructor
  · simp only [coiled_body, Int.toNat_ofNat, interior, MAP_WIDTH, MAP_HEIGHT]
    split_ifs <;> omega
  · simp only [coiled_body, Int.toNat_ofNat, coiled_map, MAP_WIDTH, MAP_HEIGHT]
    rcases h1 with h | h | h
    · simp [h]
      omega
    · simp [h]
      omega
    · simp [h]
      omega

/-- The state with the coiled snake of full length satisfies the body invariant. -/
theorem coiled_snake_invariant : body_invariant coiled_snake := by
  have hplay : ∀ k : Nat, playing coiled_snake k → k = 0 := by
    intro k hk
    by_contra hne
    have e : ((k : Nat) : Int) ≠ 0 := by omega
    simp [playing, coiled_snake, setAt, e] at hk
  refine ⟨⟨fun x1 y1 hin hb => ?_, fun k _ hpk => ?_⟩, fun k _ hpk => ?_⟩
  · unfold border at hb
    simp only [coiled_snake, coiled_map, hb, if_true]
  · have := hplay k hpk
    subst this
    unfold snake_shape
    simp only [coiled_snake, setAt, Nat.cast_zero, if_true]
    refine ⟨by decide, by decide, fun j hj => ?_⟩
    exact (coiled_body_stamped j (by omega)).1
  · have := hplay k hpk
    subst this
    unfold snake_stamped
    simp only [coiled_snake, setAt, Nat.cast_zero, if_true]
    refine ⟨fun j hj => ?_, fun j k _ _ e => coiled_body_distinct j k e⟩
    exact (coiled_body_stamped j (by omega)).2

/-- C12 at its failing input. The state `coiled_snake` satisfies the body
invariant, its only snake has length 100 = `MAX_SNAKE_LENGTH` and exactly 100
cells hold its token; the snake faces food.  After the tick the length is still
100 but 101 cells hold the token: the old tail cell `(4, 29)`, dropped from the
body by the shift, was not cleared. -/
theorem full_length_snake_leaves_tail_cell :
    body_invariant coiled_snake
      ∧ playing coiled_snake 0
      ∧ (coiled_snake.snakes 0).length = MAX_SNAKE_LENGTH
      ∧ count_cells coiled_snake.map (CELL_PLAYER_BASE + 0) = 100
      ∧ dest_cell coiled_snake 0 = CELL_FOOD
      ∧ (game_tick coiled_snake [19, 19]).map
          (fun r => (r.1.active_players 0, (r.1.snakes 0).alive, (r.1.snakes 0).length,
            count_cells r.1.map (CELL_PLAYER_BASE + 0), r.1.map 29 4))
        = some (1, 1, 100, 101, CELL_PLAYER_BASE + 0) :=
  ⟨coiled_snake_invariant, by decide, by decide, by decide, by decide, by decide⟩

set_option maxRecDepth 100000 in
set_option maxHeartbeats 2000000 in
/-- C13 at its failing input. From the state `coiled_snake`, which satisfies
the body invariant, the first tick lets the snake of full length eat and the
second runs it into the wall: the collision branch clears the 100 recorded
body points, slot 0 is then inactive and its snake dead, yet the cell
`(4, 29)` still holds `PLAYER_BASE + 0`. -/
theorem dead_snake_leaves_token :
    body_invariant coiled_snake
      ∧ ((game_tick coiled_snake [19, 19]).bind (fun r => game_tick r.1 r.2)).map
          (fun r => (r.1.active_players 0, (r.1.snakes 0).alive, r.1.map 29 4))
        = some (0, 0, CELL_PLAYER_BASE + 0) :=
  ⟨coiled_snake_invariant, by decide⟩


/-! ## Initialisation lemmas -/

/-- One row of a loop that writes the value `v y x` to every cell. -/
theorem paint_row_apply (v : Int → Int → Int) (y : Nat) (n : Nat) (m : Int → Int → Int)
    (y1 x1 : Int) :
    (List.range n).foldl
        (fun (mx : Int → Int → Int) (x : Nat) =>
          setCell mx (y : Int) (x : Int) (v (y : Int) (x : Int))) m y1 x1
      = if y1 = (y : Int) ∧ 0 ≤ x1 ∧ x1 < (n : Int) then v y1 x1 else m y1 x1 := by
  induction n generalizing y1 x1 with
  | zero =>
    have : ¬ (y1 = (y : Int) ∧ 0 ≤ x1 ∧ x1 < ((0 : Nat) : Int)) :=
      fun h => absurd h.2 (by omega)
    rw [if_neg this]; rfl
  | succ n ih =>
    have hiff : ¬ (y1 = (y : Int) ∧ x1 = (n : Int)) →
        ((y1 = (y : Int) ∧ 0 ≤ x1 ∧ x1 < (n : Int))
          ↔ (y1 = (y : Int) ∧ 0 ≤ x1 ∧ x1 < ((n + 1 : Nat) : Int))) := by
      intro hc
      constructor
      · rintro ⟨a, b, c⟩; exact ⟨a, b, by omega⟩
      · rintro ⟨a, b, c⟩
        refine ⟨a, b, ?_⟩
        by_contra hx
        exact hc ⟨a, by omega⟩
    have hlast : 0 ≤ (n : Int) ∧ (n : Int) < ((n + 1 : Nat) : Int) := by omega
    rw [List.range_succ, List.foldl_append]
    simp only [List.foldl_cons, List.foldl_nil]
    rw [setCell_apply]
    by_cases hc : y1 = (y : Int) ∧ x1 = (n : Int)
    · rw [if_pos hc]
      obtain ⟨rfl, rfl⟩ := hc
      rw [if_pos ⟨rfl, hlast.1, hlast.2⟩]
    · rw [if_neg hc, ih]
      simp only [hiff hc]

/-- The rows `0 .. k - 1` of a loop that writes the value `v y x` to every cell. -/
theorem paint_rows_apply (v : Int → Int → Int) (w : Nat) (k : Nat) (m : Int → Int → Int)
    (y1 x1 : Int) :
    (List.range k).foldl
        (fun (my : Int → Int → Int) (y : Nat) =>
          (List.range w).foldl
            (fun (mx : Int → Int → Int) (x : Nat) =>
              setCell mx (y : Int) (x : Int) (v (y : Int) (x : Int))) my) m y1 x1
      = if 0 ≤ y1 ∧ y1 < (k : Int) ∧ 0 ≤ x1 ∧ x1 < (w : Int) then v y1 x1 else m y1 x1 := by
  induction k generalizing y1 x1 with
  | zero =>
    have : ¬ (0 ≤ y1 ∧ y1 < ((0 : Nat) : Int) ∧ 0 ≤ x1 ∧ x1 < (w : Int)) :=
      fun h => absurd (And.intro h.1 h.2.1) (by omega)
    rw [if_neg this]; rfl
  | succ k ih =>
    have hiff : y1 ≠ (k : Int) →
        ((0 ≤ y1 ∧ y1 < (k : Int) ∧ 0 ≤ x1 ∧ x1 < (w : Int))
          ↔ (0 ≤ y1 ∧ y1 < ((k + 1 : Nat) : Int) ∧ 0 ≤ x1 ∧ x1 < (w : Int))) := by
      intro hy
      constructor
      · rintro ⟨a, b, c⟩; exact ⟨a, by omega, c⟩
      · rintro ⟨a, b, c⟩; exact ⟨a, by omega, c⟩
    rw [List.range_succ, List.foldl_append]
    simp only [List.foldl_cons, List.foldl_nil]
    rw [paint_row_apply, ih]
    by_cases hy : y1 = (k : Int)
    · by_cases hc : 0 ≤ x1 ∧ x1 < (w : Int)
      · have h2 : 0 ≤ y1 ∧ y1 < ((k + 1 : Nat) : Int) ∧ 0 ≤ x1 ∧ x1 < (w : Int) :=
          ⟨by omega, by omega, hc⟩
        rw [if_pos ⟨hy, hc⟩, if_pos h2]
      · have h1 : ¬ (y1 = (k : Int) ∧ 0 ≤ x1 ∧ x1 < (w : Int)) := fun h => hc h.2
        have h2 : ¬ (0 ≤ y1 ∧ y1 < ((k + 1 : Nat) : Int) ∧ 0 ≤ x1 ∧ x1 < (w : Int)) :=
          fun h => hc h.2.2
        have h3 : ¬ (0 ≤ y1 ∧ y1 < (k : Int) ∧ 0 ≤ x1 ∧ x1 < (w : Int)) :=
          fun h => hc h.2.2
        rw [if_neg h1, if_neg h2, if_neg h3]
    · have h1 : ¬ (y1 = (k : Int) ∧ 0 ≤ x1 ∧ x1 < (w : Int)) := fun h => hy h.1
      rw [if_neg h1]
      simp only [hiff hy]

/-- The grid after the wall loops: on the grid, walls on the border and empty
cells elsewhere. -/
theorem init_walls_apply (y x : Int) (h : inGrid x y) :
    init_walls y x = if border x y then CELL_WALL else CELL_EMPTY := by
  have hstep : ∀ (y : Nat),
      (fun (mx : Int → Int → Int) (x : Nat) =>
        if (x : Int) = 0 ∨ (x : Int) = MAP_WIDTH - 1 ∨ (y : Int) = 0
            ∨ (y : Int) = MAP_HEIGHT - 1 then
          setCell mx (y : Int) (x : Int) CELL_WALL
        else setCell mx (y : Int) (x : Int) CELL_EMPTY)
      = (fun (mx : Int → Int → Int) (x : Nat) =>
        setCell mx (y : Int) (x : Int)
          ((fun (y2 x2 : Int) => if border x2 y2 then CELL_WALL else CELL_EMPTY)
            (y : Int) (x : Int))) := by
    intro y
    funext mx x
    unfold border
    by_cases c : (x : Int) = 0 ∨ (x : Int) = MAP_WIDTH - 1 ∨ (y : Int) = 0
        ∨ (y : Int) = MAP_HEIGHT - 1
    · simp only [c, if_true]
    · simp only [c, if_false]
  unfold init_walls
  have hh : MAP_HEIGHT.toNat = 40 := by decide
  have hw : MAP_WIDTH.toNat = 40 := by decide
  rw [hh, hw]
  simp only [hstep]
  have hin : 0 ≤ y ∧ y < ((40 : Nat) : Int) ∧ 0 ≤ x ∧ x < ((40 : Nat) : Int) := by
    unfold inGrid MAP_WIDTH MAP_HEIGHT at h
    omega
  have key := paint_rows_apply
    (fun (y2 x2 : Int) => if border x2 y2 then CELL_WALL else CELL_EMPTY) 40 40
    (fun _ _ => 0) y x
  rw [if_pos hin] at key
  exact key

/-- The food loop writes food on interior cells and nothing else. -/
theorem seed_food_cells : ∀ (n : Nat) (rs : List Nat) (m m1 : Int → Int → Int)
    (rs1 : List Nat), seed_food n rs m = some (m1, rs1) →
    ∀ y x, m1 y x = m y x ∨ (m1 y x = CELL_FOOD ∧ interior x y)
  | 0, rs, m, m1, rs1, h, y, x => by
    simp only [seed_food, Option.some.injEq, Prod.mk.injEq] at h
    rw [← h.1]; exact Or.inl rfl
  | n + 1, [], m, m1, rs1, h, y, x => by simp [seed_food] at h
  | n + 1, [_], m, m1, rs1, h, y, x => by simp [seed_food] at h
  | n + 1, r1 :: r2 :: rest, m, m1, rs1, h, y, x => by
    simp only [seed_food] at h
    rcases seed_food_cells n rest _ m1 rs1 h y x with e | e
    · rw [e, setCell_apply]
      by_cases c : y = rand_coord r2 ∧ x = rand_coord r1
      · right
        rw [if_pos c]
        exact ⟨rfl, by rw [c.1, c.2]; exact rand_coord_interior r1 r2⟩
      · left; rw [if_neg c]
    · exact Or.inr e

/-- The food loop ends when `rand()` supplies two values for each round. -/
theorem seed_food_total : ∀ (n : Nat) (rs : List Nat) (m : Int → Int → Int),
    2 * n ≤ rs.length → ∃ m1 rs1, seed_food n rs m = some (m1, rs1)
  | 0, rs, m, _ => ⟨m, rs, rfl⟩
  | n + 1, [], m, h => by simp at h
  | n + 1, [_], m, h => by simp at h; omega
  | n + 1, r1 :: r2 :: rest, m, h => by
    have h2 : 2 * n ≤ rest.length := by simp at h; omega
    obtain ⟨m1, rs1, e⟩ := seed_food_total n rest
      (setCell m (rand_coord r2) (rand_coord r1) CELL_FOOD) h2
    exact ⟨m1, rs1, by simp only [seed_food, e]⟩


theorem init_game_map_some (rs rs1 : List Nat) (g : GameState)
    (h : init_game_map rs = some (g, rs1)) :
    seed_food 20 rs init_walls = some (g.map, rs1) ∧ g.active_players = fun _ => 0 := by
  unfold init_game_map at h
  split at h
  · simp at h
  · rename_i m rs2 hs
    simp only [Option.some.injEq, Prod.mk.injEq] at h
    obtain ⟨rfl, rfl⟩ := h
    exact ⟨hs, rfl⟩

/-- C14. Border cells never mutate: after a finished `init_game_map` every
cell of row 0, row H-1, column 0 and column W-1 is a wall, every cell that the
food loop changed is an interior cell holding food (so food lies on interior
cells only), and the state satisfies the body invariant; `init_game_map`
finishes when `rand()` supplies its 40 values; and every finished tick, every
finished `handle_client_message` (login, MOVE, release), every sweep of a
worker, the MOVE branch and the release of a slot, started from a state
satisfying the body invariant, leave every border cell a wall. -/
theorem border_never_mutates :
    (∀ rs g rs1, init_game_map rs = some (g, rs1) →
        border_walls g
          ∧ (∀ x y, inGrid x y →
              g.map y x = (if border x y then CELL_WALL else CELL_EMPTY)
                ∨ (g.map y x = CELL_FOOD ∧ interior x y))
          ∧ (∀ x y, inGrid x y → g.map y x = CELL_FOOD → interior x y)
          ∧ body_invariant g)
      ∧ (∀ rs : List Nat, 40 ≤ rs.length → ∃ g rs1, init_game_map rs = some (g, rs1))
      ∧ (∀ g, body_invariant g →
          (∀ rs g1 rs1, game_tick g rs = some (g1, rs1) → border_walls g1)
            ∧ (∀ stream rs pid h, handle_client_message stream rs g pid = .done h →
                border_walls h.state)
            ∧ (∀ timeout now v c, border_walls (worker_sweep timeout now v g c).state)
            ∧ (∀ p d, border_walls (apply_move g p d))
            ∧ (∀ p, 0 ≤ p → border_walls (release_player g p))) := by
  refine ⟨fun rs g rs1 h => ?_, fun rs hrs => ?_, fun g hinv => ?_⟩
  · obtain ⟨hs, hact⟩ := init_game_map_some rs rs1 g h
    have hcells : ∀ x y, inGrid x y →
        g.map y x = (if border x y then CELL_WALL else CELL_EMPTY)
          ∨ (g.map y x = CELL_FOOD ∧ interior x y) := by
      intro x y hin
      rcases seed_food_cells 20 rs init_walls g.map rs1 hs y x with e | e
      · left; rw [e, init_walls_apply y x hin]
      · exact Or.inr e
    have hw : border_walls g := by
      intro x y hin hb
      rcases hcells x y hin with e | ⟨_, e⟩
      · rw [e, if_pos hb]
      · exact absurd hb (interior_not_border _ _ e)
    have hnone : ∀ k : Nat, ¬ playing g k := by
      intro k hk
      unfold playing at hk
      rw [hact] at hk
      exact hk.1 rfl
    refine ⟨hw, hcells, fun x y hin hf => ?_,
      ⟨hw, fun k _ hk => absurd hk (hnone k)⟩, fun k _ hk => absurd hk (hnone k)⟩
    rcases hcells x y hin with e | ⟨_, e⟩
    · exfalso
      rw [hf] at e
      split_ifs at e
      · exact absurd e (by decide)
      · exact absurd e (by decide)
    · exact e
  · obtain ⟨m1, rs1, e⟩ := seed_food_total 20 rs init_walls (by omega)
    refine ⟨{ map := m1, scores := fun _ => 0, active_players := fun _ => 0,
              snakes := fun _ =>
                { body := fun _ => ⟨0, 0⟩, length := 0, direction := 0, alive := 0 },
              version := 0 }, rs1, ?_⟩
    unfold init_game_map
    rw [e]
  · refine ⟨fun rs g1 rs1 h => (game_tick_invariant g g1 rs rs1 hinv h).1.1,
      fun stream rs pid h hh => (handle_client_message_invariant stream rs g pid h hinv hh).1.1,
      fun timeout now v c => ?_,
      fun p d => (apply_move_invariant g p d hinv).1.1,
      fun p hp => (release_player_invariant g p hp hinv).1.1⟩
    rcases worker_sweep_state timeout now v g c with e | ⟨hp, _, _, _, e⟩
    · rw [e]; exact hinv.1.1
    · rw [e]; exact (release_player_invariant g _ hp hinv).1.1

theorem border_never_mutates_witness :
    40 ≤ (List.replicate 40 7).length
      ∧ ∃ g rs1, init_game_map (List.replicate 40 7) = some (g, rs1)
          ∧ border_walls g ∧ body_invariant g
          ∧ ∀ p, 0 ≤ p → border_walls (release_player g p) := by
  refine ⟨by decide, ?_⟩
  obtain ⟨g, rs1, h⟩ := border_never_mutates.2.1 (List.replicate 40 7) (by decide)
  have key := border_never_mutates.1 _ g rs1 h
  exact ⟨g, rs1, h, key.1, key.2.2.2, (border_never_mutates.2.2 g key.2.2.2).2.2.2.2⟩

/-! ## Release theorems -/

theorem gameState_eq (a b : GameState) (h1 : a.map = b.map) (h2 : a.scores = b.scores)
    (h3 : a.active_players = b.active_players) (h4 : a.snakes = b.snakes)
    (h5 : a.version = b.version) : a = b := by
  cases a; cases b
  simp only [GameState.mk.injEq]
  exact ⟨h1, h2, h3, h4, h5⟩

/-- C15. Release: each of the three release paths applied to a connection
holding slot `p` (a failed `recv_packet`, LOGOUT, idle timeout in the sweep of
the worker) leaves the same shared state `release_player g p`, in which
`active[p]` is 0, every grid cell that held `PLAYER_BASE + p` is empty, every
other cell, every other active flag, all scores, all snakes and the version
are unchanged; afterwards no grid cell holds `PLAYER_BASE + p`, and a second
release changes nothing. -/
theorem release_paths_agree (g : GameState) (p : Int) (hp : 0 ≤ p) :
    (∀ stream rs e rest, recv_packet stream = (.error e, rest) →
        handle_client_message stream rs g p
          = .done ⟨release_player g p, -1, [], true, rest, rs⟩)
      ∧ (∀ stream rs f rest, recv_packet stream = (.ok f, rest) → f.opcode = OP_LOGOUT →
          handle_client_message stream rs g p
            = .done ⟨release_player g p, -1, [], true, rest, rs⟩)
      ∧ (∀ timeout now v c, c.registered = true → c.client_id = p →
          0 < c.last_activity → timeout < now - c.last_activity →
          (worker_sweep timeout now v g c).state = release_player g p
            ∧ (worker_sweep timeout now v g c).closed = true)
      ∧ (release_player g p).active_players p = 0
      ∧ (∀ x y, inGrid x y → g.map y x = CELL_PLAYER_BASE + p →
          (release_player g p).map y x = CELL_EMPTY)
      ∧ (∀ x y, g.map y x ≠ CELL_PLAYER_BASE + p →
          (release_player g p).map y x = g.map y x)
      ∧ (∀ x y, ¬ inGrid x y → (release_player g p).map y x = g.map y x)
      ∧ (∀ k, k ≠ p → (release_player g p).active_players k = g.active_players k)
      ∧ (release_player g p).scores = g.scores
      ∧ (release_player g p).snakes = g.snakes
      ∧ (release_player g p).version = g.version
      ∧ (∀ x y, inGrid x y → (release_player g p).map y x ≠ CELL_PLAYER_BASE + p)
      ∧ release_player (release_player g p) p = release_player g p := by
  have hne : CELL_EMPTY ≠ CELL_PLAYER_BASE + p := by
    unfold CELL_EMPTY CELL_PLAYER_BASE; omega
  refine ⟨?_, ?_, ?_, ?_, ?_, ?_, ?_, ?_, (release_player_rest g p).2.1,
    (release_player_rest g p).1, (release_player_rest g p).2.2, ?_, ?_⟩
  · intro stream rs e rest hrecv
    unfold handle_client_message
    rw [hrecv]
    simp only [ge_iff_le, hp, if_true]
  · intro stream rs f rest hrecv hop
    exact handle_logout stream rs g p f rest hrecv hop hp
  · intro timeout now v c hreg hid hact hlate
    unfold worker_sweep
    have h2 : c.last_activity > 0 ∧ now - c.last_activity > timeout := ⟨hact, hlate⟩
    have h3 : c.client_id ≥ 0 := by rw [hid]; exact hp
    simp only [hreg, h2, h3, and_self, if_true, hid, ge_iff_le, hp]
  · rw [release_player_active]; simp [setAt]
  · intro x y hin hc
    rw [release_player_map, clear_player_cells_apply, if_pos ⟨hin, hc⟩]
  · intro x y hc
    rw [release_player_map, clear_player_cells_apply, if_neg (fun h => hc h.2)]
  · intro x y hout
    rw [release_player_map, clear_player_cells_apply, if_neg (fun h => hout h.1)]
  · intro k hk
    rw [release_player_active]; simp [setAt, hk]
  · intro x y hin
    rw [release_player_map, clear_player_cells_apply]
    split_ifs with c
    · exact hne
    · exact fun e => c ⟨hin, e⟩
  · apply gameState_eq
    · rw [release_player_map]
      funext y x
      rw [clear_player_cells_apply, release_player_map, clear_player_cells_apply]
      by_cases c : inGrid x y ∧ g.map y x = CELL_PLAYER_BASE + p
      · rw [if_pos c]
        split_ifs <;> rfl
      · rw [if_neg c, if_neg c]
    · rw [(release_player_rest _ p).2.1]
    · rw [release_player_active, release_player_active]
      funext k
      simp only [setAt]
      split_ifs <;> rfl
    · rw [(release_player_rest _ p).1]
    · rw [(release_player_rest _ p).2.2]

theorem release_paths_agree_witness :
    (0 : Int) ≤ 0
      ∧ (release_player (lone_snake 5 5 DIR_RIGHT) 0).active_players 0 = 0
      ∧ (release_player (lone_snake 5 5 DIR_RIGHT) 0).map 5 5 = CELL_EMPTY
      ∧ handle_client_message [] [] (lone_snake 5 5 DIR_RIGHT) 0
          = .done ⟨release_player (lone_snake 5 5 DIR_RIGHT) 0, -1, [], true, [], []⟩ :=
  ⟨by decide,
   (release_paths_agree (lone_snake 5 5 DIR_RIGHT) 0 (by decide)).2.2.2.1,
   (release_paths_agree (lone_snake 5 5 DIR_RIGHT) 0 (by decide)).2.2.2.2.1 5 5
     (by decide) (by decide),
   (release_paths_agree (lone_snake 5 5 DIR_RIGHT) 0 (by decide)).1 [] []
     RecvError.ShortRead [] rfl⟩


/-! ## Collisions inside a tick -/

/-- The record of a slot that collides when its turn comes, after the tick
loop: inactive, and the snake as it was but for the `alive` flag. -/
theorem tick_after_death (i : Nat) (more : List Nat) (g0 g1 : GameState)
    (rs0 rs1 : List Nat) (hmore : ∀ j ∈ more, j ≠ i) (hp : playing g0 i)
    (hc : dest_cell g0 i = CELL_WALL ∨ dest_cell g0 i ≥ CELL_PLAYER_BASE)
    (h : tick_players (i :: more) g0 rs0 = some (g1, rs1)) :
    g1.active_players i = 0 ∧ g1.snakes i = { g0.snakes i with alive := 0 } := by
  rw [tick_players_cons i more g0 _ rs0 rs0 (tick_player_die i g0 rs0 hp hc)] at h
  obtain ⟨_, hk, _⟩ := tick_players_frame more _ g1 rs0 rs1 h
  have hne : ∀ j ∈ more, (i : Int) ≠ ((j : Nat) : Int) := by
    intro j hj e
    have : i = j := by exact_mod_cast e
    exact hmore j hj this.symm
  obtain ⟨a1, a2, _⟩ := hk i hne
  exact ⟨by rw [a2]; simp [setAt], by rw [a1]; simp [setAt]⟩

theorem range'_split (s b n : Nat) (hs : s ≤ b) (hb : b < s + n) :
    List.range' s n = List.range' s (b - s) ++ b :: List.range' (b + 1) (s + n - (b + 1)) := by
  rw [← List.range'_succ b (s + n - (b + 1)) 1]
  have h1 := List.range'_append_1 s (b - s) (s + n - (b + 1) + 1)
  have e1 : s + (b - s) = b := by omega
  have e2 : s + n - (b + 1) + 1 + (b - s) = n := by omega
  rw [e1, e2] at h1
  exact h1.symm

/-- C16 (as amended). A snake moving into the cell occupied by its own tail
dies, also when it is not eating: when the turn of slot `i` comes in a tick
(the slots below `i` processed, giving `g0`) and slot `i` is active and alive
with a snake (of length at least 4, or of any other length) whose destination
cell is its own last body point, stamped with its token, then after the
finished tick the slot is inactive and the snake dead, with its length and its
recorded body (head included) unchanged: the destination is classified before
the tail is cleared.  When no slot below `i` is playing, `g0` is the state at
the start of the tick.  The slot loop up to and with slot `i` always finishes,
on the same supply of `rand()`, with the slot in that condition; and the whole
tick finishes, without a further `rand()`, whenever no playing snake in a slot
above `i` faces food when the turn of `i` comes. -/
theorem tail_chase_is_fatal (g g0 : GameState) (rs rs0 : List Nat) (i : Nat)
    (hi : i < MAX_PLAYERS)
    (hlow : tick_players (List.range i) g rs = some (g0, rs0))
    (hp : playing g0 i)
    (hdest : new_head (g0.snakes i) = (g0.snakes i).body ((g0.snakes i).length - 1))
    (htail : g0.map ((g0.snakes i).body ((g0.snakes i).length - 1)).y
        ((g0.snakes i).body ((g0.snakes i).length - 1)).x = CELL_PLAYER_BASE + i) :
    (∀ g1 rs1, game_tick g rs = some (g1, rs1) →
        g1.active_players i = 0 ∧ (g1.snakes i).alive = 0
          ∧ (g1.snakes i).length = (g0.snakes i).length
          ∧ (g1.snakes i).body = (g0.snakes i).body)
      ∧ ((∀ j : Nat, j < i → ¬ playing g j) → g0 = g ∧ rs0 = rs)
      ∧ (∃ gi, tick_players (List.range (i + 1)) g rs = some (gi, rs0)
          ∧ gi.active_players i = 0 ∧ (gi.snakes i).alive = 0
          ∧ (gi.snakes i).length = (g0.snakes i).length
          ∧ (gi.snakes i).body = (g0.snakes i).body)
      ∧ ((∀ j : Nat, i < j → j < MAX_PLAYERS → playing g0 j → dest_cell g0 j ≠ CELL_FOOD) →
          ∃ g1, game_tick g rs = some (g1, rs0)
            ∧ g1.active_players i = 0 ∧ (g1.snakes i).alive = 0
            ∧ (g1.snakes i).length = (g0.snakes i).length
            ∧ (g1.snakes i).body = (g0.snakes i).body) := by
  have hc : dest_cell g0 i = CELL_WALL ∨ dest_cell g0 i ≥ CELL_PLAYER_BASE := by
    right
    unfold dest_cell
    rw [hdest, htail]
    unfold CELL_PLAYER_BASE; omega
  have key : ∀ g1 rs1, game_tick g rs = some (g1, rs1) →
      g1.active_players i = 0 ∧ (g1.snakes i).alive = 0
        ∧ (g1.snakes i).length = (g0.snakes i).length
        ∧ (g1.snakes i).body = (g0.snakes i).body := by
    intro g1 rs1 h
    obtain ⟨g2, h2, rfl⟩ := game_tick_some g g1 rs rs1 h
    rw [range_split i MAX_PLAYERS hi, tick_players_append _ _ g g0 rs rs0 hlow] at h2
    have hmore : ∀ j ∈ List.range' (i + 1) (MAX_PLAYERS - (i + 1)), j ≠ i := by
      intro j hj
      rw [List.mem_range'_1] at hj
      omega
    obtain ⟨a1, a2⟩ := tick_after_death i _ g0 g2 rs0 rs1 hmore hp hc h2
    simp only
    rw [a2]
    exact ⟨a1, rfl, rfl, rfl⟩
  refine ⟨key, fun hnone => ?_, ?_, fun hf => ?_⟩
  · have hskip := tick_players_skip (List.range i) g rs
      (fun j hj => hnone j (List.mem_range.mp hj))
    rw [hskip] at hlow
    simp only [Option.some.injEq, Prod.mk.injEq] at hlow
    exact ⟨hlow.1.symm, hlow.2.symm⟩
  · obtain ⟨gi, h1, h2⟩ := tick_up_to_collision g g0 rs rs0 i hlow hp hc
    obtain ⟨a1, a2⟩ := tick_after_death i [] g0 gi rs0 rs0 (fun j hj => by simp at hj) hp hc h2
    refine ⟨gi, h1, a1, ?_⟩
    rw [a2]
    exact ⟨rfl, rfl, rfl⟩
  · obtain ⟨g1, h1⟩ := tick_finishes_from g g0 rs rs0 i hi hlow (fun j hij hj hpj => by
      rcases Nat.eq_or_lt_of_le hij with e | e
      · subst e
        rcases hc with e1 | e1
        · rw [e1]; decide
        · intro e2; rw [e2] at e1; exact absurd e1 (by decide)
      · exact hf j e hj hpj)
    exact ⟨g1, h1, key g1 rs0 h1⟩

theorem tail_chase_is_fatal_witness :
    playing tail_chaser 0
      ∧ (4 : Int) ≤ (tail_chaser.snakes 0).length
      ∧ ∃ g1 rs1, game_tick tail_chaser [] = some (g1, rs1)
          ∧ g1.active_players ((0 : Nat) : Int) = 0
          ∧ (g1.snakes ((0 : Nat) : Int)).alive = 0 := by
  refine ⟨by decide, by decide, ?_⟩
  have hs : (game_tick tail_chaser []).isSome = true := by decide
  obtain ⟨⟨g1, rs1⟩, h⟩ := Option.isSome_iff_exists.mp hs
  have key := (tail_chase_is_fatal tail_chaser tail_chaser [] [] 0 (by decide) rfl
    (by decide) (by decide) (by decide)).1 g1 rs1 h
  exact ⟨g1, rs1, h, key.1, key.2.1⟩

/-- C16 as stated fails: the snake of `tail_chaser` has length 4, is active and
alive, and its destination cell `(5, 5) + DOWN = (5, 6)` is its own last body
point; it does not eat; after the tick it is dead and its slot inactive. -/
theorem tail_chaser_dies :
    playing tail_chaser 0
      ∧ (tail_chaser.snakes 0).length = 4
      ∧ new_head (tail_chaser.snakes 0) = (tail_chaser.snakes 0).body 3
      ∧ dest_cell tail_chaser 0 ≠ CELL_FOOD
      ∧ (game_tick tail_chaser []).map
          (fun r => (r.1.active_players 0, (r.1.snakes 0).alive))
        = some (0, 0) :=
  ⟨by decide, by decide, by decide, by decide, by decide⟩


/-- The loop body of a playing slot that faces an empty cell, field by field. -/
theorem move_step (i : Nat) (g : GameState) (rs : List Nat) (hp : playing g i)
    (hempty : dest_cell g i = CELL_EMPTY) :
    ∃ g1, tick_player i g rs = some (g1, rs)
      ∧ g1.active_players = g.active_players
      ∧ (∀ k : Int, k ≠ i → g1.snakes k = g.snakes k)
      ∧ (g1.snakes i).alive = (g.snakes i).alive
      ∧ (g1.snakes i).body 0 = new_head (g.snakes i)
      ∧ g1.map (new_head (g.snakes i)).y (new_head (g.snakes i)).x = CELL_PLAYER_BASE + i := by
  have hc : ¬ (dest_cell g i = CELL_WALL ∨ dest_cell g i ≥ CELL_PLAYER_BASE) := by
    rw [hempty]; decide
  have hf : dest_cell g i ≠ CELL_FOOD := by rw [hempty]; decide
  refine ⟨_, tick_player_move i g rs hp hc hf, rfl, fun k hk => ?_, ?_, ?_, ?_⟩
  · simp [setAt, hk]
  · simp [setAt]
  · simp [setAt]
  · simp [setCell]

/-- The loop body of a playing slot that collides, field by field. -/
theorem die_step (i : Nat) (g : GameState) (rs : List Nat) (hp : playing g i)
    (hc : dest_cell g i = CELL_WALL ∨ dest_cell g i ≥ CELL_PLAYER_BASE) :
    ∃ g1, tick_player i g rs = some (g1, rs)
      ∧ g1.active_players = setAt g.active_players i 0
      ∧ (∀ k : Int, k ≠ i → g1.snakes k = g.snakes k)
      ∧ (g1.snakes i).alive = 0
      ∧ g1.map = clear_body g.map (g.snakes i).body (g.snakes i).length := by
  refine ⟨_, tick_player_die i g rs hp hc, rfl, fun k hk => ?_, ?_, rfl⟩
  · simp [setAt, hk]
  · simp [setAt]

theorem tick_players_append_some (l1 l2 : List Nat) (g g2 : GameState) (rs rs2 : List Nat)
    (h : tick_players (l1 ++ l2) g rs = some (g2, rs2)) :
    ∃ g1 rs1, tick_players l1 g rs = some (g1, rs1)
      ∧ tick_players l2 g1 rs1 = some (g2, rs2) := by
  induction l1 generalizing g rs with
  | nil => exact ⟨g, rs, rfl, h⟩
  | cons i more ih =>
    rw [List.cons_append] at h
    obtain ⟨g0, rs0, h0, hm⟩ := tick_players_cons_some i _ g g2 rs rs2 h
    obtain ⟨g1, rs1, h1, h2⟩ := ih g0 rs0 hm
    exact ⟨g1, rs1, by rw [tick_players_cons i more g g0 rs rs0 h0]; exact h1, h2⟩

/-- The loop body of slot `i` leaves a cell that holds a player token as it
is, unless the cell is one of the first `length` body points of `i` or its
tail point `body[length - 1]`. -/
theorem tick_player_keeps_cell (i : Nat) (g g1 : GameState) (rs rs1 : List Nat)
    (h : tick_player i g rs = some (g1, rs1)) (p : Point)
    (hcell : g.map p.y p.x ≥ CELL_PLAYER_BASE)
    (hnot : playing g i →
      (∀ k : Nat, (k : Int) < (g.snakes i).length → (g.snakes i).body k ≠ p)
        ∧ (g.snakes i).body ((g.snakes i).length - 1) ≠ p) :
    g1.map p.y p.x = g.map p.y p.x := by
  rcases tick_player_cases i g with hp | ⟨hp, hc⟩ | ⟨hp, hc, hf⟩ | ⟨hp, hf⟩
  · rw [tick_player_skip i g rs hp] at h
    simp only [Option.some.injEq, Prod.mk.injEq] at h
    obtain ⟨rfl, _⟩ := h
    rfl
  · rw [tick_player_die i g rs hp hc] at h
    simp only [Option.some.injEq, Prod.mk.injEq] at h
    obtain ⟨rfl, _⟩ := h
    simp only
    apply (clear_body_apply g.map _ _ p.y p.x).2
    rintro ⟨k, hk, e⟩
    exact (hnot hp).1 k hk e
  · rw [tick_player_move i g rs hp hc hf] at h
    simp only [Option.some.injEq, Prod.mk.injEq] at h
    obtain ⟨rfl, _⟩ := h
    simp only [setCell_apply]
    have c1 : ¬ (p.y = (new_head (g.snakes i)).y ∧ p.x = (new_head (g.snakes i)).x) := by
      rintro ⟨e1, e2⟩
      apply hc
      right
      unfold dest_cell
      rw [← e1, ← e2]
      exact hcell
    have c2 : ¬ (p.y = ((g.snakes i).body ((g.snakes i).length - 1)).y
        ∧ p.x = ((g.snakes i).body ((g.snakes i).length - 1)).x) := by
      rintro ⟨e1, e2⟩
      exact (hnot hp).2 (point_eq _ _ e2.symm e1.symm)
    rw [if_neg c1, if_neg c2]
  · unfold dest_cell at hf
    rw [tick_player_eat i g rs hp hf] at h
    split at h
    · simp at h
    · rename_i g3 rs3 hsp
      simp only [Option.some.injEq, Prod.mk.injEq] at h
      obtain ⟨rfl, _⟩ := h
      obtain ⟨r1, r2, hempty, rfl⟩ := spawn_food_some _ _ _ _ hsp
      simp only at hempty
      simp only [setCell_apply]
      have c1 : ¬ (p.y = (new_head (g.snakes i)).y ∧ p.x = (new_head (g.snakes i)).x) := by
        rintro ⟨e1, e2⟩
        rw [e1, e2, hf] at hcell
        exact absurd hcell (by decide)
      have c2 : ¬ (p.y = rand_coord r2 ∧ p.x = rand_coord r1) := by
        rintro ⟨e1, e2⟩
        rw [e1, e2, hempty] at hcell
        exact absurd hcell (by decide)
      rw [if_neg c1, if_neg c2]

/-- A run of the slot loop leaves a cell that holds a player token as it is,
when the cell is no body point and no tail point of any playing snake of the
run. -/
theorem tick_players_keep_cell (l : List Nat) (hnd : l.Nodup) (g g1 : GameState)
    (rs rs1 : List Nat) (h : tick_players l g rs = some (g1, rs1)) (p : Point)
    (hcell : g.map p.y p.x ≥ CELL_PLAYER_BASE)
    (hnot : ∀ j ∈ l, playing g (j : Nat) →
      (∀ k : Nat, (k : Int) < (g.snakes j).length → (g.snakes j).body k ≠ p)
        ∧ (g.snakes j).body ((g.snakes j).length - 1) ≠ p) :
    g1.map p.y p.x = g.map p.y p.x := by
  induction l generalizing g rs with
  | nil =>
    simp only [tick_players, Option.some.injEq, Prod.mk.injEq] at h
    obtain ⟨rfl, _⟩ := h
    rfl
  | cons i more ih =>
    obtain ⟨g0, rs0, h0, hm⟩ := tick_players_cons_some i more g g1 rs rs1 h
    obtain ⟨_, hk0, _⟩ := tick_player_frame i g g0 rs rs0 h0
    have hstep := tick_player_keeps_cell i g g0 rs rs0 h0 p hcell (hnot i (by simp))
    rw [List.nodup_cons] at hnd
    rw [← hstep]
    apply ih hnd.2 g0 rs0 hm (by rw [hstep]; exact hcell)
    intro j hj hp
    have hji : ((j : Nat) : Int) ≠ (i : Int) := by
      intro e
      have : j = i := by exact_mod_cast e
      exact hnd.1 (this ▸ hj)
    obtain ⟨a1, a2, _⟩ := hk0 j hji
    unfold playing at hp
    rw [a1, a2] at hp
    rw [a1]
    exact hnot j (by simp [hj]) hp

/-- The slot loop from the turn of `a` on, when `a` and a higher slot `b` are
playing with the same empty cell as destination and that cell is no body point
and no tail point of a playing snake above `a`: over the slots between them,
`b`, and any slots `up` above `b`. -/
theorem tie_break_core (g0 g2 : GameState) (rs0 rs2 : List Nat) (a b : Nat) (up : List Nat)
    (hab : a < b) (hup : ∀ j ∈ up, b < j ∧ j < MAX_PLAYERS) (hnd : up.Nodup)
    (hpa : playing g0 a) (hpb : playing g0 b)
    (hsame : new_head (g0.snakes a) = new_head (g0.snakes b))
    (hempty : dest_cell g0 a = CELL_EMPTY)
    (hfree : ∀ j : Nat, a < j → j < MAX_PLAYERS → playing g0 j →
      (∀ k : Nat, (k : Int) < (g0.snakes j).length →
          (g0.snakes j).body k ≠ new_head (g0.snakes a))
        ∧ (g0.snakes j).body ((g0.snakes j).length - 1) ≠ new_head (g0.snakes a))
    (hbm : b < MAX_PLAYERS)
    (h : tick_players (a :: (List.range' (a + 1) (b - (a + 1)) ++ b :: up)) g0 rs0
      = some (g2, rs2)) :
    playing g2 a
      ∧ (g2.snakes a).body 0 = new_head (g0.snakes a)
      ∧ g2.map (new_head (g0.snakes a)).y (new_head (g0.snakes a)).x = CELL_PLAYER_BASE + a
      ∧ g2.active_players b = 0 ∧ (g2.snakes b).alive = 0
      ∧ (∀ j : Nat, (j : Int) < (g0.snakes b).length →
          g2.map ((g0.snakes b).body j).y ((g0.snakes b).body j).x = CELL_EMPTY
            ∨ g2.map ((g0.snakes b).body j).y ((g0.snakes b).body j).x = CELL_FOOD
            ∨ ∃ k ∈ up, g2.map ((g0.snakes b).body j).y ((g0.snakes b).body j).x
                = CELL_PLAYER_BASE + ((k : Nat) : Int))
      ∧ ((∀ k ∈ up, ¬ playing g0 (k : Nat)) → ∀ j : Nat, (j : Int) < (g0.snakes b).length →
          g2.map ((g0.snakes b).body j).y ((g0.snakes b).body j).x = CELL_EMPTY) := by
  have hne : ((a : Nat) : Int) ≠ (b : Int) := by omega
  have hne2 : ((b : Nat) : Int) ≠ (a : Int) := by omega
  have htok : CELL_PLAYER_BASE + (a : Int) ≥ CELL_PLAYER_BASE := by
    unfold CELL_PLAYER_BASE; omega
  -- the turn of `a`: a plain move
  obtain ⟨ga, hta, ga_act, ga_oth, ga_alive, ga_head, ga_cell⟩ :=
    move_step a g0 rs0 hpa hempty
  rw [tick_players_cons a _ g0 ga rs0 rs0 hta] at h
  -- the slots between `a` and `b`
  obtain ⟨gm, rsm, hmid, hrest⟩ := tick_players_append_some _ _ ga g2 rs0 rs2 h
  obtain ⟨_, gm_k, _⟩ := tick_players_frame _ ga gm rs0 rsm hmid
  have hmem : ∀ j ∈ List.range' (a + 1) (b - (a + 1)), a < j ∧ j < b := by
    intro j hj
    rw [List.mem_range'_1] at hj
    omega
  have gm_a := gm_k a (fun j hj => by have := hmem j hj; omega)
  have gm_b := gm_k b (fun j hj => by have := hmem j hj; omega)
  have gm_cell : gm.map (new_head (g0.snakes a)).y (new_head (g0.snakes a)).x
      = CELL_PLAYER_BASE + a := by
    rw [tick_players_keep_cell _ (List.nodup_range' _ _) ga gm rs0 rsm hmid
      (new_head (g0.snakes a)) (by rw [ga_cell]; exact htok) (fun j hj hp => by
        have hj2 := hmem j hj
        have hja : ((j : Nat) : Int) ≠ (a : Int) := by omega
        unfold playing at hp
        rw [ga_act, ga_oth j hja] at hp
        rw [ga_oth j hja]
        exact hfree j hj2.1 (by omega) hp)]
    exact ga_cell
  -- the turn of `b`: it finds the token of `a`
  have gm_sb : gm.snakes b = g0.snakes b := by rw [gm_b.1, ga_oth b hne2]
  have hpb2 : playing gm b := by
    unfold playing at hpb ⊢
    rw [gm_b.2.1, gm_sb, ga_act]; exact hpb
  have hcb : dest_cell gm b = CELL_PLAYER_BASE + a := by
    unfold dest_cell
    rw [gm_sb, ← hsame]
    exact gm_cell
  obtain ⟨gb, htb, gb_act, gb_oth, gb_alive, gb_map⟩ := die_step b gm rsm hpb2
    (Or.inr (by rw [hcb]; exact htok))
  rw [tick_players_cons b _ gm gb rsm rsm htb] at hrest
  have gb_cell : gb.map (new_head (g0.snakes a)).y (new_head (g0.snakes a)).x
      = CELL_PLAYER_BASE + a := by
    rw [gb_map, (clear_body_apply _ _ _ _ _).2 (by
      rintro ⟨k, hk, e⟩
      rw [gm_sb] at hk e
      exact (hfree b hab hbm hpb).1 k hk e)]
    exact gm_cell
  have gb_empty : ∀ j : Nat, (j : Int) < (g0.snakes b).length →
      gb.map ((g0.snakes b).body j).y ((g0.snakes b).body j).x = CELL_EMPTY := by
    intro j hj
    rw [gb_map, gm_sb]
    exact (clear_body_apply _ _ _ _ _).1 ⟨j, hj, rfl⟩
  -- the slots above `b`
  obtain ⟨_, g2_k, g2_cells⟩ := tick_players_frame up gb g2 rsm rs2 hrest
  have g2_a := g2_k a (fun j hj => by have := hup j hj; omega)
  have g2_b := g2_k b (fun j hj => by have := hup j hj; omega)
  have hupstate : ∀ j ∈ up, gb.snakes (j : Nat) = g0.snakes j
      ∧ gb.active_players (j : Nat) = g0.active_players j := by
    intro j hj
    have hj2 := hup j hj
    have hja : ((j : Nat) : Int) ≠ (a : Int) := by omega
    have hjb : ((j : Nat) : Int) ≠ (b : Int) := by omega
    have gm_j := gm_k j (fun k hk => by have := hmem k hk; omega)
    refine ⟨by rw [gb_oth j hjb, gm_j.1, ga_oth j hja], ?_⟩
    rw [gb_act]
    simp only [setAt, if_neg hjb]
    rw [gm_j.2.1, ga_act]
  have g2_cell : g2.map (new_head (g0.snakes a)).y (new_head (g0.snakes a)).x
      = CELL_PLAYER_BASE + a := by
    rw [tick_players_keep_cell up hnd gb g2 rsm rs2 hrest
      (new_head (g0.snakes a)) (by rw [gb_cell]; exact htok) (fun j hj hp => by
        have hj2 := hup j hj
        obtain ⟨e1, e2⟩ := hupstate j hj
        unfold playing at hp
        rw [e1, e2] at hp
        rw [e1]
        exact hfree j (by omega) hj2.2 hp)]
    exact gb_cell
  refine ⟨?_, ?_, g2_cell, ?_, ?_, fun j hj => ?_, fun hnone j hj => ?_⟩
  · unfold playing at hpa ⊢
    rw [g2_a.2.1, g2_a.1, gb_act, gb_oth a hne]
    simp only [setAt, if_neg hne]
    rw [gm_a.2.1, gm_a.1, ga_act, ga_alive]
    exact hpa
  · rw [g2_a.1, gb_oth a hne, gm_a.1, ga_head]
  · rw [g2_b.2.1, gb_act]; simp [setAt]
  · rw [g2_b.1]; exact gb_alive
  · rcases g2_cells ((g0.snakes b).body j).y ((g0.snakes b).body j).x with e | e | e | ⟨k, hk, e⟩
    · left; rw [e]; exact gb_empty j hj
    · exact Or.inl e
    · exact Or.inr (Or.inl e)
    · exact Or.inr (Or.inr ⟨k, hk, e⟩)
  · have hskip := tick_players_skip up gb rsm (fun k hk hp => by
      obtain ⟨e1, e2⟩ := hupstate k hk
      unfold playing at hp
      rw [e1, e2] at hp
      exact hnone k hk hp)
    rw [hskip] at hrest
    simp only [Option.some.injEq, Prod.mk.injEq] at hrest
    rw [← hrest.1]
    exact gb_empty j hj

/-- C17 (as amended). Tie-break by slot order: when the turn of slot `a` comes
in a tick (the slots below `a` processed, giving `g0`) and slots `a < b` are
both active and alive with the same empty cell as destination, that cell being
no body point and no tail point `body[length - 1]` of a playing snake in a slot
above `a` (it never is when body cells hold the token of their snake), then
after the finished tick snake `a` is active and alive with its head on that
cell, which holds `PLAYER_BASE + a`, and snake `b` is dead and slot `b`
inactive.  Every body cell of `b` is empty when the turn of `b` is over; at the
end of the tick it is empty unless food was respawned on it or a snake of a
slot above `b` moved onto it, and empty whenever no slot above `b` is playing.
When no slot below `a` is playing, `g0` is the state at the start of the tick.
The tick finishes, without a further `rand()`, whenever no playing snake in a
slot above `a` faces food when the turn of `a` comes. -/
theorem tie_break_by_slot_order (g g0 : GameState) (rs rs0 : List Nat) (a b : Nat)
    (hab : a < b) (hb : b < MAX_PLAYERS)
    (hlow : tick_players (List.range a) g rs = some (g0, rs0))
    (hpa : playing g0 a) (hpb : playing g0 b)
    (hsame : new_head (g0.snakes a) = new_head (g0.snakes b))
    (hempty : dest_cell g0 a = CELL_EMPTY)
    (hfree : ∀ j : Nat, a < j → j < MAX_PLAYERS → playing g0 j →
      (∀ k : Nat, (k : Int) < (g0.snakes j).length →
          (g0.snakes j).body k ≠ new_head (g0.snakes a))
        ∧ (g0.snakes j).body ((g0.snakes j).length - 1) ≠ new_head (g0.snakes a)) :
    (∀ g1 rs1, game_tick g rs = some (g1, rs1) →
        playing g1 a
          ∧ (g1.snakes a).body 0 = new_head (g0.snakes a)
          ∧ g1.map (new_head (g0.snakes a)).y (new_head (g0.snakes a)).x = CELL_PLAYER_BASE + a
          ∧ g1.active_players b = 0 ∧ (g1.snakes b).alive = 0
          ∧ (∀ j : Nat, (j : Int) < (g0.snakes b).length →
              g1.map ((g0.snakes b).body j).y ((g0.snakes b).body j).x = CELL_EMPTY
                ∨ g1.map ((g0.snakes b).body j).y ((g0.snakes b).body j).x = CELL_FOOD
                ∨ ∃ k : Nat, b < k ∧ k < MAX_PLAYERS
                    ∧ g1.map ((g0.snakes b).body j).y ((g0.snakes b).body j).x
                      = CELL_PLAYER_BASE + k)
          ∧ ((∀ k : Nat, b < k → k < MAX_PLAYERS → ¬ playing g0 k) →
              ∀ j : Nat, (j : Int) < (g0.snakes b).length →
                g1.map ((g0.snakes b).body j).y ((g0.snakes b).body j).x = CELL_EMPTY))
      ∧ (∀ gb rsb, tick_players (List.range (b + 1)) g rs = some (gb, rsb) →
          playing gb a ∧ gb.active_players b = 0 ∧ (gb.snakes b).alive = 0
            ∧ ∀ j : Nat, (j : Int) < (g0.snakes b).length →
                gb.map ((g0.snakes b).body j).y ((g0.snakes b).body j).x = CELL_EMPTY)
      ∧ ((∀ j : Nat, j < a → ¬ playing g j) → g0 = g ∧ rs0 = rs)
      ∧ ((∀ j : Nat, a < j → j < MAX_PLAYERS → playing g0 j → dest_cell g0 j ≠ CELL_FOOD) →
          ∃ g1, game_tick g rs = some (g1, rs0)
            ∧ playing g1 a
            ∧ (g1.snakes a).body 0 = new_head (g0.snakes a)
            ∧ g1.map (new_head (g0.snakes a)).y (new_head (g0.snakes a)).x
                = CELL_PLAYER_BASE + a
            ∧ g1.active_players b = 0 ∧ (g1.snakes b).alive = 0) := by
  have ha : a < MAX_PLAYERS := by omega
  have key : ∀ g1 rs1, game_tick g rs = some (g1, rs1) →
      playing g1 a
        ∧ (g1.snakes a).body 0 = new_head (g0.snakes a)
        ∧ g1.map (new_head (g0.snakes a)).y (new_head (g0.snakes a)).x = CELL_PLAYER_BASE + a
        ∧ g1.active_players b = 0 ∧ (g1.snakes b).alive = 0
        ∧ (∀ j : Nat, (j : Int) < (g0.snakes b).length →
            g1.map ((g0.snakes b).body j).y ((g0.snakes b).body j).x = CELL_EMPTY
              ∨ g1.map ((g0.snakes b).body j).y ((g0.snakes b).body j).x = CELL_FOOD
              ∨ ∃ k : Nat, b < k ∧ k < MAX_PLAYERS
                  ∧ g1.map ((g0.snakes b).body j).y ((g0.snakes b).body j).x
                    = CELL_PLAYER_BASE + k)
        ∧ ((∀ k : Nat, b < k → k < MAX_PLAYERS → ¬ playing g0 k) →
            ∀ j : Nat, (j : Int) < (g0.snakes b).length →
              g1.map ((g0.snakes b).body j).y ((g0.snakes b).body j).x = CELL_EMPTY) := by
    intro g1 rs1 h
    obtain ⟨g2, h2, rfl⟩ := game_tick_some g g1 rs rs1 h
    rw [range_split a MAX_PLAYERS ha, tick_players_append _ _ g g0 rs rs0 hlow,
      range'_split (a + 1) b (MAX_PLAYERS - (a + 1)) (by omega) (by omega)] at h2
    have hup : ∀ j ∈ List.range' (b + 1) (a + 1 + (MAX_PLAYERS - (a + 1)) - (b + 1)),
        b < j ∧ j < MAX_PLAYERS := by
      intro j hj
      rw [List.mem_range'_1] at hj
      omega
    obtain ⟨c1, c2, c3, c4, c5, c6, c7⟩ := tie_break_core g0 g2 rs0 rs1 a b _ hab hup
      (List.nodup_range' _ _) hpa hpb hsame hempty hfree hb h2
    refine ⟨c1, c2, c3, c4, c5, fun j hj => ?_, fun hnone => ?_⟩
    · rcases c6 j hj with e | e | ⟨k, hk, e⟩
      · exact Or.inl e
      · exact Or.inr (Or.inl e)
      · exact Or.inr (Or.inr ⟨k, (hup k hk).1, (hup k hk).2, e⟩)
    · exact c7 (fun k hk => hnone k (hup k hk).1 (hup k hk).2)
  refine ⟨key, fun gb rsb h => ?_, fun hnone => ?_, fun hf => ?_⟩
  · rw [range_split a (b + 1) (by omega), tick_players_append _ _ g g0 rs rs0 hlow,
      range'_split (a + 1) b (b + 1 - (a + 1)) (by omega) (by omega)] at h
    have e0 : a + 1 + (b + 1 - (a + 1)) - (b + 1) = 0 := by omega
    rw [e0, List.range'_zero] at h
    obtain ⟨c1, _, _, c4, c5, _, c7⟩ := tie_break_core g0 gb rs0 rsb a b [] hab
      (fun j hj => by simp at hj) List.nodup_nil hpa hpb hsame hempty hfree hb h
    exact ⟨c1, c4, c5, c7 (fun k hk => by simp at hk)⟩
  · have hskip := tick_players_skip (List.range a) g rs
      (fun j hj => hnone j (List.mem_range.mp hj))
    rw [hskip] at hlow
    simp only [Option.some.injEq, Prod.mk.injEq] at hlow
    exact ⟨hlow.1.symm, hlow.2.symm⟩
  · obtain ⟨g1, h1⟩ := tick_finishes_from g g0 rs rs0 a ha hlow (fun j haj hj hpj => by
      rcases Nat.eq_or_lt_of_le haj with e | e
      · subst e
        rw [hempty]; decide
      · exact hf j e hj hpj)
    obtain ⟨c1, c2, c3, c4, c5, _⟩ := key g1 rs0 h1
    exact ⟨g1, h1, c1, c2, c3, c4, c5⟩

theorem facing_with_follower_playing (j : Nat) (hp : playing facing_with_follower j) :
    j = 0 ∨ j = 1 ∨ j = 2 := by
  by_contra hne
  have e0 : ((j : Nat) : Int) ≠ 0 := by omega
  have e1 : ((j : Nat) : Int) ≠ 1 := by omega
  have e2 : ((j : Nat) : Int) ≠ 2 := by omega
  simp [playing, facing_with_follower, setAt, e0, e1, e2] at hp

theorem tie_break_by_slot_order_witness :
    ∃ g1, game_tick facing_with_follower [] = some (g1, [])
      ∧ playing g1 ((0 : Nat) : Int)
      ∧ g1.map 5 5 = CELL_PLAYER_BASE + ((0 : Nat) : Int)
      ∧ g1.active_players ((1 : Nat) : Int) = 0
      ∧ (g1.snakes ((1 : Nat) : Int)).alive = 0 := by
  have hfree : ∀ j : Nat, 0 < j → j < MAX_PLAYERS → playing facing_with_follower j →
      (∀ k : Nat, (k : Int) < (facing_with_follower.snakes j).length →
          (facing_with_follower.snakes j).body k
            ≠ new_head (facing_with_follower.snakes ((0 : Nat) : Int)))
        ∧ (facing_with_follower.snakes j).body ((facing_with_follower.snakes j).length - 1)
            ≠ new_head (facing_with_follower.snakes ((0 : Nat) : Int)) := by
    intro j h0 _ hp
    rcases facing_with_follower_playing j hp with e | e | e
    · omega
    · subst e
      refine ⟨fun k hk => ?_, by decide⟩
      have hl : (facing_with_follower.snakes ((1 : Nat) : Int)).length = 1 := by decide
      have : k = 0 := by omega
      subst this
      decide
    · subst e
      refine ⟨fun k hk => ?_, by decide⟩
      have hl : (facing_with_follower.snakes ((2 : Nat) : Int)).length = 1 := by decide
      have : k = 0 := by omega
      subst this
      decide
  have hf : ∀ j : Nat, 0 < j → j < MAX_PLAYERS → playing facing_with_follower j →
      dest_cell facing_with_follower j ≠ CELL_FOOD := by
    intro j h0 _ hp
    rcases facing_with_follower_playing j hp with e | e | e
    · omega
    · subst e; decide
    · subst e; decide
  obtain ⟨g1, h, k1, _, k3, k4, k5⟩ :=
    (tie_break_by_slot_order facing_with_follower facing_with_follower [] [] 0 1
      (by decide) (by decide) rfl (by decide) (by decide) (by decide) (by decide)
      hfree).2.2.2 hf
  exact ⟨g1, h, k1, k3, k4, k5⟩

/-- C17 as stated fails in two ways.  In `three_around_a_cell` the snakes of
slots 1 and 2 are active and alive and both have the empty cell `(5, 5)` as
destination, but slot 0 moves there first: after the tick snake 1 is dead, its
slot inactive, and the cell holds `PLAYER_BASE + 0`.  In
`facing_with_follower` the snakes of slots 0 and 1 both have the empty cell
`(5, 5)` as destination; slot 0 takes it and snake 1 dies, but the snake of
slot 2 moves onto the cell `(6, 5)` that snake 1 has left, so after the tick
the body cell of snake 1 is not empty: it holds `PLAYER_BASE + 2`. -/
theorem lower_slot_takes_the_cell :
    (playing three_around_a_cell 1 ∧ playing three_around_a_cell 2
      ∧ new_head (three_around_a_cell.snakes 1) = ⟨5, 5⟩
      ∧ new_head (three_around_a_cell.snakes 2) = ⟨5, 5⟩
      ∧ three_around_a_cell.map 5 5 = CELL_EMPTY
      ∧ (game_tick three_around_a_cell []).map
          (fun r => (r.1.active_players 1, (r.1.snakes 1).alive, r.1.map 5 5))
        = some (0, 0, CELL_PLAYER_BASE + 0))
    ∧ (playing facing_with_follower 0 ∧ playing facing_with_follower 1
      ∧ new_head (facing_with_follower.snakes 0) = ⟨5, 5⟩
      ∧ new_head (facing_with_follower.snakes 1) = ⟨5, 5⟩
      ∧ facing_with_follower.map 5 5 = CELL_EMPTY
      ∧ (facing_with_follower.snakes 1).length = 1
      ∧ (facing_with_follower.snakes 1).body 0 = ⟨6, 5⟩
      ∧ (game_tick facing_with_follower []).map
          (fun r => (r.1.active_players 0, (r.1.snakes 0).alive, r.1.map 5 5,
            r.1.active_players 1, r.1.map 5 6))
        = some (1, 1, CELL_PLAYER_BASE + 0, 0, CELL_PLAYER_BASE + 2)) :=
  ⟨⟨by decide, by decide, by decide, by decide, by decide, by decide⟩,
   ⟨by decide, by decide, by decide, by decide, by decide, by decide, by decide, by decide⟩⟩


/-! ## The worker and the MOVE byte -/

/-- A frame that is neither LOGIN_REQ, MOVE nor LOGOUT (a HEARTBEAT or an
unknown opcode) leaves the shared state alone and the slot of the connection
as it was; a HEARTBEAT is answered with the eight header bytes of an empty
HEARTBEAT_ACK, anything else with nothing. -/
theorem handle_other_frame (stream rs : List Nat) (g : GameState) (pid : Int) (f : Frame)
    (rest : List Nat) (hrecv : recv_packet stream = (.ok f, rest))
    (h1 : f.opcode ≠ OP_LOGIN_REQ) (h2 : f.opcode ≠ OP_MOVE) (h3 : f.opcode ≠ OP_LOGOUT) :
    handle_client_message stream rs g pid
      = .done ⟨g, pid, if f.opcode = OP_HEARTBEAT then [0, 0, 0, 0, 0, 9, 0, 0] else [],
          false, rest, rs⟩ := by
  unfold handle_client_message
  rw [hrecv]
  simp only [h1, h2, h3, if_false, false_and]
  split_ifs
  · rfl
  · rfl

/-- The worker after such a frame: a connection without a slot is taken out of
`masterfds` and its activity time zeroed; a connection with a slot stays
registered and its activity time is set to the current time. -/
theorem worker_other_frame (now : Int) (stream rs : List Nat) (g : GameState) (c : Client)
    (f : Frame) (rest : List Nat) (hrecv : recv_packet stream = (.ok f, rest))
    (h1 : f.opcode ≠ OP_LOGIN_REQ) (h2 : f.opcode ≠ OP_MOVE) (h3 : f.opcode ≠ OP_LOGOUT) :
    (c.client_id = -1 →
        worker_readable now stream rs g c
          = .done (⟨g, -1, if f.opcode = OP_HEARTBEAT then [0, 0, 0, 0, 0, 9, 0, 0] else [],
              false, rest, rs⟩,
            { c with client_id := -1, registered := false, last_activity := 0 }))
      ∧ (c.client_id ≠ -1 →
        worker_readable now stream rs g c
          = .done (⟨g, c.client_id,
              if f.opcode = OP_HEARTBEAT then [0, 0, 0, 0, 0, 9, 0, 0] else [],
              false, rest, rs⟩,
            { c with last_activity := now })) := by
  constructor
  · intro hc
    unfold worker_readable
    rw [handle_other_frame stream rs g c.client_id f rest hrecv h1 h2 h3, hc]
    simp
  · intro hc
    unfold worker_readable
    rw [handle_other_frame stream rs g c.client_id f rest hrecv h1 h2 h3]
    simp [hc]

/-- C18 at its failing input. A registered connection without a slot
(`fresh_client`, accepted at time 100) sends a well-formed empty HEARTBEAT
frame at time 200: the shared state is unchanged and the ACK is sent, but the
worker takes the fd out of `masterfds` without closing it and zeroes its
activity time.  The same frame from a connection holding slot 0 leaves it
registered with activity time 200. -/
theorem heartbeat_without_slot_unregisters :
    recv_packet [0, 0, 0, 0, 0, 8, 0, 0] = (.ok ⟨OP_HEARTBEAT, none, 0⟩, [])
      ∧ fresh_client.registered = true ∧ fresh_client.client_id = -1
      ∧ worker_readable 200 [0, 0, 0, 0, 0, 8, 0, 0] [] empty_server fresh_client
        = .done (⟨empty_server, -1, [0, 0, 0, 0, 0, 9, 0, 0], false, [], []⟩,
            { registered := false, client_id := -1, client_version := 0, last_activity := 0 })
      ∧ worker_readable 200 [0, 0, 0, 0, 0, 8, 0, 0] [] (lone_snake 5 5 DIR_RIGHT)
          { registered := true, client_id := 0, client_version := 0, last_activity := 100 }
        = .done (⟨lone_snake 5 5 DIR_RIGHT, 0, [0, 0, 0, 0, 0, 9, 0, 0], false, [], []⟩,
            { registered := true, client_id := 0, client_version := 0, last_activity := 200 }) :=
  ⟨rfl, rfl, rfl,
   (worker_other_frame 200 [0, 0, 0, 0, 0, 8, 0, 0] [] empty_server fresh_client
      ⟨OP_HEARTBEAT, none, 0⟩ [] rfl (by decide) (by decide) (by decide)).1 rfl,
   (worker_other_frame 200 [0, 0, 0, 0, 0, 8, 0, 0] [] (lone_snake 5 5 DIR_RIGHT)
      { registered := true, client_id := 0, client_version := 0, last_activity := 100 }
      ⟨OP_HEARTBEAT, none, 0⟩ [] rfl (by decide) (by decide) (by decide)).2 (by decide)⟩

set_option maxRecDepth 100000 in
set_option maxHeartbeats 2000000 in
/-- C19 at its failing input. After `init_game_map` (all 40 values of `rand()`
equal to 7), a login (`rand()` giving 4, 4) and a MOVE frame whose payload byte
is 'X' (88), slot 0 is active, its snake alive, and its direction is 88, none
of 'W', 'S', 'A', 'D'; the next tick finds no direction to move in, takes the
cell of the own head as destination and kills the snake. -/
theorem move_byte_is_not_validated :
    ((init_game_map (List.replicate 40 7 ++ [4, 4])).bind (fun r0 =>
        (handle_client_message (send_packet OP_LOGIN_REQ none 0) r0.2 r0.1 (-1)).result.bind
          (fun h1 =>
            (handle_client_message (send_packet OP_MOVE (some [88]) 1)
              h1.rand h1.state h1.player_id).result))).map
        (fun h2 => (h2.player_id, h2.state.active_players 0, (h2.state.snakes 0).alive,
          (h2.state.snakes 0).direction))
      = some (0, 1, 1, 88)
    ∧ (88 ≠ DIR_UP ∧ 88 ≠ DIR_DOWN ∧ 88 ≠ DIR_LEFT ∧ 88 ≠ DIR_RIGHT)
    ∧ ((init_game_map (List.replicate 40 7 ++ [4, 4])).bind (fun r0 =>
        (handle_client_message (send_packet OP_LOGIN_REQ none 0) r0.2 r0.1 (-1)).result.bind
          (fun h1 =>
            (handle_client_message (send_packet OP_MOVE (some [88]) 1)
              h1.rand h1.state h1.player_id).result.bind
              (fun h2 => game_tick h2.state h2.rand)))).map
        (fun r => (r.1.active_players 0, (r.1.snakes 0).alive))
      = some (0, 0) :=
  ⟨by decide, by decide, by decide⟩


/-! ## Array bounds in the tick -/

theorem clear_body_checked_fold (body : Int → Point) (n : Nat) (m : Int → Int → Int)
    (h : ∀ j : Nat, j < n →
      body_index (j : Int) ∧ inGrid (body (j : Int)).x (body (j : Int)).y) :
    (List.range n).foldl
        (fun (acc : Option (Int → Int → Int)) (j : Nat) =>
          match acc with
          | none => none
          | some m1 =>
            if body_index (j : Int) ∧ inGrid (body (j : Int)).x (body (j : Int)).y then
              some (setCell m1 (body (j : Int)).y (body (j : Int)).x CELL_EMPTY)
            else none) (some m)
      = some ((List.range n).foldl
          (fun (m1 : Int → Int → Int) (j : Nat) =>
            setCell m1 (body (j : Int)).y (body (j : Int)).x CELL_EMPTY) m) := by
  induction n with
  | zero => rfl
  | succ n ih =>
    rw [List.range_succ, List.foldl_append, List.foldl_append,
      ih (fun j hj => h j (Nat.lt_succ_of_lt hj))]
    simp only [List.foldl_cons, List.foldl_nil]
    rw [if_pos (h n (Nat.lt_succ_self n))]

/-- The clearing loop stays in range when the first `length` body points are
on the grid and `length` is at most `MAX_SNAKE_LENGTH`. -/
theorem clear_body_checked_eq (m : Int → Int → Int) (body : Int → Point) (length : Int)
    (hl : length ≤ MAX_SNAKE_LENGTH)
    (h : ∀ j : Nat, (j : Int) < length → inGrid (body (j : Int)).x (body (j : Int)).y) :
    clear_body_checked m body length = some (clear_body m body length) := by
  unfold clear_body_checked clear_body
  apply clear_body_checked_fold
  intro j hj
  have hjl : (j : Int) < length := by omega
  exact ⟨⟨by omega, by omega⟩, h j hjl⟩

/-- The shift loop stays in range when entered below `MAX_SNAKE_LENGTH`. -/
theorem shift_body_checked_eq (n : Nat) (body : Int → Point) (hn : (n : Int) < MAX_SNAKE_LENGTH) :
    shift_body_checked body n = some (shift_body body n) := by
  induction n generalizing body with
  | zero => rfl
  | succ n ih =>
    have h1 : body_index ((n : Int) + 1) ∧ body_index (n : Int) := by
      unfold body_index
      have : ((n + 1 : Nat) : Int) = (n : Int) + 1 := by omega
      omega
    rw [shift_body_checked, if_pos h1, shift_body]
    exact ih _ (by omega)

/-- Under the shape premise no access of the loop body leaves its array:
the checked loop body is the unchecked one. -/
theorem tick_player_checked_eq (i : Nat) (hi : i < MAX_PLAYERS) (g : GameState)
    (rs : List Nat) (hs : tick_shape g) :
    tick_player_checked i g rs = as_outcome (tick_player i g rs) := by
  obtain ⟨hw, hsh⟩ := hs
  rcases tick_player_cases i g with hp | ⟨hp, hc⟩ | ⟨hp, hc, hf⟩ | ⟨hp, hf⟩
  · rw [tick_player_skip i g rs hp]
    unfold playing at hp
    unfold tick_player_checked
    rw [if_neg hp]; rfl
  · obtain ⟨hl1, hl2, hint⟩ := hsh i hi hp
    have hnh := new_head_inGrid (g.snakes i) (hint 0 (by omega))
    rw [tick_player_die i g rs hp hc]
    unfold playing at hp
    unfold dest_cell at hc
    unfold tick_player_checked
    dsimp only
    rw [if_pos hp, if_neg (not_not.mpr hnh), if_pos hc,
      clear_body_checked_eq g.map _ _ hl2 (fun j hj => interior_inGrid _ _ (hint j hj))]
    rfl
  · obtain ⟨hl1, hl2, hint⟩ := hsh i hi hp
    have hnh := new_head_inGrid (g.snakes i) (hint 0 (by omega))
    have htl : inGrid ((g.snakes i).body ((g.snakes i).length - 1)).x
        ((g.snakes i).body ((g.snakes i).length - 1)).y := by
      have := hint ((g.snakes i).length - 1).toNat (by omega)
      rw [toNat_pred_cast _ hl1] at this
      exact interior_inGrid _ _ this
    have hidx : body_index ((g.snakes i).length - 1) := by
      unfold body_index; omega
    rw [tick_player_move i g rs hp hc hf]
    unfold playing at hp
    unfold dest_cell at hc hf
    unfold tick_player_checked
    dsimp only
    rw [if_pos hp, if_neg (not_not.mpr hnh), if_neg hc, if_neg hf,
      if_neg (not_not.mpr hidx), if_neg (not_not.mpr htl),
      shift_body_checked_eq _ _ (by omega)]
    rfl
  · obtain ⟨hl1, hl2, hint⟩ := hsh i hi hp
    have hnh := new_head_inGrid (g.snakes i) (hint 0 (by omega))
    have hc : ¬ (g.map (new_head (g.snakes i)).y (new_head (g.snakes i)).x = CELL_WALL
        ∨ g.map (new_head (g.snakes i)).y (new_head (g.snakes i)).x ≥ CELL_PLAYER_BASE) := by
      unfold dest_cell at hf
      rw [hf]; decide
    have hlen : (((if (g.snakes i).length < MAX_SNAKE_LENGTH then (g.snakes i).length + 1
        else (g.snakes i).length) - 1).toNat : Int) < MAX_SNAKE_LENGTH := by
      split_ifs with hlt
      · omega
      · omega
    rw [tick_player_eat i g rs hp hf]
    unfold playing at hp
    unfold dest_cell at hf
    unfold tick_player_checked
    dsimp only
    rw [if_pos hp, if_neg (not_not.mpr hnh), if_neg hc, if_pos hf]
    cases hsp : spawn_food rs { g with scores := setAt g.scores i (g.scores i + 1) } with
    | none => rfl
    | some r =>
      obtain ⟨g1, rs1⟩ := r
      dsimp only
      rw [shift_body_checked_eq _ _ hlen]
      rfl

/-- Under the shape premise the checked slot loop is the unchecked one. -/
theorem tick_players_checked_eq (l : List Nat) (hl : ∀ j ∈ l, j < MAX_PLAYERS)
    (g : GameState) (rs : List Nat) (hs : tick_shape g) :
    tick_players_checked l g rs = as_outcome (tick_players l g rs) := by
  induction l generalizing g rs with
  | nil => rfl
  | cons i more ih =>
    have hi := hl i (by simp)
    rw [tick_players_checked, tick_player_checked_eq i hi g rs hs]
    cases h : tick_player i g rs with
    | none => simp only [tick_players, h, as_outcome]
    | some r =>
      obtain ⟨g1, rs1⟩ := r
      simp only [tick_players, h, as_outcome]
      exact ih (fun j hj => hl j (by simp [hj])) g1 rs1
        (tick_player_shape i hi g g1 rs rs1 hs h)

/-- C20. Index safety of the tick: if every border cell is a wall and every
active alive snake has `1 ≤ length ≤ MAX_SNAKE_LENGTH` with all its body
points interior, then the tick run with every access to `map` (destination
cell, tail cell, each cleared body cell, stamped head cell) and to `body`
checked against the array bounds never takes the out-of-range branch: it ends
exactly as the unchecked tick does, finished with the same state or still in
the respawn loop. -/
theorem tick_accesses_in_range (g : GameState) (rs : List Nat) (hs : tick_shape g) :
    game_tick_checked g rs = as_outcome (game_tick g rs)
      ∧ game_tick_checked g rs ≠ .fault
      ∧ (∀ i : Nat, i < MAX_PLAYERS →
          tick_player_checked i g rs = as_outcome (tick_player i g rs)) := by
  have key : game_tick_checked g rs = as_outcome (game_tick g rs) := by
    unfold game_tick_checked game_tick
    rw [tick_players_checked_eq _ (fun j hj => List.mem_range.mp hj) g rs hs]
    cases tick_players (List.range MAX_PLAYERS) g rs with
    | none => rfl
    | some r => rfl
  refine ⟨key, ?_, fun i hi => tick_player_checked_eq i hi g rs hs⟩
  rw [key]
  cases game_tick g rs with
  | none => simp [as_outcome]
  | some r => simp [as_outcome]

theorem tick_accesses_in_range_witness :
    tick_shape coiled_snake
      ∧ game_tick_checked coiled_snake [19, 19] = as_outcome (game_tick coiled_snake [19, 19])
      ∧ game_tick_checked coiled_snake [19, 19] ≠ .fault
      ∧ (game_tick coiled_snake [19, 19]).isSome = true :=
  ⟨coiled_snake_invariant.1,
   (tick_accesses_in_range coiled_snake [19, 19] coiled_snake_invariant.1).1,
   (tick_accesses_in_range coiled_snake [19, 19] coiled_snake_invariant.1).2.1,
   by decide⟩


/-! ## Counting cells -/

/-- Turning one entry of a row from rejected to accepted adds one to the
number of accepted entries. -/
theorem filter_length_gain (p q : Nat → Bool) (x0 : Nat) (hp : p x0 = false) (hq : q x0 = true)
    (hrest : ∀ x, x ≠ x0 → q x = p x) (n : Nat) (hx : x0 < n) :
    ((List.range n).filter q).length = ((List.range n).filter p).length + 1 := by
  induction n with
  | zero => omega
  | succ n ih =>
    rw [List.range_succ, List.filter_append, List.filter_append, List.length_append,
      List.length_append]
    by_cases e : x0 = n
    · subst e
      have hsame : (List.range x0).filter q = (List.range x0).filter p := by
        apply List.filter_congr
        intro x hxm
        exact hrest x (by have := List.mem_range.mp hxm; omega)
      rw [hsame]
      simp [List.filter, hp, hq]
    · have hn := hrest n (fun c => e c.symm)
      rw [ih (by omega)]
      simp only [List.filter, hn]
      omega

/-- The number of accepted entries of a row depends only on the entries of the row. -/
theorem filter_length_congr (p q : Nat → Bool) (n : Nat) (h : ∀ x, x < n → q x = p x) :
    ((List.range n).filter q).length = ((List.range n).filter p).length := by
  congr 1
  apply List.filter_congr
  intro x hx
  exact h x (List.mem_range.mp hx)

/-- Adding one to a single term of a sum adds one to the sum. -/
theorem sum_gain (f f1 : Nat → Nat) (y0 : Nat) (hy0 : f1 y0 = f y0 + 1)
    (hrest : ∀ y, y ≠ y0 → f1 y = f y) (n : Nat) (hy : y0 < n) :
    ((List.range n).map f1).sum = ((List.range n).map f).sum + 1 := by
  induction n with
  | zero => omega
  | succ n ih =>
    rw [List.range_succ, List.map_append, List.map_append, List.sum_append, List.sum_append]
    by_cases e : y0 = n
    · subst e
      have hsame : (List.range y0).map f1 = (List.range y0).map f := by
        apply List.map_congr_left
        intro y hym
        exact hrest y (by have := List.mem_range.mp hym; omega)
      rw [hsame]
      simp [hy0]
      omega
    · have hn := hrest n (fun c => e c.symm)
      rw [ih (by omega)]
      simp only [List.map, List.sum_cons, List.sum_nil, hn]
      omega

/-- The count of a value depends only on which cells of the grid hold it. -/
theorem count_cells_congr (m m1 : Int → Int → Int) (v : Int)
    (h : ∀ x y, inGrid x y → (m1 y x = v ↔ m y x = v)) :
    count_cells m1 v = count_cells m v := by
  unfold count_cells
  have hh : MAP_HEIGHT.toNat = 40 := by decide
  have hw : MAP_WIDTH.toNat = 40 := by decide
  rw [hh, hw]
  congr 1
  apply List.map_congr_left
  intro y hy
  apply filter_length_congr
  intro x hx
  have hy2 := List.mem_range.mp hy
  have hin : inGrid (x : Int) (y : Int) := by
    unfold inGrid MAP_WIDTH MAP_HEIGHT; omega
  exact decide_eq_decide.mpr (h _ _ hin)

/-- Writing the value `v` into a cell of the grid that did not hold it adds
one to the count of `v`. -/
theorem count_cells_gain (m : Int → Int → Int) (x y v : Int) (hin : inGrid x y)
    (hne : m y x ≠ v) : count_cells (setCell m y x v) v = count_cells m v + 1 := by
  unfold count_cells
  have hh : MAP_HEIGHT.toNat = 40 := by decide
  have hw : MAP_WIDTH.toNat = 40 := by decide
  rw [hh, hw]
  unfold inGrid MAP_WIDTH MAP_HEIGHT at hin
  have ex : ((x.toNat : Nat) : Int) = x := by omega
  have ey : ((y.toNat : Nat) : Int) = y := by omega
  apply sum_gain _ _ y.toNat
  · apply filter_length_gain _ _ x.toNat
    · simp only [ex, ey, decide_eq_false_iff_not]; exact hne
    · simp only [ex, ey, setCell_apply, and_self, if_true, decide_eq_true_eq]
    · intro x1 hx1
      have : ¬ ((x1 : Int) = x) := by omega
      simp only [setCell_apply, this, and_false, if_false]
    · omega
  · intro y1 hy1
    have : ¬ ((y1 : Int) = y) := by omega
    simp only [setCell_apply, this, false_and, if_false]
  · omega

/-- Overwriting a cell of the grid that held `v` with another value takes one
off the count of `v`. -/
theorem count_cells_loss (m : Int → Int → Int) (x y v w : Int) (hin : inGrid x y)
    (hv : m y x = v) (hw : w ≠ v) :
    count_cells (setCell m y x w) v + 1 = count_cells m v := by
  have h1 := count_cells_gain (setCell m y x w) x y v hin
    (by rw [setCell_apply]; simp only [and_self, if_true]; exact hw)
  rw [← h1]
  apply count_cells_congr
  intro x1 y1 _
  simp only [setCell_apply]
  by_cases c : y1 = y ∧ x1 = x
  · simp only [c, and_self, if_true, true_iff]
    exact hv
  · simp only [c, if_false]

/-! ## Food lemmas -/

theorem token_ne_food (p : Int) (hp : 0 ≤ p) : CELL_PLAYER_BASE + p ≠ CELL_FOOD := by
  unfold CELL_PLAYER_BASE CELL_FOOD; omega

/-- The loop body of a slot keeps the number of food cells when the state has
the body invariant: a collision empties cells that hold the token, a plain
move trades the tail cell for an empty cell, a meal puts food on an empty cell
and the token on the food cell. -/
theorem tick_player_food (i : Nat) (hi : i < MAX_PLAYERS) (g g1 : GameState)
    (rs rs1 : List Nat) (hinv : body_invariant g) (h : tick_player i g rs = some (g1, rs1)) :
    count_cells g1.map CELL_FOOD = count_cells g.map CELL_FOOD := by
  obtain ⟨⟨hw, hsh⟩, hst⟩ := hinv
  have htok : CELL_PLAYER_BASE + (i : Int) ≠ CELL_FOOD := token_ne_food i (by omega)
  rcases tick_player_cases i g with hp | ⟨hp, hc⟩ | ⟨hp, hc, hf⟩ | ⟨hp, hf⟩
  · rw [tick_player_skip i g rs hp] at h
    simp only [Option.some.injEq, Prod.mk.injEq] at h
    obtain ⟨rfl, _⟩ := h
    rfl
  · obtain ⟨hstamp, _⟩ := hst i hi hp
    rw [tick_player_die i g rs hp hc] at h
    simp only [Option.some.injEq, Prod.mk.injEq] at h
    obtain ⟨rfl, _⟩ := h
    apply count_cells_congr
    intro x y _
    simp only
    by_cases hex : ∃ j : Nat, (j : Int) < (g.snakes i).length
        ∧ (g.snakes i).body (j : Int) = ⟨x, y⟩
    · rw [(clear_body_apply g.map _ _ y x).1 hex]
      obtain ⟨j, hj, hbj⟩ := hex
      have hcell := hstamp j hj
      rw [hbj] at hcell
      simp only at hcell
      rw [hcell]
      constructor
      · intro e; exact absurd e (by decide)
      · intro e; exact absurd e htok
    · rw [(clear_body_apply g.map _ _ y x).2 hex]
  · obtain ⟨hstamp, _⟩ := hst i hi hp
    obtain ⟨hl1, _, _⟩ := hsh i hi hp
    rw [tick_player_move i g rs hp hc hf] at h
    simp only [Option.some.injEq, Prod.mk.injEq] at h
    obtain ⟨rfl, _⟩ := h
    apply count_cells_congr
    intro x y _
    simp only [setCell_apply]
    unfold dest_cell at hf
    by_cases c1 : y = (new_head (g.snakes i)).y ∧ x = (new_head (g.snakes i)).x
    · rw [if_pos c1, c1.1, c1.2]
      constructor
      · intro e; exact absurd e htok
      · intro e; exact absurd e hf
    · rw [if_neg c1]
      by_cases c2 : y = ((g.snakes i).body ((g.snakes i).length - 1)).y
          ∧ x = ((g.snakes i).body ((g.snakes i).length - 1)).x
      · have hcell := hstamp ((g.snakes i).length - 1).toNat (by omega)
        rw [toNat_pred_cast _ hl1] at hcell
        rw [if_pos c2, c2.1, c2.2, hcell]
        constructor
        · intro e; exact absurd e (by decide)
        · intro e; exact absurd e htok
      · rw [if_neg c2]
  · obtain ⟨hl1, _, hint⟩ := hsh i hi hp
    have hhead := hint 0 (by omega)
    simp only [Nat.cast_zero] at hhead
    have hnh := new_head_inGrid (g.snakes i) hhead
    unfold dest_cell at hf
    rw [tick_player_eat i g rs hp hf] at h
    split at h
    · simp at h
    · rename_i g3 rs3 hsp
      simp only [Option.some.injEq, Prod.mk.injEq] at h
      obtain ⟨rfl, _⟩ := h
      obtain ⟨r1, r2, hempty, rfl⟩ := spawn_food_some _ _ _ _ hsp
      simp only at hempty
      simp only
      have hgain := count_cells_gain g.map (rand_coord r1) (rand_coord r2) CELL_FOOD
        (interior_inGrid _ _ (rand_coord_interior r1 r2)) (by rw [hempty]; decide)
      have hloss := count_cells_loss
        (setCell g.map (rand_coord r2) (rand_coord r1) CELL_FOOD)
        (new_head (g.snakes i)).x (new_head (g.snakes i)).y CELL_FOOD
        (CELL_PLAYER_BASE + (i : Int)) hnh
        (by
          rw [setCell_apply]
          by_cases c : (new_head (g.snakes i)).y = rand_coord r2
              ∧ (new_head (g.snakes i)).x = rand_coord r1
          · rw [if_pos c]
          · rw [if_neg c]; exact hf) htok
      omega

/-- The slot loop over real slots keeps the number of food cells. -/
theorem tick_players_food (l : List Nat) (hl : ∀ j ∈ l, j < MAX_PLAYERS) (g g1 : GameState)
    (rs rs1 : List Nat) (hinv : body_invariant g)
    (h : tick_players l g rs = some (g1, rs1)) :
    count_cells g1.map CELL_FOOD = count_cells g.map CELL_FOOD := by
  induction l generalizing g rs with
  | nil =>
    simp only [tick_players, Option.some.injEq, Prod.mk.injEq] at h
    obtain ⟨rfl, _⟩ := h
    rfl
  | cons i more ih =>
    obtain ⟨g0, rs0, h0, hm⟩ := tick_players_cons_some i more g g1 rs rs1 h
    have hi := hl i (by simp)
    rw [ih (fun j hj => hl j (by simp [hj])) g0 rs0
      (tick_player_invariant i hi g g0 rs rs0 hinv h0) hm]
    exact tick_player_food i hi g g0 rs rs0 hinv h0

/-- A finished tick keeps the number of food cells. -/
theorem game_tick_food (g g1 : GameState) (rs rs1 : List Nat) (hinv : body_invariant g)
    (h : game_tick g rs = some (g1, rs1)) :
    count_cells g1.map CELL_FOOD = count_cells g.map CELL_FOOD := by
  obtain ⟨g0, h0, rfl⟩ := game_tick_some g g1 rs rs1 h
  exact tick_players_food _ (fun j hj => List.mem_range.mp hj) g g0 rs rs1 hinv h0

/-- The release of a slot empties token cells only. -/
theorem release_player_food (g : GameState) (p : Int) (hp : 0 ≤ p) :
    count_cells (release_player g p).map CELL_FOOD = count_cells g.map CELL_FOOD := by
  rw [release_player_map]
  apply count_cells_congr
  intro x y _
  rw [clear_player_cells_apply]
  by_cases c : inGrid x y ∧ g.map y x = CELL_PLAYER_BASE + p
  · rw [if_pos c, c.2]
    constructor
    · intro e; exact absurd e (by decide)
    · intro e; exact absurd e (token_ne_food p hp)
  · rw [if_neg c]

/-- The MOVE branch does not write to the grid. -/
theorem apply_move_map (g : GameState) (p : Int) (d : Nat) : (apply_move g p d).map = g.map := by
  rcases apply_move_cases g p d with e | e
  · rw [e]
  · rw [e]

/-- The slot scan of a login puts the token of the new slot on an empty cell. -/
theorem login_scan_food (l : List Nat) (g g1 : GameState) (rs rs1 : List Nat) (id : Int)
    (h : login_scan l g rs = some (g1, id, rs1)) :
    count_cells g1.map CELL_FOOD = count_cells g.map CELL_FOOD := by
  induction l with
  | nil =>
    simp only [login_scan, Option.some.injEq, Prod.mk.injEq] at h
    obtain ⟨rfl, _⟩ := h
    rfl
  | cons i more ih =>
    simp only [login_scan] at h
    split_ifs at h with hfree
    · split at h
      · simp at h
      · rename_i g2 rs2 hsp
        simp only [Option.some.injEq, Prod.mk.injEq] at h
        obtain ⟨rfl, _, _⟩ := h
        obtain ⟨r1, r2, hempty, hmap, _⟩ := login_slot_result g g2 rs rs2 i hsp
        rw [hmap]
        apply count_cells_congr
        intro x y _
        rw [setCell_apply]
        by_cases c : y = rand_coord r2 ∧ x = rand_coord r1
        · rw [if_pos c, c.1, c.2, hempty]
          constructor
          · intro e; exact absurd e (token_ne_food i (by omega))
          · intro e; exact absurd e (by decide)
        · rw [if_neg c]
    · exact ih h

/-- Every finished `handle_client_message` keeps the number of food cells. -/
theorem handle_client_message_food (stream rs : List Nat) (g : GameState) (pid : Int)
    (h : Handled) (hh : handle_client_message stream rs g pid = .done h) :
    count_cells h.state.map CELL_FOOD = count_cells g.map CELL_FOOD := by
  rcases handle_client_message_state stream rs g pid h hh with e | ⟨hp, e⟩ | ⟨id, rs1, e⟩ | ⟨d, e⟩
  · rw [e]
  · rw [e]; exact release_player_food g pid hp
  · exact login_scan_food _ g h.state rs rs1 id e
  · rw [e, apply_move_map]

/-- The sweep of a worker over one connection keeps the number of food cells. -/
theorem worker_sweep_food (timeout now : Int) (v : Nat) (g : GameState) (c : Client) :
    count_cells (worker_sweep timeout now v g c).state.map CELL_FOOD
      = count_cells g.map CELL_FOOD := by
  rcases worker_sweep_state timeout now v g c with e | ⟨hp, _, _, _, e⟩
  · rw [e]
  · rw [e]; exact release_player_food g _ hp

/-- One finished operation keeps the body invariant and the number of food cells. -/
theorem apply_op_food (g g1 : GameState) (o : Operation) (hinv : body_invariant g)
    (h : apply_op g o = some g1) :
    body_invariant g1 ∧ count_cells g1.map CELL_FOOD = count_cells g.map CELL_FOOD := by
  cases o with
  | tick rs =>
    cases hr : game_tick g rs with
    | none => simp [apply_op, hr] at h
    | some r =>
      obtain ⟨g2, rs2⟩ := r
      simp only [apply_op, hr, Option.map_some', Option.some.injEq] at h
      subst h
      exact ⟨game_tick_invariant g g2 rs rs2 hinv hr, game_tick_food g g2 rs rs2 hinv hr⟩
  | message stream rs pid =>
    cases hr : handle_client_message stream rs g pid with
    | done hd =>
      simp only [apply_op, hr, Outcome.result, Option.map_some', Option.some.injEq] at h
      subst h
      exact ⟨handle_client_message_invariant stream rs g pid hd hinv hr,
        handle_client_message_food stream rs g pid hd hr⟩
    | spin => simp [apply_op, hr, Outcome.result] at h
    | fault => simp [apply_op, hr, Outcome.result] at h
  | sweep timeout now v c =>
    simp only [apply_op, Option.some.injEq] at h
    subst h
    refine ⟨?_, worker_sweep_food timeout now v g c⟩
    rcases worker_sweep_state timeout now v g c with e | ⟨hp, _, _, _, e⟩
    · rw [e]; exact hinv
    · rw [e]; exact release_player_invariant g _ hp hinv

/-- A sequence of finished operations keeps the body invariant and the number
of food cells. -/
theorem run_ops_food (ops : List Operation) (g g1 : GameState) (hinv : body_invariant g)
    (h : run_ops ops g = some g1) :
    body_invariant g1 ∧ count_cells g1.map CELL_FOOD = count_cells g.map CELL_FOOD := by
  induction ops generalizing g with
  | nil =>
    simp only [run_ops, Option.some.injEq] at h
    subst h
    exact ⟨hinv, rfl⟩
  | cons o more ih =>
    simp only [run_ops] at h
    split at h
    · simp at h
    · rename_i g0 h0
      obtain ⟨hinv0, hc0⟩ := apply_op_food g g0 o hinv h0
      obtain ⟨hinv1, hc1⟩ := ih g0 hinv0 h
      exact ⟨hinv1, by rw [hc1, hc0]⟩

/-- Food put on an empty interior cell keeps the body invariant. -/
theorem food_cell_invariant (g : GameState) (x y : Int) (hxy : interior x y)
    (he : g.map y x = CELL_EMPTY) (hinv : body_invariant g) :
    body_invariant { g with map := setCell g.map y x CELL_FOOD } := by
  obtain ⟨⟨hw, hsh⟩, hst⟩ := hinv
  refine ⟨⟨fun x1 y1 hin hb => ?_, fun k hk hpk => hsh k hk hpk⟩, fun k hk hpk => ?_⟩
  · simp only
    rw [setCell_border _ _ _ _ _ _ hxy hb]
    exact hw x1 y1 hin hb
  · obtain ⟨hstamp, hdist⟩ := hst k hk hpk
    refine ⟨fun j hj => ?_, hdist⟩
    have hcell := hstamp j hj
    simp only [setCell_apply]
    have c : ¬ (((g.snakes k).body j).y = y ∧ ((g.snakes k).body j).x = x) := by
      rintro ⟨e1, e2⟩
      rw [e1, e2, he] at hcell
      unfold CELL_EMPTY CELL_PLAYER_BASE at hcell
      omega
    rw [if_neg c]
    exact hcell

theorem snake_before_food_invariant : body_invariant snake_before_food :=
  food_cell_invariant (lone_snake 1 1 DIR_RIGHT) 2 1 (by decide) (by decide)
    (lone_snake_invariant 1 1 DIR_RIGHT (by decide))

/-! ## Food conservation -/

/-- C21. Food is conserved: from a state with the body invariant, every
finished tick (each respawn of food has found an empty interior cell), every
finished `handle_client_message` (login, MOVE, LOGOUT, disconnect, any other
frame), so every login scan, every MOVE and every release of a slot, and every
sweep of a worker over a connection leaves the number of FOOD cells on the
grid unchanged; and so does every sequence of such operations. -/
theorem food_is_conserved (g : GameState) (hinv : body_invariant g) :
    (∀ rs g1 rs1, game_tick g rs = some (g1, rs1) →
        count_cells g1.map CELL_FOOD = count_cells g.map CELL_FOOD)
      ∧ (∀ stream rs pid h, handle_client_message stream rs g pid = .done h →
          count_cells h.state.map CELL_FOOD = count_cells g.map CELL_FOOD)
      ∧ (∀ rs g1 id rs1, login_scan (List.range MAX_PLAYERS) g rs = some (g1, id, rs1) →
          count_cells g1.map CELL_FOOD = count_cells g.map CELL_FOOD)
      ∧ (∀ p d, count_cells (apply_move g p d).map CELL_FOOD = count_cells g.map CELL_FOOD)
      ∧ (∀ p, 0 ≤ p →
          count_cells (release_player g p).map CELL_FOOD = count_cells g.map CELL_FOOD)
      ∧ (∀ timeout now v c,
          count_cells (worker_sweep timeout now v g c).state.map CELL_FOOD
            = count_cells g.map CELL_FOOD)
      ∧ (∀ ops g1, run_ops ops g = some g1 →
          count_cells g1.map CELL_FOOD = count_cells g.map CELL_FOOD) :=
  ⟨fun rs g1 rs1 h => game_tick_food g g1 rs rs1 hinv h,
   fun stream rs pid h hh => handle_client_message_food stream rs g pid h hh,
   fun rs g1 id rs1 h => login_scan_food _ g g1 rs rs1 id h,
   fun p d => by rw [apply_move_map],
   fun p hp => release_player_food g p hp,
   fun timeout now v c => worker_sweep_food timeout now v g c,
   fun ops g1 h => (run_ops_food ops g g1 hinv h).2⟩

theorem food_is_conserved_witness :
    body_invariant snake_before_food
      ∧ count_cells snake_before_food.map CELL_FOOD = 1
      ∧ (game_tick snake_before_food [19, 19]).map
          (fun r => (r.1.scores 0, (r.1.snakes 0).length, r.1.map 1 2, r.1.map 20 20))
        = some (1, 2, CELL_PLAYER_BASE + 0, CELL_FOOD)
      ∧ (∃ g1 rs1, game_tick snake_before_food [19, 19] = some (g1, rs1)
          ∧ count_cells g1.map CELL_FOOD = count_cells snake_before_food.map CELL_FOOD)
      ∧ (run_ops meal_run snake_before_food).map
          (fun g => (g.active_players 0, g.active_players 1, g.map 1 3, g.map 6 6, g.map 20 20))
        = some (1, 1, CELL_PLAYER_BASE + 0, CELL_PLAYER_BASE + 1, CELL_FOOD)
      ∧ ∃ g2, run_ops meal_run snake_before_food = some g2
          ∧ count_cells g2.map CELL_FOOD = count_cells snake_before_food.map CELL_FOOD := by
  refine ⟨snake_before_food_invariant, by decide, by decide, ?_, by decide, ?_⟩
  · have hs : (game_tick snake_before_food [19, 19]).isSome = true := by decide
    obtain ⟨⟨g1, rs1⟩, h⟩ := Option.isSome_iff_exists.mp hs
    exact ⟨g1, rs1, h, (food_is_conserved snake_before_food snake_before_food_invariant).1
      [19, 19] g1 rs1 h⟩
  · have hs : (run_ops meal_run snake_before_food).isSome = true := by decide
    obtain ⟨g2, h⟩ := Option.isSome_iff_exists.mp hs
    exact ⟨g2, h, (food_is_conserved snake_before_food
      snake_before_food_invariant).2.2.2.2.2.2 meal_run g2 h⟩

end NSP
